import Mathlib

/-!
# WikidataTextifier — formal model of the normalization / rendering pipeline

This file is a shallow embedding, in Lean 4, of the parts of the
WikidataTextifier repository that the verified claims are about:

* the per-property rank filtering shared by both normalizers
  (`JSONNormalizer._filter_by_rank`, the rank filter inside
  `TTLNormalizer._claims_for_subject`, and the `include` flags of
  `WikidataClaim.from_raw`);
* the temporal formatter `wikidata_time_to_text` with its helpers
  (`_parse_iso`, `_format_geologic`, `_format_years_with_cldr_or_wd`,
  `_format_point`, `_bucket_bounds_astrological`, `_range_label`,
  `_astronomical_to_human_era`);
* the spatial formatter `wikidata_geolocation_to_text`;
* the canonical value model (the dataclasses of `src/WikidataTextifier.py`
  and of `src/Textifier/WikidataTextifier.py`) together with their
  truthiness rules and their three renderers (structured / prose / triplet);
* the two normalizers `JSONNormalizer.normalize` and
  `TTLNormalizer.normalize`.

External collaborators (babel's locale data and formatting primitives,
dateutil's calendar arithmetic, and the label-resolution store) are
modelled as explicit capability records: the embedded functions take them
as parameters, mirroring how the source consumes them as opaque services.
Machine floats appear only in coordinate payloads; they are modelled as
rationals, which agrees with the float computation at every concrete input
used in this file.
-/

namespace WDT

/-! ## Rank filtering

`JSONNormalizer._filter_by_rank` receives the raw per-property statement
list (`claims[pid]`) and keeps statements according to the rank tie-break
rule.  A statement is modelled by its rank tag together with an opaque
payload standing for the rest of the statement dict.  `rank = none`
models `s.get("rank") is None` (the "rank" key absent, or `null`).
Non-dict entries of the raw list, which the Python code skips before any
rank logic runs, are not represented.  -/

structure RStmt where
  rank : Option String
  payload : String
  deriving DecidableEq, Repr

/-- `any(... s.get("rank") == "preferred" ...)` over a statement list. -/
def hasPreferred (l : List RStmt) : Bool :=
  l.any (fun s => s.rank == some "preferred")

/-- The body of the `for s in statements:` keep/drop chain of
`JSONNormalizer._filter_by_rank` (and, identically, of the rank filter in
`TTLNormalizer._claims_for_subject`), with `has_preferred` precomputed. -/
def rankKeep (hp : Bool) (s : RStmt) : Bool :=
  match s.rank with
  | none => true
  | some r => (hp && r == "preferred") || (!hp && r == "normal")

/-- `JSONNormalizer._filter_by_rank(statements, all_ranks=all_ranks)`. -/
def filterByRank (allRanks : Bool) (l : List RStmt) : List RStmt :=
  if allRanks then l
  else l.filter (rankKeep (hasPreferred l))

/-- The rank-filtering pass of `TTLNormalizer._claims_for_subject`:
the per-pid statement-group map is filtered group by group (`all_ranks`
returns the map unchanged). -/
def ttlClaimsRankFilter (allRanks : Bool) (m : List (String × List RStmt)) :
    List (String × List RStmt) :=
  if allRanks then m
  else m.map (fun g => (g.1, g.2.filter (rankKeep (hasPreferred g.2))))

/-- The `include` flag computed for one statement by
`WikidataClaim.from_raw` (lines 369-389 of `src/WikidataTextifier.py`):
no "rank" key means always include; otherwise `all_ranks` includes
everything, else normal-without-preferred or preferred-with-preferred. -/
def fromRawInclude (allRanks : Bool) (prefFound : Bool) (s : RStmt) : Bool :=
  match s.rank with
  | none => true
  | some r =>
    if allRanks then true
    else (r == "normal" && !prefFound) || (r == "preferred" && prefFound)

/-- The statements of `claim` that survive `WikidataClaim.from_raw`'s
`for value in claim if value['include']` comprehension. -/
def fromRawKept (allRanks : Bool) (l : List RStmt) : List RStmt :=
  l.filter (fromRawInclude allRanks (hasPreferred l))

/-- The rank-resolution rule exactly as the specification words it:
a statement with no rank tag is always kept; if any statement in the
group is "preferred", keep only "preferred"; otherwise keep only
"normal" (dropping "deprecated").  -/
def specRankKeep (group : List RStmt) (s : RStmt) : Bool :=
  match s.rank with
  | none => true
  | some r =>
    if group.any (fun t => t.rank == some "preferred")
    then r == "preferred" else r == "normal"

theorem rankKeep_eq_specRankKeep (l : List RStmt) (s : RStmt) :
    rankKeep (hasPreferred l) s = specRankKeep l s := by
  unfold rankKeep specRankKeep hasPreferred
  cases s.rank with
  | none => rfl
  | some r =>
    by_cases h : l.any (fun t => t.rank == some "preferred")
    · simp [h]
    · simp [h]

theorem fromRawInclude_eq_specRankKeep (l : List RStmt) (s : RStmt) :
    fromRawInclude false (hasPreferred l) s = specRankKeep l s := by
  unfold fromRawInclude specRankKeep hasPreferred
  cases s.rank with
  | none => rfl
  | some r =>
    by_cases h : l.any (fun t => t.rank == some "preferred")
    · simp [h, Bool.or_comm]
    · simp [h]

/-- **C2.**  Rank resolution: with `include_all_ranks = false`, all three
implementations (JSON normalizer filter, TTL normalizer filter, and the
legacy `WikidataClaim.from_raw` include flags) keep exactly the statements
selected by the specification's rule — untagged statements always, then
"preferred" only when some statement of the group is preferred, else
"normal" only — and the rule is applied per property group in the TTL
map.  With `include_all_ranks = true` every statement is kept. -/
theorem rank_resolution_rule (l : List RStmt) (m : List (String × List RStmt)) :
    filterByRank false l = l.filter (specRankKeep l) ∧
    filterByRank true l = l ∧
    fromRawKept false l = l.filter (specRankKeep l) ∧
    fromRawKept true l = l ∧
    ttlClaimsRankFilter false m
      = m.map (fun g => (g.1, g.2.filter (specRankKeep g.2))) ∧
    ttlClaimsRankFilter true m = m := by
  refine ⟨?_, rfl, ?_, ?_, ?_, rfl⟩
  · unfold filterByRank
    simp only [if_neg (Bool.false_ne_true)]
    exact List.filter_congr (fun s _ => rankKeep_eq_specRankKeep l s)
  · unfold fromRawKept
    exact List.filter_congr (fun s _ => fromRawInclude_eq_specRankKeep l s)
  · unfold fromRawKept fromRawInclude
    refine List.filter_eq_self.mpr (fun s _ => ?_)
    cases s.rank <;> rfl
  · unfold ttlClaimsRankFilter
    simp only [if_neg (Bool.false_ne_true)]
    exact List.map_congr_left (fun g _ => by
      exact congrArg (Prod.mk g.1)
        (List.filter_congr (fun s _ => rankKeep_eq_specRankKeep g.2 s)))

theorem filterByRank_false (l : List RStmt) :
    filterByRank false l = l.filter (rankKeep (hasPreferred l)) := by
  simp [filterByRank]

/-- Filtering does not change whether the group contains a preferred
statement. -/
theorem hasPreferred_filter (l : List RStmt) :
    hasPreferred (l.filter (rankKeep (hasPreferred l))) = hasPreferred l := by
  by_cases h : hasPreferred l = true
  · rw [h]
    unfold hasPreferred at h ⊢
    rw [List.any_eq_true] at h ⊢
    obtain ⟨s, hs, hpref⟩ := h
    refine ⟨s, List.mem_filter.mpr ⟨hs, ?_⟩, hpref⟩
    unfold rankKeep
    rw [beq_iff_eq] at hpref
    rw [hpref]
    simp
  · rw [Bool.not_eq_true] at h
    rw [h]
    unfold hasPreferred at h ⊢
    rw [Bool.eq_false_iff] at h ⊢
    intro hcon
    apply h
    rw [List.any_eq_true] at hcon ⊢
    obtain ⟨s, hs, hpref⟩ := hcon
    exact ⟨s, (List.mem_filter.mp hs).1, hpref⟩

theorem filterByRank_false_idem (l : List RStmt) :
    filterByRank false (filterByRank false l) = filterByRank false l := by
  rw [filterByRank_false l, filterByRank_false, hasPreferred_filter l,
    List.filter_filter]
  exact List.filter_congr (fun s _ => Bool.and_self _)

/-- **C9.**  Rank filtering is idempotent, for both normalizers and both
settings of `include_all_ranks`: filtering an already-filtered statement
list (with the same options) returns it unchanged. -/
theorem rank_filter_idempotent (allRanks : Bool) (l : List RStmt)
    (m : List (String × List RStmt)) :
    filterByRank allRanks (filterByRank allRanks l) = filterByRank allRanks l ∧
    ttlClaimsRankFilter allRanks (ttlClaimsRankFilter allRanks m)
      = ttlClaimsRankFilter allRanks m := by
  cases allRanks with
  | true => exact ⟨rfl, rfl⟩
  | false =>
    refine ⟨filterByRank_false_idem l, ?_⟩
    unfold ttlClaimsRankFilter
    simp only [if_neg (Bool.false_ne_true)]
    rw [List.map_map]
    refine List.map_congr_left (fun g _ => ?_)
    simp only [Function.comp_apply]
    rw [hasPreferred_filter g.2, List.filter_filter]
    exact congrArg (Prod.mk g.1)
      (List.filter_congr (fun s _ => Bool.and_self _))

/-! ## Spatial formatter

`utils.wikidata_geolocation_to_text`.  Python floats are modelled as
rationals; at the concrete coordinates used below the rational
computation and the IEEE-double computation agree digit for digit.
`int()` on the non-negative values that occur here is `Int.floor`;
Python `round(x, 1)` is round-half-to-even at one decimal. -/

/-- Python `round(a/d, 1)` for `d > 0`, returned as an integer number of
tenths (half-to-even tie-breaking): round `(a*10)/d` to the nearest
integer, ties to even. -/
def roundTenths (a : ℤ) (d : ℕ) : ℤ :=
  let f : ℤ := Int.fdiv (a * 10) d
  let r2 : ℤ := 2 * (a * 10 - f * d)
  if r2 < d then f
  else if r2 > d then f + 1
  else if f % 2 = 0 then f else f + 1

/-- `f"{seconds}".rstrip("0").rstrip(".")` for a one-decimal float given
as a non-negative number of tenths: `"30.0" -> "30"`, `"26.6" -> "26.6"`. -/
def fmtSecondsStr (t : ℤ) : String :=
  if t % 10 = 0 then toString (t / 10)
  else toString (t / 10) ++ "." ++ toString (t % 10)

/-- One half of `wikidata_geolocation_to_text` (the latitude and
longitude halves are verbatim copies of each other in the source, with
different hemisphere letters).  Mirrors the source order of operations:
the coordinate is replaced by its absolute value FIRST, and the
hemisphere test `>= 0` runs on that absolute value (so`hemiNeg` is
unreachable).  The rational arithmetic of the source
(`minutes_full = (latitude - degrees) * 60` etc.) is carried out on the
numerator over the fixed denominator `x.den`, which is exact:
`minutesFull = mn/d`, `seconds = sn/d`. -/
def dmsPart (x : ℚ) (hemiPos hemiNeg : String) : String :=
  let n0 : ℤ := |x.num|       -- numerator of abs(x); denominator is x.den
  let d : ℕ := x.den
  let hemi := if 0 ≤ n0 then hemiPos else hemiNeg
  let degrees : ℤ := Int.fdiv n0 d
  let mn : ℤ := (n0 - degrees * d) * 60
  let minutes : ℤ := Int.fdiv mn d
  let sn : ℤ := (mn - minutes * d) * 60
  let t := roundTenths sn d
  toString degrees ++ "°" ++ toString minutes ++ "\x27"
    ++ fmtSecondsStr t ++ "\"" ++ hemi

/-- `utils.wikidata_geolocation_to_text(latitude, longitude)`. -/
def wikidata_geolocation_to_text (latitude longitude : ℚ) : String :=
  dmsPart latitude "N" "S" ++ ", " ++ dmsPart longitude "E" "W"

/-- **C5.**  The hemisphere suffix is NOT determined by sign: the source
takes `abs()` before the sign test, so the `'S'` and `'W'` branches are
unreachable.  At the specification's own test point (latitude 51.5074,
longitude -0.1278) the code renders `...40.1"E`, not the specified
`...40.1"W` (degrees, minutes and rounded seconds themselves come out as
specified). -/
theorem geolocation_hemisphere_bug :
    wikidata_geolocation_to_text (mkRat 515074 10000) (mkRat (-1278) 10000)
      = "51°30\x2726.6\"N, 0°7\x2740.1\"E" ∧
    wikidata_geolocation_to_text (mkRat 515074 10000) (mkRat (-1278) 10000)
      ≠ "51°30\x2726.6\"N, 0°7\x2740.1\"W" := by
  constructor
  · decide
  · decide

/-! ## Temporal formatter

`utils.wikidata_time_to_text` and its helpers.  The babel locale data
(era names, CLDR unit display names, `format_date` / `format_time` /
`format_decimal` / `format_unit` patterns), the Wikidata label lookup
`get_temporal_label`, and dateutil's `relativedelta` calendar arithmetic
are external collaborators; they enter the embedding as the capability
record `TimeCaps`.  Exceptions are modelled by `Except TimeErr`:
`.value` stands for the `ValueError` / `TypeError` family that both
normalizers catch, `.key` for the `KeyError` raised by the
`DELTA_BY_PREC` / `time_formats` dictionary lookups at precisions above
14 (caught by the TTL normalizer only). -/

/-- A `datetime` as far as this pipeline observes it (the attached
`tzinfo` never influences the formatted digits, because only explicit
zone-free patterns are used; the UTC suffix is derived separately from
the raw offset). -/
structure DT where
  y : ℕ
  m : ℕ
  d : ℕ
  hh : ℕ
  mi : ℕ
  ss : ℕ
  deriving DecidableEq, Repr

/-- Error kinds of the temporal formatter. -/
inductive TimeErr where
  | value  -- ValueError / TypeError: bad ISO string, invalid date, bad tz offset
  | key    -- KeyError: precision above 14 in the point/range branch
  deriving DecidableEq, Repr

/-- The parsed `"time"` dict of a Wikidata time value, as
`wikidata_time_to_text` reads it.  `none` in an optional field models a
missing key (or an explicit `None`, which the `... or 0` idiom treats
the same way). -/
structure TimeValue where
  time : String
  timezone : Option Int := none
  before : Option Int := none
  after : Option Int := none
  precision : Option Int := none
  calendarmodel : String := ""
  deriving DecidableEq, Repr

/-- Locale / label / calendar-arithmetic capabilities consumed by the
formatter. -/
structure TimeCaps where
  /-- `loc.eras["abbreviated"]` as an association list (empty = absent). -/
  erasAbbrev : List (ℕ × String)
  /-- `loc.eras["wide"]`. -/
  erasWide : List (ℕ × String)
  /-- babel `format_decimal(n, locale=loc)`. -/
  formatDecimal : ℤ → String
  /-- `loc.unit_display_names['duration-year']` has a `'long'` entry. -/
  yearUnitLong : Bool
  /-- ... has a `'short'` entry. -/
  yearUnitShort : Bool
  /-- babel `format_unit(n, "year", locale, length='long')`. -/
  formatUnitYearLong : ℤ → String
  /-- babel `format_unit(n, "year", locale, length='short')`. -/
  formatUnitYearShort : ℤ → String
  /-- `get_temporal_label(key, lang)` (composite units, "year", QIDs). -/
  getTemporalLabel : String → Option String
  /-- `get_temporal_label(key, lang, fallback_lang='en')` (calendar names). -/
  getTemporalLabelFb : String → Option String
  /-- babel `format_date(dt, format="long", locale=loc)`. -/
  formatDateLong : DT → String
  /-- babel `format_date(dt, format="MMMM y", locale=loc)`. -/
  formatDateMonthYear : DT → String
  /-- babel `format_time(dt, format="HH:mm:ss", locale=loc)`. -/
  formatTimeHMS : DT → String
  /-- `format_time(dt, format="HH:mm", ...)`. -/
  formatTimeHM : DT → String
  /-- `format_time(dt, format="HH", ...)`. -/
  formatTimeH : DT → String
  /-- dateutil: `base - DELTA_BY_PREC[p] * after` (arguments: base, p, after). -/
  relSub : DT → ℤ → ℤ → DT
  /-- dateutil: `base + DELTA_BY_PREC[p] * before`. -/
  relAdd : DT → ℤ → ℤ → DT

/-- Python `abs` on an int. -/
def pyAbs (y : ℤ) : ℤ := if y < 0 then -y else y

/-- Python `min` on two ints. -/
def pyMin (a b : ℤ) : ℤ := if a ≤ b then a else b

/-- Python `max` on two ints. -/
def pyMax (a b : ℤ) : ℤ := if a < b then b else a

/-- Python `max` on two naturals (for the month/day defaults). -/
def pyMaxN (a b : ℕ) : ℕ := if a < b then b else a

/-- `_parse_iso` digit run to number. -/
def digitsToNat (cs : List Char) : ℕ :=
  cs.foldl (fun a c => a * 10 + (c.toNat - 48)) 0

/-- `utils._parse_iso`: the anchored regex
`^([+-])(\d{4,16})-(\d{2})-(\d{2})T(\d{2}):(\d{2}):(\d{2})Z$`.
The year group is a maximal digit run of length 4..16 followed by a
mandatory non-digit `-`, so maximal-munch scanning is equivalent to the
regex.  Returns `(sign*year, month, day, hour, minute, second)`. -/
def parseIso (s : String) : Option (ℤ × ℕ × ℕ × ℕ × ℕ × ℕ) :=
  match s.data with
  | [] => none
  | c :: rest =>
    if c = '+' ∨ c = '-' then
      let ys := rest.takeWhile Char.isDigit
      let rest1 := rest.dropWhile Char.isDigit
      if 4 ≤ ys.length ∧ ys.length ≤ 16 then
        match rest1 with
        | '-' :: m1 :: m2 :: '-' :: d1 :: d2 :: 'T' :: h1 :: h2 :: ':'
            :: i1 :: i2 :: ':' :: s1 :: s2 :: 'Z' :: [] =>
          if [m1, m2, d1, d2, h1, h2, i1, i2, s1, s2].all Char.isDigit then
            let sign : ℤ := if c = '-' then -1 else 1
            some (sign * digitsToNat ys, digitsToNat [m1, m2],
              digitsToNat [d1, d2], digitsToNat [h1, h2],
              digitsToNat [i1, i2], digitsToNat [s1, s2])
          else none
        | _ => none
      else none
    else none

/-- `eras.get("abbreviated") or eras.get("wide") or {0:"BC",1:"AD"}`
(an empty dict is falsy in Python, hence the nonemptiness tests). -/
def eraLabels (caps : TimeCaps) : List (ℕ × String) :=
  if caps.erasAbbrev ≠ [] then caps.erasAbbrev
  else if caps.erasWide ≠ [] then caps.erasWide
  else [(0, "BC"), (1, "AD")]

/-- `utils._astronomical_to_human_era`: human year plus optional era
label (`0 -> 1 BCE`, `-1 -> 2 BCE`, `1 -> 1 CE`). -/
def astronomicalToHumanEra (caps : TimeCaps) (year : ℤ) : ℤ × Option String :=
  if year ≤ 0 then (1 - year, some (((eraLabels caps).lookup 0).getD "BC"))
  else (year, none)

/-- `utils._range_label`. -/
def rangeLabel (caps : TimeCaps) (yStart yEnd : ℤ) : String :=
  let hs := (astronomicalToHumanEra caps yStart).1
  let es := (astronomicalToHumanEra caps yStart).2
  let he := (astronomicalToHumanEra caps yEnd).1
  let ee := (astronomicalToHumanEra caps yEnd).2
  if (es.isSome ∨ ee.isSome) ∧ es ≠ ee then
    let left := match es with
      | some e => toString hs ++ " " ++ e
      | none => toString hs
    let right := match ee with
      | some e => toString he ++ " " ++ e
      | none => toString he
    left ++ "–" ++ right
  else
    match es with
    | some e => toString hs ++ "–" ++ toString he ++ " " ++ e
    | none => toString hs ++ "–" ++ toString he

/-- `{8: 10, 7: 100, 6: 1000}[precision]` (callers guarantee 6..8). -/
def bucketWidth (precision : ℤ) : ℤ :=
  if precision = 8 then 10 else if precision = 7 then 100 else 1000

/-- `utils._bucket_bounds_astrological` (Python `//` is `Int.fdiv`). -/
def bucketBoundsAstrological (y : ℤ) (precision : ℤ) : ℤ × ℤ :=
  let human : ℤ := if y ≤ 0 then 1 - y else y
  let isBce : Bool := y ≤ 0
  let width := bucketWidth precision
  let base := (Int.fdiv human width) * width
  let lowH := base
  let highH := base + width - 1
  if isBce then (1 - highH, 1 - lowH) else (lowH, highH)

/-- The `eras` lookup at the top of `utils._format_geologic`
(`(getattr(loc, "eras", None) or {}).get("abbreviated", {}).get(0, "BC")`
— note: no `"wide"` fallback here, unlike `_astronomical_to_human_era`). -/
def geoBce (caps : TimeCaps) : String :=
  ((caps.erasAbbrev).lookup 0).getD "BC"

/-- `utils._format_years_with_cldr_or_wd`. -/
def formatYearsWithCldrOrWd (caps : TimeCaps) (absYear : ℤ) (bce : String) :
    String :=
  if caps.yearUnitLong then caps.formatUnitYearLong absYear ++ " " ++ bce
  else if caps.yearUnitShort then caps.formatUnitYearShort absYear ++ " " ++ bce
  else
    let numStr := caps.formatDecimal absYear
    let unitWord := match caps.getTemporalLabel "year" with
      | some w => w
      | none => if absYear = 1 then "year" else "years"
    numStr ++ " " ++ unitWord ++ " " ++ bce

/-- `utils._format_geologic`: the `for factor, key in scales:` loop
unrolled over its literal scale list
`[(1e9, billion), (1e6, million), (1e5, hundred-thousand)]`.  Only the
first dividing factor is tried (the loop breaks); a missing unit label,
or the special case `abs_year == 100_000`, falls back to plain year
formatting. -/
def formatGeologic (caps : TimeCaps) (absYear : ℤ) : String :=
  let bce := geoBce caps
  let fallback := formatYearsWithCldrOrWd caps absYear bce
  if absYear % 1000000000 = 0 then
    match caps.getTemporalLabel "billion_years" with
    | some lbl =>
      caps.formatDecimal (Int.fdiv absYear 1000000000) ++ " " ++ lbl ++ " " ++ bce
    | none => fallback
  else if absYear % 1000000 = 0 then
    match caps.getTemporalLabel "million_years" with
    | some lbl =>
      caps.formatDecimal (Int.fdiv absYear 1000000) ++ " " ++ lbl ++ " " ++ bce
    | none => fallback
  else if absYear % 100000 = 0 then
    if Int.fdiv absYear 100000 = 1 then fallback
    else
      match caps.getTemporalLabel "hundred_thousand_years" with
      | some lbl =>
        caps.formatDecimal (Int.fdiv absYear 100000) ++ " " ++ lbl ++ " " ++ bce
      | none => fallback
  else fallback

/-- `utils._format_point`.  Precisions 15 and above raise `KeyError` on
`time_formats[precision]`. -/
def formatPoint (caps : TimeCaps) (dt : DT) (precision : ℤ) :
    Except TimeErr String :=
  if precision ≥ 12 then
    if precision > 14 then .error .key
    else
      let dateStr := caps.formatDateLong dt
      let timeStr :=
        if precision = 14 then caps.formatTimeHMS dt
        else if precision = 13 then caps.formatTimeHM dt
        else caps.formatTimeH dt
      .ok (dateStr ++ " " ++ timeStr)
  else if precision = 11 then .ok (caps.formatDateLong dt)
  else if precision = 10 then .ok (caps.formatDateMonthYear dt)
  else if precision = 9 then
    .ok (toString (if dt.y > 0 then dt.y else 1))
  else .ok ""

/-- Gregorian leap year (what Python `datetime` validates against). -/
def isLeapGregorian (y : ℕ) : Bool :=
  y % 4 = 0 ∧ (y % 100 ≠ 0 ∨ y % 400 = 0)

/-- Days in a month of the proleptic Gregorian calendar. -/
def daysInMonth (y m : ℕ) : ℕ :=
  if m = 2 then (if isLeapGregorian y then 29 else 28)
  else if m = 4 ∨ m = 6 ∨ m = 9 ∨ m = 11 then 30
  else 31

/-- `datetime(y, m, d, H, M, S)`: `None` models the `ValueError` raised
on out-of-range components. -/
def mkDatetime (y m d hh mi ss : ℕ) : Option DT :=
  if 1 ≤ m ∧ m ≤ 12 ∧ 1 ≤ d ∧ d ≤ daysInMonth y m
      ∧ hh ≤ 23 ∧ mi ≤ 59 ∧ ss ≤ 59 then
    some ⟨y, m, d, hh, mi, ss⟩
  else none

/-- `str.rsplit("/", 1)[-1]`: the substring after the last slash (the
whole string when there is none). -/
def lastAfterSlash (s : String) : String :=
  String.mk (s.data.foldl (fun acc c => if c = '/' then [] else acc ++ [c]) [])

/-- Zero-padded two-digit rendering, for the `{hh:02d}` format items of
the UTC suffix. -/
def pad2 (n : ℤ) : String :=
  if n < 10 then "0" ++ toString n else toString n

/-- The tail of `wikidata_time_to_text`: append ` UTC±hh:mm` when the
precision is at least 12 and the offset is non-zero, then append the
parenthesised calendar name when the calendar is not the default
Gregorian `Q1985727` and its label resolves. -/
def attachSuffixes (caps : TimeCaps) (precision : ℤ) (tzmin : ℤ)
    (calId : String) (label : String) : String :=
  let label :=
    if precision ≥ 12 ∧ tzmin ≠ 0 then
      let sign := if tzmin ≥ 0 then "+" else "-"
      let hh := (Int.natAbs tzmin) / 60
      let mm := (Int.natAbs tzmin) % 60
      label ++ " UTC" ++ sign ++ pad2 hh ++ ":" ++ pad2 mm
    else label
  if calId ≠ "Q1985727" then
    match caps.getTemporalLabelFb calId with
    | some cal => label ++ " (" ++ cal ++ ")"
    | none => label
  else label

/-- `utils.wikidata_time_to_text(value, lang)`.

Pitfall preserved from the source: `precision = int(value.get("precision",
11) or 11)` — Python's `or` treats the integer `0` as falsy, so an
explicit precision 0 is silently replaced by the default 11, and the
deep-time branch is only reachable for precisions 1..5.  Likewise
`timezone`/`before`/`after` use the `... or 0` idiom. -/
def wikidata_time_to_text (caps : TimeCaps) (v : TimeValue) :
    Except TimeErr String := do
  match parseIso v.time with
  | none => .error .value
  | some (y, m, d, hh, mi, ss) =>
    let tzmin : ℤ := v.timezone.getD 0
    let before : ℤ := v.before.getD 0
    let after : ℤ := v.after.getD 0
    let precision : ℤ := match v.precision with
      | none => 11
      | some p => if p = 0 then 11 else p
    let calId := lastAfterSlash v.calendarmodel
    match mkDatetime (Int.toNat (pyMin (pyMax (pyAbs y) 1) 9999)) (pyMaxN m 1)
        (pyMaxN d 1) hh mi ss with
    | none => .error .value
    | some base =>
      if ¬(-1440 < tzmin ∧ tzmin < 1440) then .error .value
      else if precision ≤ 5 then .ok (formatGeologic caps (pyAbs y))
      else if precision = 8 ∨ precision = 7 ∨ precision = 6 then
        let ab :=
          if before ≠ 0 ∨ after ≠ 0 then
            let width := bucketWidth precision
            let human : ℤ := if y ≤ 0 then 1 - y else y
            let isBce : Bool := y ≤ 0
            let lowH := (Int.fdiv human width) * width - after * width
            let highH := (Int.fdiv human width) * width + (width - 1)
              + before * width
            if isBce then (1 - highH, 1 - lowH) else (lowH, highH)
          else bucketBoundsAstrological y precision
        .ok (attachSuffixes caps precision tzmin calId
          (rangeLabel caps ab.1 ab.2))
      else
        if before ≠ 0 ∨ after ≠ 0 then
          if precision < 9 ∨ precision > 14 then .error .key
          else
            let start := if after ≠ 0 then caps.relSub base precision after
              else base
            let stop := if before ≠ 0 then caps.relAdd base precision before
              else base
            let s1 ← formatPoint caps start precision
            let s2 ← formatPoint caps stop precision
            .ok (attachSuffixes caps precision tzmin calId (s1 ++ "–" ++ s2))
        else do
          let s ← formatPoint caps base precision
          .ok (attachSuffixes caps precision tzmin calId s)

/-! ### Concrete capabilities for counterexamples and witnesses

A transparent locale: decimal formatting is plain `toString`, the date
formatters reveal the civil components they receive, the composite time
units and the Julian calendar have labels, and the CLDR year unit is
absent (so the plain-year fallback goes through the label path). -/

def revealCaps : TimeCaps where
  erasAbbrev := []
  erasWide := []
  formatDecimal := fun n => toString n
  yearUnitLong := false
  yearUnitShort := false
  formatUnitYearLong := fun _ => ""
  formatUnitYearShort := fun _ => ""
  getTemporalLabel := fun k =>
    if k = "billion_years" then some "billion years"
    else if k = "million_years" then some "million years"
    else if k = "hundred_thousand_years" then some "hundred thousand years"
    else none
  getTemporalLabelFb := fun k =>
    if k = "Q1985786" then some "Julian calendar" else none
  formatDateLong := fun dt =>
    "date:" ++ toString dt.y ++ "-" ++ toString dt.m ++ "-" ++ toString dt.d
  formatDateMonthYear := fun dt => "my:" ++ toString dt.m ++ "/" ++ toString dt.y
  formatTimeHMS := fun _ => "hms"
  formatTimeHM := fun _ => "hm"
  formatTimeH := fun _ => "h"
  relSub := fun b _ _ => b
  relAdd := fun b _ _ => b

/-- A precision-0 payload: one billion years before the epoch, exactly
divisible by 10^9. -/
def precZeroPayload : TimeValue :=
  { time := "+1000000000-01-01T00:00:00Z"
    precision := some 0
    calendarmodel := "http://www.wikidata.org/entity/Q1985727" }

/-- **C3, counterexample.**  A time payload with precision 0 is NOT
rendered as deep time: `int(value.get("precision", 11) or 11)` replaces
the falsy integer 0 by the default 11, so the payload above is rendered
through the day-precision path on the year clamped to 9999 — not with
the billion-years composite unit that the deep-time formatter would
produce for the same year. -/
instance : DecidableEq (Except TimeErr String) := fun a b =>
  match a, b with
  | .ok x, .ok y =>
    if h : x = y then isTrue (by rw [h])
    else isFalse (fun hc => h (Except.ok.inj hc))
  | .error x, .error y =>
    if h : x = y then isTrue (by rw [h])
    else isFalse (fun hc => h (Except.error.inj hc))
  | .ok _, .error _ => isFalse (fun hc => Except.noConfusion hc)
  | .error _, .ok _ => isFalse (fun hc => Except.noConfusion hc)

theorem deep_time_precision0_cex :
    wikidata_time_to_text revealCaps precZeroPayload = .ok "date:9999-1-1" ∧
    formatGeologic revealCaps 1000000000 = "1 billion years BC" ∧
    ("date:9999-1-1" : String) ≠ "1 billion years BC" := by
  refine ⟨by decide, by decide, by decide⟩

theorem mkDatetime_some_eq {y m d hh mi ss : ℕ} {dt : DT}
    (h : mkDatetime y m d hh mi ss = some dt) : dt = ⟨y, m, d, hh, mi, ss⟩ := by
  unfold mkDatetime at h
  split_ifs at h
  exact (Option.some.inj h).symm

/-- **C3, amended.**  For precisions 1–5 (precision 0 is coerced to the
default 11 by the `or` idiom) the formatter renders
`_format_geologic(loc, abs(year))`, and `_format_geologic` behaves as
the claim states: a year exactly divisible by 10^9 / 10^6 / 10^5 (first
divisor wins) renders as the count with the corresponding composite-unit
label and the era suffix, except that exactly one hundred thousand falls
through to plain year formatting; a year with no such divisor renders
via the plain-year formatter with the era suffix.  In particular an
absolute year of 10^11 (precision 5, astronomical year -10^11) uses the
billion-years unit with count 100. -/
theorem deep_time_formatting (caps : TimeCaps) (v : TimeValue)
    (y : ℤ) (m d hh mi ss : ℕ) (p : ℤ) (dtb : DT)
    (hparse : parseIso v.time = some (y, m, d, hh, mi, ss))
    (hprec : v.precision = some p) (hp1 : 1 ≤ p) (hp5 : p ≤ 5)
    (hdate : mkDatetime (Int.toNat (pyMin (pyMax (pyAbs y) 1) 9999))
      (pyMaxN m 1) (pyMaxN d 1) hh mi ss = some dtb)
    (htz : -1440 < v.timezone.getD 0 ∧ v.timezone.getD 0 < 1440) :
    wikidata_time_to_text caps v = .ok (formatGeologic caps (pyAbs y)) ∧
    (∀ ay lbl, ay % 1000000000 = 0 →
      caps.getTemporalLabel "billion_years" = some lbl →
      formatGeologic caps ay
        = caps.formatDecimal (Int.fdiv ay 1000000000) ++ " " ++ lbl ++ " "
          ++ geoBce caps) ∧
    (∀ ay lbl, ¬ ay % 1000000000 = 0 → ay % 1000000 = 0 →
      caps.getTemporalLabel "million_years" = some lbl →
      formatGeologic caps ay
        = caps.formatDecimal (Int.fdiv ay 1000000) ++ " " ++ lbl ++ " "
          ++ geoBce caps) ∧
    (∀ ay lbl, ¬ ay % 1000000000 = 0 → ¬ ay % 1000000 = 0 →
      ay % 100000 = 0 → ¬ Int.fdiv ay 100000 = 1 →
      caps.getTemporalLabel "hundred_thousand_years" = some lbl →
      formatGeologic caps ay
        = caps.formatDecimal (Int.fdiv ay 100000) ++ " " ++ lbl ++ " "
          ++ geoBce caps) ∧
    (formatGeologic caps 100000
      = formatYearsWithCldrOrWd caps 100000 (geoBce caps)) ∧
    (∀ ay, ¬ ay % 100000 = 0 →
      formatGeologic caps ay = formatYearsWithCldrOrWd caps ay (geoBce caps)) ∧
    (∀ lbl, caps.getTemporalLabel "billion_years" = some lbl →
      formatGeologic caps 100000000000
        = caps.formatDecimal 100 ++ " " ++ lbl ++ " " ++ geoBce caps) := by
  have hp0 : ¬ (p = 0) := by omega
  have hcond : ¬¬(-1440 < v.timezone.getD 0 ∧ v.timezone.getD 0 < 1440) :=
    not_not_intro htz
  refine ⟨?_, ?_, ?_, ?_, ?_, ?_, ?_⟩
  · simp only [wikidata_time_to_text, hparse, hprec, hp0, if_false, hdate,
      if_neg hcond, if_pos hp5]
  · intro ay lbl h9 hlbl
    simp only [formatGeologic, if_pos h9, hlbl]
  · intro ay lbl h9 h6 hlbl
    simp only [formatGeologic, if_neg h9, if_pos h6, hlbl]
  · intro ay lbl h9 h6 h5 hno1 hlbl
    simp only [formatGeologic, if_neg h9, if_neg h6, if_pos h5, if_neg hno1,
      hlbl]
  · have h9 : ¬ ((100000 : ℤ) % 1000000000 = 0) := by decide
    have h6 : ¬ ((100000 : ℤ) % 1000000 = 0) := by decide
    have h5 : ((100000 : ℤ) % 100000 = 0) := by decide
    have h1 : Int.fdiv 100000 100000 = 1 := by decide
    simp only [formatGeologic, if_neg h9, if_neg h6, if_pos h5, h1]
    simp
  · intro ay h5
    have h9 : ¬ (ay % 1000000000 = 0) := by omega
    have h6 : ¬ (ay % 1000000 = 0) := by omega
    simp only [formatGeologic, if_neg h9, if_neg h6, if_neg h5]
  · intro lbl hlbl
    have h9 : ((100000000000 : ℤ) % 1000000000 = 0) := by decide
    have hq : Int.fdiv (100000000000 : ℤ) 1000000000 = 100 := by decide
    simp only [formatGeologic, if_pos h9, hlbl, hq]

/-- The precision-5, year −10^11 payload of the specification. -/
def deepTimeWitnessPayload : TimeValue :=
  { time := "-100000000000-01-01T00:00:00Z"
    precision := some 5
    calendarmodel := "http://www.wikidata.org/entity/Q1985727" }

theorem deep_time_formatting_witness :
    (wikidata_time_to_text revealCaps deepTimeWitnessPayload
        = .ok (formatGeologic revealCaps (pyAbs (-100000000000))) ∧
      (∀ ay lbl, ay % 1000000000 = 0 →
        revealCaps.getTemporalLabel "billion_years" = some lbl →
        formatGeologic revealCaps ay
          = revealCaps.formatDecimal (Int.fdiv ay 1000000000) ++ " " ++ lbl
            ++ " " ++ geoBce revealCaps) ∧
      (∀ ay lbl, ¬ ay % 1000000000 = 0 → ay % 1000000 = 0 →
        revealCaps.getTemporalLabel "million_years" = some lbl →
        formatGeologic revealCaps ay
          = revealCaps.formatDecimal (Int.fdiv ay 1000000) ++ " " ++ lbl
            ++ " " ++ geoBce revealCaps) ∧
      (∀ ay lbl, ¬ ay % 1000000000 = 0 → ¬ ay % 1000000 = 0 →
        ay % 100000 = 0 → ¬ Int.fdiv ay 100000 = 1 →
        revealCaps.getTemporalLabel "hundred_thousand_years" = some lbl →
        formatGeologic revealCaps ay
          = revealCaps.formatDecimal (Int.fdiv ay 100000) ++ " " ++ lbl
            ++ " " ++ geoBce revealCaps) ∧
      (formatGeologic revealCaps 100000
        = formatYearsWithCldrOrWd revealCaps 100000 (geoBce revealCaps)) ∧
      (∀ ay, ¬ ay % 100000 = 0 →
        formatGeologic revealCaps ay
          = formatYearsWithCldrOrWd revealCaps ay (geoBce revealCaps)) ∧
      (∀ lbl, revealCaps.getTemporalLabel "billion_years" = some lbl →
        formatGeologic revealCaps 100000000000
          = revealCaps.formatDecimal 100 ++ " " ++ lbl ++ " "
            ++ geoBce revealCaps)) ∧
    formatGeologic revealCaps (pyAbs (-100000000000)) = "100 billion years BC" :=
  ⟨deep_time_formatting revealCaps deepTimeWitnessPayload
      (-100000000000) 1 1 0 0 0 5 ⟨9999, 1, 1, 0, 0, 0⟩
      (by decide) rfl (by decide) (by decide) (by decide) (by decide),
    by decide⟩

/-! ### Julian calendar conversion (C4)

The specification requires Julian-calendar civil dates to be converted
to the proleptic Gregorian calendar by ordinal-day arithmetic before
formatting.  The following three definitions formalise exactly that
required conversion — the source contains no such conversion anywhere,
which the counterexample below exhibits. -/

/-- Days before the first of month `m` (1..12); `leap` adds the 29th of
February. -/
def cumDaysBeforeMonth (leap : Bool) (m : ℤ) : ℤ :=
  let base :=
    if m = 1 then 0 else if m = 2 then 31 else if m = 3 then 59
    else if m = 4 then 90 else if m = 5 then 120 else if m = 6 then 151
    else if m = 7 then 181 else if m = 8 then 212 else if m = 9 then 243
    else if m = 10 then 273 else if m = 11 then 304 else 334
  if leap ∧ m ≥ 3 then base + 1 else base

/-- Ordinal day number (day 1 = proleptic Gregorian 0001-01-01) of a
Julian-calendar civil date; Julian leap rule: every fourth year. -/
def rdOfJulian (y m d : ℤ) : ℤ :=
  365 * (y - 1) + Int.fdiv (y - 1) 4
    + cumDaysBeforeMonth (decide (y % 4 = 0)) m + d - 2

/-- Proleptic-Gregorian civil date of an ordinal day number (standard
era/day-of-era arithmetic on 400-year cycles). -/
def gregorianOfRd (rd : ℤ) : ℤ × ℤ × ℤ :=
  let z := rd + 305
  let era := Int.fdiv z 146097
  let doe := z - era * 146097
  let yoe := Int.fdiv
    (doe - Int.fdiv doe 1460 + Int.fdiv doe 36524 - Int.fdiv doe 146096) 365
  let yy := yoe + era * 400
  let doy := doe - (365 * yoe + Int.fdiv yoe 4 - Int.fdiv yoe 100)
  let mp := Int.fdiv (5 * doy + 2) 153
  let dd := doy - Int.fdiv (153 * mp + 2) 5 + 1
  let mm := mp + (if mp < 10 then 3 else -9)
  (yy + (if mm ≤ 2 then 1 else 0), mm, dd)

/-- The civil-date conversion the specification describes ("convert the
civil date to the proleptic Gregorian calendar via ordinal-day
arithmetic"). -/
def julianToGregorian (y m d : ℤ) : ℤ × ℤ × ℤ :=
  gregorianOfRd (rdOfJulian y m d)

/-- A Julian-calendar (Q1985786) date payload: 1 March 1500 (Julian),
positive 4-digit year. -/
def julianPayload : TimeValue :=
  { time := "+1500-03-01T00:00:00Z"
    precision := some 11
    calendarmodel := "http://www.wikidata.org/entity/Q1985786" }

/-- **C4, counterexample.**  The formatter does NOT convert
Julian-calendar dates: the rendered string shows the civil date
1500-03-01 exactly as parsed (plus the parenthesised calendar label),
while the ordinal-day conversion required by the claim yields the
different Gregorian date 1500-03-11. -/
theorem julian_no_conversion_cex :
    wikidata_time_to_text revealCaps julianPayload
      = .ok "date:1500-3-1 (Julian calendar)" ∧
    julianToGregorian 1500 3 1 = (1500, 3, 11) ∧
    ((1500, 3, 11) : ℤ × ℤ × ℤ) ≠ (1500, 3, 1) := by
  refine ⟨by decide, by decide, by decide⟩

/-- **C4, amended.**  No calendar conversion is performed for any
calendar model: at day precision (11) with no uncertainty bounds, the
point formatter receives the civil date exactly as parsed — with the
year replaced by `min(max(abs(y),1),9999)` and month/day defaulted to at
least 1 — and the only calendar-dependent behavior is the parenthesised
calendar-name suffix appended for calendars other than the Gregorian
default Q1985727 (when the label lookup succeeds, inside
`attachSuffixes`). -/
theorem civil_date_formatted_as_given (caps : TimeCaps) (v : TimeValue)
    (y : ℤ) (m d hh mi ss : ℕ) (dtb : DT)
    (hparse : parseIso v.time = some (y, m, d, hh, mi, ss))
    (hprec : v.precision = some 11)
    (hb : v.before.getD 0 = 0) (ha : v.after.getD 0 = 0)
    (hdate : mkDatetime (Int.toNat (pyMin (pyMax (pyAbs y) 1) 9999))
      (pyMaxN m 1) (pyMaxN d 1) hh mi ss = some dtb)
    (htz : -1440 < v.timezone.getD 0 ∧ v.timezone.getD 0 < 1440) :
    wikidata_time_to_text caps v
      = .ok (attachSuffixes caps 11 (v.timezone.getD 0)
          (lastAfterSlash v.calendarmodel) (caps.formatDateLong dtb)) ∧
    dtb = ⟨Int.toNat (pyMin (pyMax (pyAbs y) 1) 9999), pyMaxN m 1,
      pyMaxN d 1, hh, mi, ss⟩ := by
  have hcond : ¬¬(-1440 < v.timezone.getD 0 ∧ v.timezone.getD 0 < 1440) :=
    not_not_intro htz
  constructor
  · simp only [wikidata_time_to_text, hparse, hprec, hdate, if_neg hcond, hb,
      ha]
    norm_num [formatPoint]
    rfl
  · exact mkDatetime_some_eq hdate

theorem civil_date_formatted_as_given_witness :
    (wikidata_time_to_text revealCaps julianPayload
      = .ok (attachSuffixes revealCaps 11 (julianPayload.timezone.getD 0)
          (lastAfterSlash julianPayload.calendarmodel)
          (revealCaps.formatDateLong ⟨1500, 3, 1, 0, 0, 0⟩)) ∧
    (⟨1500, 3, 1, 0, 0, 0⟩ : DT)
      = ⟨Int.toNat (pyMin (pyMax (pyAbs 1500) 1) 9999), pyMaxN 3 1,
          pyMaxN 1 1, 0, 0, 0⟩) ∧
    attachSuffixes revealCaps 11 (julianPayload.timezone.getD 0)
        (lastAfterSlash julianPayload.calendarmodel)
        (revealCaps.formatDateLong ⟨1500, 3, 1, 0, 0, 0⟩)
      = "date:1500-3-1 (Julian calendar)" :=
  ⟨civil_date_formatted_as_given revealCaps julianPayload 1500 3 1 0 0 0
      ⟨1500, 3, 1, 0, 0, 0⟩ (by decide) rfl (by decide) (by decide)
      (by decide) (by decide),
    by decide⟩

/-- **C10.**  In the precision band 9–14 the formatter only ever sees
the year through `min(max(abs(y),1),9999)`: flipping the sign of the
astronomical year leaves the rendered string unchanged, and (with no
uncertainty bounds) the rendered string is the point format of the
clamped absolute components followed only by the UTC / calendar
suffixes — no era suffix is attached on this path. -/
theorem year_band_sign_invariance (caps : TimeCaps) (v vneg : TimeValue)
    (y : ℤ) (m d hh mi ss : ℕ) (p : ℤ)
    (hparse : parseIso v.time = some (y, m, d, hh, mi, ss))
    (hparse2 : parseIso vneg.time = some (-y, m, d, hh, mi, ss))
    (htz : vneg.timezone = v.timezone) (hbe : vneg.before = v.before)
    (haf : vneg.after = v.after) (hpr : vneg.precision = v.precision)
    (hcal : vneg.calendarmodel = v.calendarmodel)
    (hprec : v.precision = some p) (h9 : 9 ≤ p) (h14 : p ≤ 14) :
    wikidata_time_to_text caps v = wikidata_time_to_text caps vneg ∧
    (v.before.getD 0 = 0 → v.after.getD 0 = 0 →
      ∀ dtb, mkDatetime (Int.toNat (pyMin (pyMax (pyAbs y) 1) 9999))
          (pyMaxN m 1) (pyMaxN d 1) hh mi ss = some dtb →
        (-1440 < v.timezone.getD 0 ∧ v.timezone.getD 0 < 1440) →
        wikidata_time_to_text caps v
          = (formatPoint caps dtb p).map
              (attachSuffixes caps p (v.timezone.getD 0)
                (lastAfterSlash v.calendarmodel)) ∧
        dtb.y = Int.toNat (pyMin (pyMax (pyAbs y) 1) 9999)) := by
  have habs : pyAbs (-y) = pyAbs y := by
    unfold pyAbs
    rcases lt_trichotomy y 0 with h | h | h
    · rw [if_neg (by omega), if_pos h]
    · subst h
      norm_num
    · rw [if_pos (by omega), if_neg (by omega), neg_neg]
  have hp0 : ¬ (p = 0) := by omega
  have hp5 : ¬ (p ≤ 5) := by omega
  have hp876 : ¬ (p = 8 ∨ p = 7 ∨ p = 6) := by omega
  constructor
  · simp only [wikidata_time_to_text, hparse, hparse2, htz, hbe, haf, hpr,
      hcal, hprec, hp0, if_false, hp5, hp876, habs]
  · intro hb ha dtb hdate htzv
    have hcond : ¬¬(-1440 < v.timezone.getD 0 ∧ v.timezone.getD 0 < 1440) :=
      not_not_intro htzv
    have hp0 : ¬ (p = 0) := by omega
    have hp5 : ¬ (p ≤ 5) := by omega
    have hp876 : ¬ (p = 8 ∨ p = 7 ∨ p = 6) := by omega
    constructor
    · simp only [wikidata_time_to_text, hparse, hprec, hp0, if_false, hdate,
        if_neg hcond, if_neg hp5, if_neg hp876, hb, ha, ne_eq,
        not_true_eq_false, or_self, if_neg (show ¬((0:ℤ) ≠ 0 ∨ (0:ℤ) ≠ 0)
          by simp)]
      cases hfp : formatPoint caps dtb p <;> rfl
    · rw [mkDatetime_some_eq hdate]

def signFlipPayloadPos : TimeValue :=
  { time := "+0005-03-02T00:00:00Z"
    precision := some 11
    calendarmodel := "http://www.wikidata.org/entity/Q1985727" }

def signFlipPayloadNeg : TimeValue :=
  { time := "-0005-03-02T00:00:00Z"
    precision := some 11
    calendarmodel := "http://www.wikidata.org/entity/Q1985727" }

theorem year_band_sign_invariance_witness :
    (wikidata_time_to_text revealCaps signFlipPayloadPos
        = wikidata_time_to_text revealCaps signFlipPayloadNeg ∧
      (signFlipPayloadPos.before.getD 0 = 0 →
        signFlipPayloadPos.after.getD 0 = 0 →
        ∀ dtb, mkDatetime (Int.toNat (pyMin (pyMax (pyAbs 5) 1) 9999))
            (pyMaxN 3 1) (pyMaxN 2 1) 0 0 0 = some dtb →
          (-1440 < signFlipPayloadPos.timezone.getD 0 ∧
            signFlipPayloadPos.timezone.getD 0 < 1440) →
          wikidata_time_to_text revealCaps signFlipPayloadPos
            = (formatPoint revealCaps dtb 11).map
                (attachSuffixes revealCaps 11
                  (signFlipPayloadPos.timezone.getD 0)
                  (lastAfterSlash signFlipPayloadPos.calendarmodel)) ∧
          dtb.y = Int.toNat (pyMin (pyMax (pyAbs 5) 1) 9999))) ∧
    wikidata_time_to_text revealCaps signFlipPayloadPos = .ok "date:5-3-2" :=
  ⟨year_band_sign_invariance revealCaps signFlipPayloadPos signFlipPayloadNeg
      5 3 2 0 0 0 11 (by decide) (by decide) rfl rfl rfl rfl rfl rfl
      (by decide) (by decide),
    by decide⟩

/-! ## The canonical value model

The graph dataclasses exist twice in the repository:
`src/WikidataTextifier.py` (the module the JSON normalizer imports; its
prose renderer is `__str__`) and `src/Textifier/WikidataTextifier.py`
(the module the TTL normalizer imports; its prose renderer is
`to_text`).  Both modules share one graph shape, embedded once below;
the renderers and truthiness predicates are embedded separately per
module (`old*` = `src/WikidataTextifier.py`, `new*` =
`src/Textifier/WikidataTextifier.py`).

Modelling decisions:
* A label slot holds either a plain string (subject labels, which
  `get_lang_val` always returns as a `str`), a `LazyLabel` carrying the
  string it resolves to (resolution is a pure capability here), or
  `None`.  Python truthiness differs per case: a `LazyLabel` object is
  always truthy, a plain `""` is falsy — `Lbl.pyTruthy` captures this.
* The `ClaimValue -> Claim` back-reference is consulted by the
  renderers only for the owning claim's datatype (`to_json`), so the
  embedding stores that datatype in the claim value
  (`claimDatatype`); the `Claim -> subject` back-reference is never read
  by any renderer and is omitted.
* Nested lists are encoded as the mutual list types `WClaimList` /
  `WCValueList` / `WRefList` so that all renderers are structurally
  recursive.
* Quantity amounts are `String` (every constructor call in the
  normalizers passes a string); `""` is the falsy case of
  `if not self.amount`.
-/

/-- A resolved label slot. -/
inductive Lbl where
  | plain (s : String)
  | lazy (s : String)
  deriving DecidableEq, Repr

/-- `str(...)` of a label slot's content. -/
def Lbl.str : Lbl → String
  | .plain s => s
  | .lazy s => s

/-- Python truthiness of a label slot: a `LazyLabel` is an object and
always truthy; a plain string is truthy iff non-empty. -/
def Lbl.pyTruthy : Lbl → Bool
  | .plain s => s ≠ ""
  | .lazy _ => true

/-- `str(x)` where `x` is a label slot or `None`. -/
def pyStrOptLbl : Option Lbl → String
  | none => "None"
  | some l => l.str

/-- Python truthiness of an optional label slot. -/
def pyTruthyOptLbl : Option Lbl → Bool
  | none => false
  | some l => l.pyTruthy

/-- Python truthiness of an optional string (`None` and `""` falsy). -/
def pyTruthyOptStr : Option String → Bool
  | none => false
  | some s => s ≠ ""

mutual

/-- `WikidataEntity(id, label, description, aliases, claims)`. -/
inductive WEntity where
  | mk (id : String) (label : Option Lbl) (description : Option String)
      (aliases : List String) (claims : WClaimList)

/-- `WikidataClaim(property, values, datatype)` (the `subject`
back-reference is unused by the renderers and omitted). -/
inductive WClaim where
  | mk (property : Option WEntity) (values : WCValueList) (datatype : String)

/-- `WikidataClaimValue(value, qualifiers, references, rank)` plus the
owning claim's datatype (standing for the `claim` back-reference). -/
inductive WClaimValue where
  | mk (value : Option WValue) (qualifiers : WClaimList)
      (references : WRefList) (rank : Option String) (claimDatatype : String)

/-- The polymorphic value slot: entity / quantity / time / coordinates
/ text. -/
inductive WValue where
  | entity (e : WEntity)
  | quantity (amount : String) (unit : Option Lbl) (unitId : Option String)
  | time (time : Option String) (precision : Option ℤ)
      (calendarmodel : Option String) (stringVal : Option String)
  | coord (lat : Option ℚ) (lon : Option ℚ) (stringVal : Option String)
  | text (text : Option String)

inductive WClaimList where
  | nil
  | cons (c : WClaim) (cs : WClaimList)

inductive WCValueList where
  | nil
  | cons (v : WClaimValue) (vs : WCValueList)

/-- A list of reference groups (each group an ordered list of claims). -/
inductive WRefList where
  | nil
  | cons (g : WClaimList) (gs : WRefList)

end

namespace WEntity
def id : WEntity → String | .mk i _ _ _ _ => i
def label : WEntity → Option Lbl | .mk _ l _ _ _ => l
def description : WEntity → Option String | .mk _ _ d _ _ => d
def aliases : WEntity → List String | .mk _ _ _ a _ => a
def claims : WEntity → WClaimList | .mk _ _ _ _ c => c
end WEntity

namespace WClaim
def property : WClaim → Option WEntity | .mk p _ _ => p
def values : WClaim → WCValueList | .mk _ v _ => v
def datatype : WClaim → String | .mk _ _ d => d
end WClaim

namespace WClaimValue
def value : WClaimValue → Option WValue | .mk v _ _ _ _ => v
def qualifiers : WClaimValue → WClaimList | .mk _ q _ _ _ => q
def references : WClaimValue → WRefList | .mk _ _ r _ _ => r
def rank : WClaimValue → Option String | .mk _ _ _ r _ => r
def claimDatatype : WClaimValue → String | .mk _ _ _ _ d => d
end WClaimValue

def WClaimList.toList : WClaimList → List WClaim
  | .nil => []
  | .cons c cs => c :: cs.toList

def WCValueList.toList : WCValueList → List WClaimValue
  | .nil => []
  | .cons v vs => v :: vs.toList

def WCValueList.isNil : WCValueList → Bool
  | .nil => true
  | .cons _ _ => false

def WCValueList.length : WCValueList → ℕ
  | .nil => 0
  | .cons _ vs => vs.length + 1

/-- `", ".join(...)` and friends. -/
def joinSep (sep : String) : List String → String
  | [] => ""
  | [x] => x
  | x :: xs => x ++ sep ++ joinSep sep xs

/-- Python `"..".split("\n")` (kernel-friendly). -/
def splitNlAux : List Char → List Char → List String
  | [], acc => [String.mk acc.reverse]
  | c :: rest, acc =>
    if c = '\n' then String.mk acc.reverse :: splitNlAux rest []
    else splitNlAux rest (c :: acc)

def splitNl (s : String) : List String := splitNlAux s.data []

/-! ### `src/WikidataTextifier.py` (old module): truthiness and prose

The `if not self: return ''` guards at the head of `__str__` are inlined
as the corresponding truthiness tests (calling the `*Bool` function on
the same node would not be structurally decreasing); `oldCVBool` /
`oldClaimBool` state the same tests once, as `__bool__` does. -/

mutual

/-- `str(self.value)` dispatched over the value kinds of the old module
(each kind's `__str__`). -/
def oldValueStr : WValue → String
  | .entity e => oldEntityStr e
  | .quantity a u uid =>
    if pyTruthyOptStr uid then a ++ " " ++ pyStrOptLbl u else a
  | .time _ _ _ sv => sv.getD ""
  | .coord _ _ sv => sv.getD ""
  | .text t => t.getD ""

/-- `WikidataClaimValue.__bool__` (old module):
`(self.value is not None) and str(self.value) != ''`. -/
def oldCVBool : WClaimValue → Bool
  | .mk v _ _ _ _ =>
    match v with
    | none => false
    | some w => oldValueStr w ≠ ""

/-- `WikidataClaim.__bool__` (old module): property present, property
label stringifying to non-empty (note `str(None) == "None"` is
non-empty), a non-empty value list, and some truthy value. -/
def oldClaimBool : WClaim → Bool
  | .mk p vs _ =>
    match p with
    | none => false
    | some pe =>
      (pyStrOptLbl pe.label ≠ "") && (decide (vs.length > 0))
        && oldCVAnyTruthy vs

def oldCVAnyTruthy : WCValueList → Bool
  | .nil => false
  | .cons v vs => oldCVBool v || oldCVAnyTruthy vs

/-- `[str(v) for v in self.values if v]`. -/
def oldCVStrsFiltered : WCValueList → List String
  | .nil => []
  | .cons v vs =>
    if oldCVBool v then oldCVStr v :: oldCVStrsFiltered vs
    else oldCVStrsFiltered vs

/-- `[str(c) for c in ... if c]` (claims of an entity, qualifiers of a
claim value). -/
def oldClaimStrsFiltered : WClaimList → List String
  | .nil => []
  | .cons c cs =>
    if oldClaimBool c then oldClaimStr c :: oldClaimStrsFiltered cs
    else oldClaimStrsFiltered cs

/-- `WikidataClaimValue.__str__` (old module). -/
def oldCVStr : WClaimValue → String
  | .mk v q _ r _ =>
    match v with
    | none => ""
    | some w =>
      let s0 := oldValueStr w
      if s0 = "" then ""
      else
        let s1 := if r = some "deprecated" then s0 ++ " [deprecated]" else s0
        let qs := oldClaimStrsFiltered q
        if qs ≠ [] then s1 ++ " (" ++ joinSep ", " qs ++ ")" else s1

/-- `WikidataClaim.__str__` (old module). -/
def oldClaimStr : WClaim → String
  | .mk p vs _ =>
    match p with
    | none => ""
    | some pe =>
      if (pyStrOptLbl pe.label ≠ "") && (decide (vs.length > 0))
          && oldCVAnyTruthy vs then
        pyStrOptLbl pe.label ++ ": " ++ joinSep ", " (oldCVStrsFiltered vs)
      else ""

/-- `WikidataEntity.__str__` (old module) — the prose renderer used for
JSON-normalized entities. -/
def oldEntityStr : WEntity → String
  | .mk _ lbl desc al cls =>
    let labelStr := if pyTruthyOptLbl lbl then pyStrOptLbl lbl else "<missing>"
    let s2 := if pyTruthyOptStr desc then labelStr ++ ", " ++ desc.getD ""
      else labelStr
    let s3 := if al ≠ [] then s2 ++ ", also known as " ++ joinSep ", " al
      else s2
    let attrs := oldClaimStrsFiltered cls
    if attrs ≠ [] then s3 ++ ". Attributes:\n- " ++ joinSep "\n- " attrs
    else if s3 ≠ labelStr then s3 ++ "." else s3

end

/-! ### `src/Textifier/WikidataTextifier.py` (new module): truthiness
and prose (`to_text`)

The file `language_variables.json` that the module loads is not part of
src/; the `LangVars` record stands for one language's entry. -/

/-- One language's entry of `LANGUAGE_VARIABLES`. -/
structure LangVars where
  /-- `lang_var[', ']`. -/
  comma : String
  /-- `lang_var['also known as']`. -/
  alsoKnownAs : String
  /-- `lang_var['Attributes include']`. -/
  attributesInclude : String
  /-- `lang_var['has']`. -/
  hasWord : String
  deriving DecidableEq, Repr

/-- Modelled from the spec: the data file `language_variables.json` is
missing from src/, and §4.5 of the specification fixes the prose
grammar for English — `", "` as separator, `", also known as: a, b, c"`
(so the stored phrase carries the colon), and
`". Attributes include:\n- "` (the renderer itself appends `":"`), with
`has` as the bare-property connective. -/
def enLangVars : LangVars :=
  { comma := ", ", alsoKnownAs := "also known as:"
    attributesInclude := "Attributes include", hasWord := "has" }

/-- Stand-in for the auto-generated dataclass `__repr__` of the new
module's `WikidataEntity` (slots dataclass, no `__str__`, so `str()`
falls back to `__repr__`).  The real repr lists every field and embeds
object addresses; the renderers only ever observe that it is non-empty
(`WikidataClaimValue.__bool__` tests `str(self.value) != ""`), which
this abbreviation preserves. -/
def entityRepr (e : WEntity) : String :=
  "WikidataEntity(id=" ++ e.id ++ ")"

/-- `str(self.value)` over the new module's value kinds (for an entity
value this is the dataclass repr). -/
def newValueStr : WValue → String
  | .entity e => entityRepr e
  | .quantity a u uid =>
    if a = "" then ""
    else if pyTruthyOptStr uid then a ++ " " ++ pyStrOptLbl u else a
  | .time _ _ _ sv => sv.getD ""
  | .coord _ _ sv => sv.getD ""
  | .text t => t.getD ""

/-- `WikidataClaimValue.__bool__` (new module, lines 228-229):
`self.value is not None and str(self.value) != ""`. -/
def newCVBool : WClaimValue → Bool
  | .mk v _ _ _ _ =>
    match v with
    | none => false
    | some w => newValueStr w ≠ ""

def newCVAnyTruthy : WCValueList → Bool
  | .nil => false
  | .cons v vs => newCVBool v || newCVAnyTruthy vs

/-- `WikidataClaim.__bool__` (new module). -/
def newClaimBool : WClaim → Bool
  | .mk p vs _ =>
    match p with
    | none => false
    | some pe =>
      (pyStrOptLbl pe.label ≠ "") && (decide (vs.length > 0))
        && newCVAnyTruthy vs

mutual

/-- `[v.to_text(lang) for v in self.values if v]` joined by the
language separator happens at the call site; this is the filtered map. -/
def newCVTextsFiltered (lv : LangVars) : WCValueList → List String
  | .nil => []
  | .cons v vs =>
    if newCVBool v then newCVToText lv v :: newCVTextsFiltered lv vs
    else newCVTextsFiltered lv vs

def newClaimTextsFiltered (lv : LangVars) : WClaimList → List String
  | .nil => []
  | .cons c cs =>
    if newClaimBool c then newClaimToText lv c :: newClaimTextsFiltered lv cs
    else newClaimTextsFiltered lv cs

/-- `WikidataClaimValue.to_text` (new module). -/
def newCVToText (lv : LangVars) : WClaimValue → String
  | .mk v q _ r _ =>
    match v with
    | none => ""
    | some w =>
      if newValueStr w = "" then ""
      else
        let s0 := match w with
          | .entity e => newEntityToText lv e
          | _ => newValueStr w
        let s1 := if r = some "deprecated" then s0 ++ " [deprecated]" else s0
        let qs := newClaimTextsFiltered lv q
        if qs ≠ [] then s1 ++ " (" ++ joinSep lv.comma qs ++ ")" else s1

/-- `WikidataClaim.to_text` (new module). -/
def newClaimToText (lv : LangVars) : WClaim → String
  | .mk p vs _ =>
    match p with
    | none => ""
    | some pe =>
      if (pyStrOptLbl pe.label ≠ "") && (decide (vs.length > 0))
          && newCVAnyTruthy vs then
        if vs.length > 0 then
          pyStrOptLbl pe.label ++ ": "
            ++ joinSep lv.comma (newCVTextsFiltered lv vs)
        else lv.hasWord ++ " " ++ pyStrOptLbl pe.label
      else ""

/-- `WikidataEntity.to_text` (new module) — the prose renderer of
TTL-normalized entities. -/
def newEntityToText (lv : LangVars) : WEntity → String
  | .mk _ lbl desc al cls =>
    let labelStr := if pyTruthyOptLbl lbl then pyStrOptLbl lbl else "<missing>"
    let s2 := if pyTruthyOptStr desc then labelStr ++ lv.comma ++ desc.getD ""
      else labelStr
    let s3 := if al ≠ [] then
        s2 ++ lv.comma ++ lv.alsoKnownAs ++ " " ++ joinSep lv.comma al
      else s2
    let attrs := newClaimTextsFiltered lv cls
    if attrs ≠ [] then
      s3 ++ ". " ++ lv.attributesInclude ++ ":\n- " ++ joinSep "\n- " attrs
    else if s3 ≠ labelStr then s3 ++ "." else s3

end

/-! ### Structured (JSON) output -/

mutual
/-- A JSON value as produced by `to_json` (`None`, strings, ints,
floats-as-rationals, arrays, objects). -/
inductive JsonV where
  | null
  | s (v : String)
  | i (v : ℤ)
  | q (v : ℚ)
  | arr (vs : JArr)
  | obj (fs : JObj)
inductive JArr where
  | nil
  | cons (v : JsonV) (vs : JArr)
inductive JObj where
  | nil
  | cons (k : String) (v : JsonV) (fs : JObj)
end

def optStrJ : Option String → JsonV
  | none => .null
  | some s => .s s

def optIntJ : Option ℤ → JsonV
  | none => .null
  | some n => .i n

def optQJ : Option ℚ → JsonV
  | none => .null
  | some n => .q n

def strListToJArr : List String → JArr
  | [] => .nil
  | s :: rest => .cons (.s s) (strListToJArr rest)

def jobjAppend : JObj → JObj → JObj
  | .nil, r => r
  | .cons k v fs, r => .cons k v (jobjAppend fs r)

/-- Python `id.startswith("P")` etc. for the single-character prefixes
used by the renderers. -/
def headIs (c : Char) (s : String) : Bool :=
  match s.data with
  | [] => false
  | c0 :: _ => c0 = c

/-- `WikidataTime.to_json` (identical in both modules). -/
def timeToJson (t : Option String) (p : Option ℤ) (c : Option String)
    (sv : Option String) : JsonV :=
  .obj (.cons "time" (optStrJ t) (.cons "precision" (optIntJ p)
    (.cons "calendar_QID" (optStrJ c) (.cons "string" (optStrJ sv) .nil))))

/-- `WikidataCoordinates.to_json` (identical in both modules). -/
def coordToJson (la lo : Option ℚ) (sv : Option String) : JsonV :=
  .obj (.cons "latitude" (optQJ la) (.cons "longitude" (optQJ lo)
    (.cons "string" (optStrJ sv) .nil)))

/-- `WikidataQuantity.to_json` of the old module (no amount guard):
unitless quantities collapse to the bare amount string. -/
def oldQuantityToJson (a : String) (u : Option Lbl) (uid : Option String) :
    JsonV :=
  if pyTruthyOptStr uid then
    .obj (.cons "amount" (.s a) (.cons "unit" (.s (pyStrOptLbl u))
      (.cons "unit_QID" (.s (uid.getD "")) .nil)))
  else .s a

/-- `WikidataQuantity.to_json` of the new module (lines 89-98): `None`
for a falsy amount, otherwise as in the old module. -/
def newQuantityToJson (a : String) (u : Option Lbl) (uid : Option String) :
    JsonV :=
  if a = "" then .null
  else if pyTruthyOptStr uid then
    .obj (.cons "amount" (.s a) (.cons "unit" (.s (pyStrOptLbl u))
      (.cons "unit_QID" (.s (uid.getD "")) .nil)))
  else .s a

/-- The entity-value collapse in `WikidataClaimValue.to_json` (both
modules): `{QID-or-PID: id, label: str(label-json)}`; a null label json
stringifies to `"None"`. -/
def entityValueJson (dt : String) (e : WEntity) : JsonV :=
  let idName := if dt = "wikibase-item" then "QID" else "PID"
  let lbl := if pyTruthyOptLbl e.label then pyStrOptLbl e.label else "None"
  .obj (.cons idName (.s e.id) (.cons "label" (.s lbl) .nil))

mutual

/-- `[c.to_json() for c in ... if c]` (old module). -/
def oldClaimsJsonFiltered : WClaimList → JArr
  | .nil => .nil
  | .cons c cs =>
    if oldClaimBool c then .cons (oldClaimToJson c) (oldClaimsJsonFiltered cs)
    else oldClaimsJsonFiltered cs

/-- `[v.to_json() for v in self.values if v]` (old module). -/
def oldCVsJsonFiltered : WCValueList → JArr
  | .nil => .nil
  | .cons v vs =>
    if oldCVBool v then .cons (oldCVToJson v) (oldCVsJsonFiltered vs)
    else oldCVsJsonFiltered vs

/-- `[[r.to_json() for r in ref if r] for ref in self.references]`. -/
def oldRefsJson : WRefList → JArr
  | .nil => .nil
  | .cons g gs => .cons (.arr (oldClaimsJsonFiltered g)) (oldRefsJson gs)

/-- `WikidataClaimValue.to_json` (old module). -/
def oldCVToJson : WClaimValue → JsonV
  | .mk v q refs r dt =>
    match v with
    | none => .null
    | some w =>
      if oldValueStr w = "" then .null
      else
        let valueJ := match w with
          | .entity e => entityValueJson dt e
          | .quantity a u uid => oldQuantityToJson a u uid
          | .time t p c sv => timeToJson t p c sv
          | .coord la lo sv => coordToJson la lo sv
          | .text t => optStrJ t
        let f0 := JObj.cons "value" valueJ .nil
        let f1 := match q with
          | .nil => f0
          | _ => jobjAppend f0
              (.cons "qualifiers" (.arr (oldClaimsJsonFiltered q)) .nil)
        let f2 := match refs with
          | .nil => f1
          | _ => jobjAppend f1 (.cons "references" (.arr (oldRefsJson refs)) .nil)
        let f3 := if pyTruthyOptStr r then
            jobjAppend f2 (.cons "rank" (.s (r.getD "")) .nil)
          else f2
        .obj f3

/-- `WikidataClaim.to_json` (old module).  `property_id =
property.get('PID') or property.get('QID')` always extracts the
property's id string (exactly one of the keys is present in
`property.to_json()`). -/
def oldClaimToJson : WClaim → JsonV
  | .mk p vs dt =>
    match p with
    | none => .null
    | some pe =>
      let lblJ := if pyTruthyOptLbl pe.label then JsonV.s (pyStrOptLbl pe.label)
        else .null
      .obj (.cons "PID" (.s pe.id) (.cons "property_label" lblJ
        (.cons "datatype" (.s dt)
          (.cons "values" (.arr (oldCVsJsonFiltered vs)) .nil))))

/-- `WikidataEntity.to_json` (old module) — the structured renderer of
JSON-normalized entities. -/
def oldEntityToJson : WEntity → JsonV
  | .mk i lbl desc al cls =>
    let idKey := if headIs 'P' i then "PID" else "QID"
    .obj (.cons idKey (.s i)
      (.cons "label"
        (if pyTruthyOptLbl lbl then .s (pyStrOptLbl lbl) else .null)
      (.cons "description" (optStrJ desc)
      (.cons "aliases" (.arr (strListToJArr al))
      (.cons "claims" (.arr (oldClaimsJsonFiltered cls)) .nil)))))

end

mutual

def newClaimsJsonFiltered : WClaimList → JArr
  | .nil => .nil
  | .cons c cs =>
    if newClaimBool c then .cons (newClaimToJson c) (newClaimsJsonFiltered cs)
    else newClaimsJsonFiltered cs

def newCVsJsonFiltered : WCValueList → JArr
  | .nil => .nil
  | .cons v vs =>
    if newCVBool v then .cons (newCVToJson v) (newCVsJsonFiltered vs)
    else newCVsJsonFiltered vs

def newRefsJson : WRefList → JArr
  | .nil => .nil
  | .cons g gs => .cons (.arr (newClaimsJsonFiltered g)) (newRefsJson gs)

/-- `WikidataClaimValue.to_json` (new module). -/
def newCVToJson : WClaimValue → JsonV
  | .mk v q refs r dt =>
    match v with
    | none => .null
    | some w =>
      if newValueStr w = "" then .null
      else
        let valueJ := match w with
          | .entity e => entityValueJson dt e
          | .quantity a u uid => newQuantityToJson a u uid
          | .time t p c sv => timeToJson t p c sv
          | .coord la lo sv => coordToJson la lo sv
          | .text t => optStrJ t
        let f0 := JObj.cons "value" valueJ .nil
        let f1 := match q with
          | .nil => f0
          | _ => jobjAppend f0
              (.cons "qualifiers" (.arr (newClaimsJsonFiltered q)) .nil)
        let f2 := match refs with
          | .nil => f1
          | _ => jobjAppend f1 (.cons "references" (.arr (newRefsJson refs)) .nil)
        let f3 := if pyTruthyOptStr r then
            jobjAppend f2 (.cons "rank" (.s (r.getD "")) .nil)
          else f2
        .obj f3

/-- `WikidataClaim.to_json` (new module). -/
def newClaimToJson : WClaim → JsonV
  | .mk p vs dt =>
    match p with
    | none => .null
    | some pe =>
      let lblJ := if pyTruthyOptLbl pe.label then JsonV.s (pyStrOptLbl pe.label)
        else .null
      .obj (.cons "PID" (.s pe.id) (.cons "property_label" lblJ
        (.cons "datatype" (.s dt)
          (.cons "values" (.arr (newCVsJsonFiltered vs)) .nil))))

/-- `WikidataEntity.to_json` (new module) — the structured renderer of
TTL-normalized entities. -/
def newEntityToJson : WEntity → JsonV
  | .mk i lbl desc al cls =>
    let idKey := if headIs 'P' i then "PID" else "QID"
    .obj (.cons idKey (.s i)
      (.cons "label"
        (if pyTruthyOptLbl lbl then .s (pyStrOptLbl lbl) else .null)
      (.cons "description" (optStrJ desc)
      (.cons "aliases" (.arr (strListToJArr al))
      (.cons "claims" (.arr (newClaimsJsonFiltered cls)) .nil)))))

end

/-! ### Triplet output -/

mutual

/-- `[v.to_triplet() for v in self.values if v]` (old module). -/
def oldCVTripletsFiltered : WCValueList → List String
  | .nil => []
  | .cons v vs =>
    if oldCVBool v then oldCVToTriplet v :: oldCVTripletsFiltered vs
    else oldCVTripletsFiltered vs

/-- `[q.to_triplet(as_qualifier=True) for q in self.qualifiers if q]`. -/
def oldQualTripletsFiltered : WClaimList → List String
  | .nil => []
  | .cons c cs =>
    if oldClaimBool c then
      oldClaimToTriplet true c :: oldQualTripletsFiltered cs
    else oldQualTripletsFiltered cs

def oldClaimTripletsFiltered : WClaimList → List String
  | .nil => []
  | .cons c cs =>
    if oldClaimBool c then
      oldClaimToTriplet false c :: oldClaimTripletsFiltered cs
    else oldClaimTripletsFiltered cs

/-- `WikidataClaimValue.to_triplet` (old module).  The dead first
assignment `string = str(self.value)` before the entity override has no
observable effect and is folded into the match. -/
def oldCVToTriplet : WClaimValue → String
  | .mk v q _ r _ =>
    match v with
    | none => ""
    | some w =>
      if oldValueStr w = "" then ""
      else
        let s0 := match w with
          | .entity e => pyStrOptLbl e.label ++ " (" ++ e.id ++ ")"
          | _ => oldValueStr w
        let s1 := if r = some "deprecated" then s0 ++ " [deprecated]" else s0
        let qs := oldQualTripletsFiltered q
        if qs ≠ [] then s1 ++ " | " ++ joinSep " | " qs else s1

/-- `WikidataClaim.to_triplet` (old module). -/
def oldClaimToTriplet (asQualifier : Bool) : WClaim → String
  | .mk p vs _ =>
    match p with
    | none => ""
    | some pe =>
      if (pyStrOptLbl pe.label ≠ "") && (decide (vs.length > 0))
          && oldCVAnyTruthy vs then
        let label := pyStrOptLbl pe.label ++ " (" ++ pe.id ++ ")"
        let values := oldCVTripletsFiltered vs
        if values ≠ [] then
          if asQualifier then label ++ ": " ++ joinSep ", " values
          else joinSep "\n" (values.map (fun v => label ++ ": " ++ v))
        else ""
      else ""

end

/-- `WikidataEntity.to_triplet` (old module). -/
def oldEntityToTriplet : WEntity → String
  | .mk i lbl desc al cls =>
    let label := (if pyTruthyOptLbl lbl then pyStrOptLbl lbl else "<missing>")
      ++ " (" ++ i ++ ")"
    let attrs0 :=
      (if pyTruthyOptStr desc then ["description: " ++ desc.getD ""] else [])
      ++ (if al ≠ [] then ["aliases: " ++ joinSep ", " al] else [])
    let attrs := attrs0 ++ oldClaimTripletsFiltered cls
    if attrs ≠ [] then
      let exploded := splitNl (joinSep "\n" attrs)
      joinSep "\n" (exploded.map (fun a => label ++ ": " ++ a))
    else label

mutual

def newCVTripletsFiltered : WCValueList → List String
  | .nil => []
  | .cons v vs =>
    if newCVBool v then newCVToTriplet v :: newCVTripletsFiltered vs
    else newCVTripletsFiltered vs

def newQualTripletsFiltered : WClaimList → List String
  | .nil => []
  | .cons c cs =>
    if newClaimBool c then
      newClaimToTriplet true c :: newQualTripletsFiltered cs
    else newQualTripletsFiltered cs

def newClaimTripletsFiltered : WClaimList → List String
  | .nil => []
  | .cons c cs =>
    if newClaimBool c then
      newClaimToTriplet false c :: newClaimTripletsFiltered cs
    else newClaimTripletsFiltered cs

/-- `WikidataClaimValue.to_triplet` (new module). -/
def newCVToTriplet : WClaimValue → String
  | .mk v q _ r _ =>
    match v with
    | none => ""
    | some w =>
      if newValueStr w = "" then ""
      else
        let s0 := match w with
          | .entity e => pyStrOptLbl e.label ++ " (" ++ e.id ++ ")"
          | _ => newValueStr w
        let s1 := if r = some "deprecated" then s0 ++ " [deprecated]" else s0
        let qs := newQualTripletsFiltered q
        if qs ≠ [] then s1 ++ " | " ++ joinSep " | " qs else s1

/-- `WikidataClaim.to_triplet` (new module). -/
def newClaimToTriplet (asQualifier : Bool) : WClaim → String
  | .mk p vs _ =>
    match p with
    | none => ""
    | some pe =>
      if (pyStrOptLbl pe.label ≠ "") && (decide (vs.length > 0))
          && newCVAnyTruthy vs then
        let label := pyStrOptLbl pe.label ++ " (" ++ pe.id ++ ")"
        let values := newCVTripletsFiltered vs
        if values ≠ [] then
          if asQualifier then label ++ ": " ++ joinSep ", " values
          else joinSep "\n" (values.map (fun v => label ++ ": " ++ v))
        else ""
      else ""

end

/-- `WikidataEntity.to_triplet` (new module). -/
def newEntityToTriplet : WEntity → String
  | .mk i lbl desc al cls =>
    let label := (if pyTruthyOptLbl lbl then pyStrOptLbl lbl else "<missing>")
      ++ " (" ++ i ++ ")"
    let attrs0 :=
      (if pyTruthyOptStr desc then ["description: " ++ desc.getD ""] else [])
      ++ (if al ≠ [] then ["aliases: " ++ joinSep ", " al] else [])
    let attrs := attrs0 ++ newClaimTripletsFiltered cls
    if attrs ≠ [] then
      let exploded := splitNl (joinSep "\n" attrs)
      joinSep "\n" (exploded.map (fun a => label ++ ": " ++ a))
    else label

/-! ### C6: no-value claims are falsy and omitted everywhere -/

def appendCL : WClaimList → WClaimList → WClaimList
  | .nil, r => r
  | .cons c cs, r => .cons c (appendCL cs r)

theorem oldCVBool_none {cv : WClaimValue} (h : cv.value = none) :
    oldCVBool cv = false := by
  cases cv with
  | mk v q refs r dt =>
    simp only [WClaimValue.value] at h
    subst h
    rfl

theorem newCVBool_none {cv : WClaimValue} (h : cv.value = none) :
    newCVBool cv = false := by
  cases cv with
  | mk v q refs r dt =>
    simp only [WClaimValue.value] at h
    subst h
    rfl

theorem anyTruthy_false_of_novalue :
    ∀ (vs : WCValueList), (∀ cv ∈ vs.toList, cv.value = none) →
      oldCVAnyTruthy vs = false ∧ newCVAnyTruthy vs = false
  | .nil, _ => ⟨rfl, rfl⟩
  | .cons v rest, h => by
    have hv : v.value = none := h v (by simp [WCValueList.toList])
    have hrest : ∀ cv ∈ rest.toList, cv.value = none := by
      intro cv hcv
      exact h cv (by simp [WCValueList.toList, hcv])
    obtain ⟨iho, ihn⟩ := anyTruthy_false_of_novalue rest hrest
    constructor
    · simp [oldCVAnyTruthy, oldCVBool_none hv, iho]
    · simp [newCVAnyTruthy, newCVBool_none hv, ihn]

theorem oldClaimBool_false_of_novalue {c : WClaim}
    (h : ∀ cv ∈ c.values.toList, cv.value = none) :
    oldClaimBool c = false := by
  cases c with
  | mk p vs dt =>
    simp only [WClaim.values] at h
    cases p with
    | none => rfl
    | some pe =>
      simp [oldClaimBool, (anyTruthy_false_of_novalue vs h).1]

theorem newClaimBool_false_of_novalue {c : WClaim}
    (h : ∀ cv ∈ c.values.toList, cv.value = none) :
    newClaimBool c = false := by
  cases c with
  | mk p vs dt =>
    simp only [WClaim.values] at h
    cases p with
    | none => rfl
    | some pe =>
      simp [newClaimBool, (anyTruthy_false_of_novalue vs h).2]

theorem oldClaimStrsFiltered_skip {c : WClaim} (hc : oldClaimBool c = false)
    : ∀ (l1 l2 : WClaimList),
    oldClaimStrsFiltered (appendCL l1 (.cons c l2))
      = oldClaimStrsFiltered (appendCL l1 l2)
  | .nil, l2 => by simp [appendCL, oldClaimStrsFiltered, hc]
  | .cons c' cs, l2 => by
    simp [appendCL, oldClaimStrsFiltered, oldClaimStrsFiltered_skip hc cs l2]

theorem oldClaimsJsonFiltered_skip {c : WClaim} (hc : oldClaimBool c = false)
    : ∀ (l1 l2 : WClaimList),
    oldClaimsJsonFiltered (appendCL l1 (.cons c l2))
      = oldClaimsJsonFiltered (appendCL l1 l2)
  | .nil, l2 => by simp [appendCL, oldClaimsJsonFiltered, hc]
  | .cons c' cs, l2 => by
    simp [appendCL, oldClaimsJsonFiltered, oldClaimsJsonFiltered_skip hc cs l2]

theorem oldClaimTripletsFiltered_skip {c : WClaim}
    (hc : oldClaimBool c = false) : ∀ (l1 l2 : WClaimList),
    oldClaimTripletsFiltered (appendCL l1 (.cons c l2))
      = oldClaimTripletsFiltered (appendCL l1 l2)
  | .nil, l2 => by simp [appendCL, oldClaimTripletsFiltered, hc]
  | .cons c' cs, l2 => by
    simp [appendCL, oldClaimTripletsFiltered, oldClaimTripletsFiltered_skip hc cs l2]

theorem newClaimTextsFiltered_skip {c : WClaim} (lv : LangVars)
    (hc : newClaimBool c = false) : ∀ (l1 l2 : WClaimList),
    newClaimTextsFiltered lv (appendCL l1 (.cons c l2))
      = newClaimTextsFiltered lv (appendCL l1 l2)
  | .nil, l2 => by simp [appendCL, newClaimTextsFiltered, hc]
  | .cons c' cs, l2 => by
    simp [appendCL, newClaimTextsFiltered,
      newClaimTextsFiltered_skip lv hc cs l2]

theorem newClaimsJsonFiltered_skip {c : WClaim} (hc : newClaimBool c = false)
    : ∀ (l1 l2 : WClaimList),
    newClaimsJsonFiltered (appendCL l1 (.cons c l2))
      = newClaimsJsonFiltered (appendCL l1 l2)
  | .nil, l2 => by simp [appendCL, newClaimsJsonFiltered, hc]
  | .cons c' cs, l2 => by
    simp [appendCL, newClaimsJsonFiltered, newClaimsJsonFiltered_skip hc cs l2]

theorem newClaimTripletsFiltered_skip {c : WClaim}
    (hc : newClaimBool c = false) : ∀ (l1 l2 : WClaimList),
    newClaimTripletsFiltered (appendCL l1 (.cons c l2))
      = newClaimTripletsFiltered (appendCL l1 l2)
  | .nil, l2 => by simp [appendCL, newClaimTripletsFiltered, hc]
  | .cons c' cs, l2 => by
    simp [appendCL, newClaimTripletsFiltered, newClaimTripletsFiltered_skip hc cs l2]

theorem anyTruthy_exists_old :
    ∀ (vs : WCValueList), oldCVAnyTruthy vs = true →
      ∃ cv ∈ vs.toList, oldCVBool cv = true
  | .nil, h => absurd h (by simp [oldCVAnyTruthy])
  | .cons v rest, h => by
    simp only [oldCVAnyTruthy, Bool.or_eq_true] at h
    rcases h with h | h
    · exact ⟨v, by simp [WCValueList.toList], h⟩
    · obtain ⟨cv, hmem, hcv⟩ := anyTruthy_exists_old rest h
      exact ⟨cv, by simp [WCValueList.toList, hmem], hcv⟩

theorem anyTruthy_exists_new :
    ∀ (vs : WCValueList), newCVAnyTruthy vs = true →
      ∃ cv ∈ vs.toList, newCVBool cv = true
  | .nil, h => absurd h (by simp [newCVAnyTruthy])
  | .cons v rest, h => by
    simp only [newCVAnyTruthy, Bool.or_eq_true] at h
    rcases h with h | h
    · exact ⟨v, by simp [WCValueList.toList], h⟩
    · obtain ⟨cv, hmem, hcv⟩ := anyTruthy_exists_new rest h
      exact ⟨cv, by simp [WCValueList.toList, hmem], hcv⟩

/-- **C6.**  A claim all of whose claim values are the no-value sentinel
(`value is None`) is falsy under both modules' `__bool__`, and adding or
removing it anywhere in an entity's claim list leaves all six renderings
(structured, prose, triplet — in both the old and the new module)
unchanged.  More generally, a truthy claim (either module) necessarily
has a property whose label stringifies to non-empty and at least one
truthy claim value. -/
theorem novalue_claim_falsy_and_omitted (c : WClaim) (i : String)
    (lbl : Option Lbl) (desc : Option String) (al : List String)
    (l1 l2 : WClaimList) (lv : LangVars)
    (hch : ∀ cv ∈ c.values.toList, cv.value = none) :
    oldClaimBool c = false ∧ newClaimBool c = false ∧
    oldEntityStr (.mk i lbl desc al (appendCL l1 (.cons c l2)))
      = oldEntityStr (.mk i lbl desc al (appendCL l1 l2)) ∧
    oldEntityToJson (.mk i lbl desc al (appendCL l1 (.cons c l2)))
      = oldEntityToJson (.mk i lbl desc al (appendCL l1 l2)) ∧
    oldEntityToTriplet (.mk i lbl desc al (appendCL l1 (.cons c l2)))
      = oldEntityToTriplet (.mk i lbl desc al (appendCL l1 l2)) ∧
    newEntityToText lv (.mk i lbl desc al (appendCL l1 (.cons c l2)))
      = newEntityToText lv (.mk i lbl desc al (appendCL l1 l2)) ∧
    newEntityToJson (.mk i lbl desc al (appendCL l1 (.cons c l2)))
      = newEntityToJson (.mk i lbl desc al (appendCL l1 l2)) ∧
    newEntityToTriplet (.mk i lbl desc al (appendCL l1 (.cons c l2)))
      = newEntityToTriplet (.mk i lbl desc al (appendCL l1 l2)) ∧
    (∀ c' : WClaim, oldClaimBool c' = true →
      ∃ pe, c'.property = some pe ∧ pyStrOptLbl pe.label ≠ "" ∧
        ∃ cv ∈ c'.values.toList, oldCVBool cv = true) ∧
    (∀ c' : WClaim, newClaimBool c' = true →
      ∃ pe, c'.property = some pe ∧ pyStrOptLbl pe.label ≠ "" ∧
        ∃ cv ∈ c'.values.toList, newCVBool cv = true) := by
  have hob := oldClaimBool_false_of_novalue hch
  have hnb := newClaimBool_false_of_novalue hch
  refine ⟨hob, hnb, ?_, ?_, ?_, ?_, ?_, ?_, ?_, ?_⟩
  · simp only [oldEntityStr, oldClaimStrsFiltered_skip hob]
  · simp only [oldEntityToJson, oldClaimsJsonFiltered_skip hob]
  · simp only [oldEntityToTriplet, oldClaimTripletsFiltered_skip hob]
  · simp only [newEntityToText, newClaimTextsFiltered_skip lv hnb]
  · simp only [newEntityToJson, newClaimsJsonFiltered_skip hnb]
  · simp only [newEntityToTriplet, newClaimTripletsFiltered_skip hnb]
  · intro c' hc'
    cases c' with
    | mk p vs dt =>
      cases p with
      | none => exact absurd hc' (by simp [oldClaimBool])
      | some pe =>
        simp only [oldClaimBool, Bool.and_eq_true, decide_eq_true_eq,
          ne_eq] at hc'
        exact ⟨pe, rfl, by simpa using hc'.1.1,
          anyTruthy_exists_old vs hc'.2⟩
  · intro c' hc'
    cases c' with
    | mk p vs dt =>
      cases p with
      | none => exact absurd hc' (by simp [newClaimBool])
      | some pe =>
        simp only [newClaimBool, Bool.and_eq_true, decide_eq_true_eq,
          ne_eq] at hc'
        exact ⟨pe, rfl, by simpa using hc'.1.1,
          anyTruthy_exists_new vs hc'.2⟩

/-- A claim whose sole value is the no-value sentinel. -/
def noValueClaim : WClaim :=
  .mk (some (.mk "P569" (some (.lazy "date of birth")) none [] .nil))
    (.cons (.mk none .nil .nil (some "normal") "time") .nil) "time"

theorem novalue_claim_falsy_and_omitted_witness :
    oldClaimBool noValueClaim = false ∧
    oldEntityStr (.mk "Q1" (some (.plain "X")) none []
        (appendCL .nil (.cons noValueClaim .nil)))
      = oldEntityStr (.mk "Q1" (some (.plain "X")) none []
        (appendCL .nil .nil)) := by
  have h := novalue_claim_falsy_and_omitted noValueClaim "Q1"
    (some (.plain "X")) none [] .nil .nil enLangVars
    (by
      intro cv hcv
      simp only [noValueClaim, WClaim.values, WCValueList.toList,
        List.mem_singleton] at hcv
      subst hcv
      rfl)
  exact ⟨h.1, h.2.2.1⟩

/-! ### C8: quantity rendering -/

/-- The quantity unit handling common to `JSONNormalizer._to_value_object`
and `TTLNormalizer._to_value_object` (textually identical in both):
`unit == "1"` or a missing unit yields no unit id and no label;
otherwise the unit id is the URI tail (the URI itself when it has no
slash) and a label is created lazily only for `Q...` ids.  `resolve` is
the label-resolution capability behind `LazyLabelFactory.create`.
Returns `(unit_label, unit_id)`. -/
def quantityUnitOf (resolve : String → String) (unitUri : Option String) :
    Option Lbl × Option String :=
  match unitUri with
  | none => (none, none)
  | some uri =>
    if uri ≠ "1" then
      let uid := lastAfterSlash uri
      (if headIs 'Q' uid then some (.lazy (resolve uid)) else none, some uid)
    else (none, none)

/-- **C8.**  A quantity with unit `"1"` (or no unit) has no unit id and
renders as the bare amount string: in the old module's prose `__str__`,
in the new module's structured `to_json` (a JSON string scalar), and
likewise in the other module's counterparts.  A quantity with any other
(entity) unit renders as `"amount unit-label"` in prose and as the
`{amount, unit, unit_QID}` map in structured output. -/
theorem quantity_rendering (resolve : String → String) (amount : String)
    (ha : amount ≠ "") :
    (∀ unitUri, (unitUri = some "1" ∨ unitUri = none) →
      (quantityUnitOf resolve unitUri = (none, none)) ∧
      oldValueStr (.quantity amount (quantityUnitOf resolve unitUri).1
        (quantityUnitOf resolve unitUri).2) = amount ∧
      newQuantityToJson amount (quantityUnitOf resolve unitUri).1
        (quantityUnitOf resolve unitUri).2 = .s amount ∧
      oldQuantityToJson amount (quantityUnitOf resolve unitUri).1
        (quantityUnitOf resolve unitUri).2 = .s amount ∧
      newValueStr (.quantity amount (quantityUnitOf resolve unitUri).1
        (quantityUnitOf resolve unitUri).2) = amount) ∧
    (∀ uri, uri ≠ "1" → headIs 'Q' (lastAfterSlash uri) = true →
      lastAfterSlash uri ≠ "" →
      oldValueStr (.quantity amount (quantityUnitOf resolve (some uri)).1
          (quantityUnitOf resolve (some uri)).2)
        = amount ++ " " ++ resolve (lastAfterSlash uri) ∧
      newQuantityToJson amount (quantityUnitOf resolve (some uri)).1
          (quantityUnitOf resolve (some uri)).2
        = .obj (.cons "amount" (.s amount)
            (.cons "unit" (.s (resolve (lastAfterSlash uri)))
              (.cons "unit_QID" (.s (lastAfterSlash uri)) .nil))) ∧
      newValueStr (.quantity amount (quantityUnitOf resolve (some uri)).1
          (quantityUnitOf resolve (some uri)).2)
        = amount ++ " " ++ resolve (lastAfterSlash uri)) := by
  constructor
  · intro unitUri h1
    have hq : quantityUnitOf resolve unitUri = (none, none) := by
      rcases h1 with rfl | rfl
      · simp [quantityUnitOf]
      · rfl
    refine ⟨hq, ?_, ?_, ?_, ?_⟩ <;>
      simp [hq, oldValueStr, newValueStr, newQuantityToJson,
        oldQuantityToJson, pyTruthyOptStr, ha]
  · intro uri h1 hq hne
    have hu : quantityUnitOf resolve (some uri)
        = (some (.lazy (resolve (lastAfterSlash uri))),
            some (lastAfterSlash uri)) := by
      simp [quantityUnitOf, h1, hq]
    refine ⟨?_, ?_, ?_⟩ <;>
      simp [hu, oldValueStr, newValueStr, newQuantityToJson, pyTruthyOptStr,
        pyStrOptLbl, Lbl.str, ha, hne]

theorem quantity_rendering_witness :
    ((quantityUnitOf (fun _ => "kilogram") (some "1") = (none, none)) ∧
      oldValueStr (.quantity "+7"
          (quantityUnitOf (fun _ => "kilogram") (some "1")).1
          (quantityUnitOf (fun _ => "kilogram") (some "1")).2) = "+7" ∧
      newQuantityToJson "+7"
          (quantityUnitOf (fun _ => "kilogram") (some "1")).1
          (quantityUnitOf (fun _ => "kilogram") (some "1")).2 = .s "+7" ∧
      oldQuantityToJson "+7"
          (quantityUnitOf (fun _ => "kilogram") (some "1")).1
          (quantityUnitOf (fun _ => "kilogram") (some "1")).2 = .s "+7" ∧
      newValueStr (.quantity "+7"
          (quantityUnitOf (fun _ => "kilogram") (some "1")).1
          (quantityUnitOf (fun _ => "kilogram") (some "1")).2) = "+7") ∧
    oldValueStr (.quantity "+7"
        (quantityUnitOf (fun _ => "kilogram")
          (some "http://www.wikidata.org/entity/Q11570")).1
        (quantityUnitOf (fun _ => "kilogram")
          (some "http://www.wikidata.org/entity/Q11570")).2)
      = "+7 kilogram" := by
  have h := quantity_rendering (fun _ => "kilogram") "+7" (by decide)
  refine ⟨h.1 (some "1") (Or.inl rfl), ?_⟩
  have h2 := (h.2 "http://www.wikidata.org/entity/Q11570" (by decide)
    (by decide) (by decide)).1
  exact h2.trans (by decide)

/-! ## The JSON normalizer (`src/Normalizer/JSONNormalizer.py`)

The wbgetentities-style entity JSON is embedded as the Python value
type `PyV` (dicts are ordered association lists, as Python dicts are).
Label resolution (`LazyLabelFactory` + the label store) and the locale
capabilities of the temporal formatter enter through `NormCaps`.

Exceptions: every `ValueError`/`TypeError` raised during value parsing
is caught inside `_to_value_object` (the value becomes `None`); a
`KeyError` escaping `wikidata_time_to_text` (precision above 14) is NOT
caught by this normalizer and aborts `normalize` — this is the
`.error ()` of the `Except Unit` results. -/

/-- A Python/JSON value. -/
inductive PyV where
  | str (s : String)
  | int (n : ℤ)
  | num (q : ℚ)
  | dict (fields : List (String × PyV))
  | list (items : List PyV)
  | none
  deriving Repr

/-- `d.get(k)` on an ordered dict (first binding wins, as in Python). -/
def dictGet : List (String × PyV) → String → Option PyV
  | [], _ => Option.none
  | (k, v) :: rest, key => if k = key then some v else dictGet rest key

/-- `d.get(k, default)`. -/
def dictGetD (fields : List (String × PyV)) (key : String) (dflt : PyV) :
    PyV :=
  (dictGet fields key).getD dflt

/-- `str(x)` on a Python value.  The dict/list cases stand for Python's
container reprs; in this development they are reached only in degenerate
branches and only their non-emptiness is ever observable. -/
def pyStrOfV : PyV → String
  | .str s => s
  | .int n => toString n
  | .num q => toString q
  | .dict _ => "<dict>"
  | .list _ => "<list>"
  | .none => "None"

/-- Python truthiness of a value. -/
def pyTruthyV : PyV → Bool
  | .str s => s ≠ ""
  | .int n => n ≠ 0
  | .num q => q ≠ 0
  | .dict fs => !fs.isEmpty
  | .list xs => !xs.isEmpty
  | .none => false

/-- Capabilities of the normalizers: the label-resolution store behind
`LazyLabelFactory` (already specialised to the requested language with
its fallback), the locale capabilities of the temporal formatter, and
the requested language (used by the monolingual-text filter and the
formatter). -/
structure NormCaps where
  resolve : String → String
  timeCaps : TimeCaps
  lang : String

/-- A language-keyed label map entry: either the wire form
`{"language": .., "value": ..}` or the compressed plain string of the
label cache. -/
inductive LangVal where
  | vdict (language : String) (value : String)
  | vstr (s : String)
  deriving DecidableEq, Repr

/-- Python truthiness of a label-map entry. -/
def langValTruthy : LangVal → Bool
  | .vdict _ _ => true
  | .vstr s => s ≠ ""

/-- `WikidataLabel.get_lang_val(data, lang, fallback_lang)`:
`data.get(lang, data.get('mul', {}))`, then the fallback language when
that is falsy, then the `'value'` field (strings are returned as-is;
missing everything yields `''`). -/
def getLangVal (data : List (String × LangVal)) (lang : String)
    (fallbackLang : String) : String :=
  let l0 : Option LangVal :=
    match data.lookup lang with
    | some v => some v
    | Option.none => data.lookup "mul"
  let l0t : Bool := match l0 with
    | Option.none => false
    | some v => langValTruthy v
  let l1 : Option LangVal :=
    if fallbackLang ≠ "" ∧ l0t = false then data.lookup fallbackLang
    else l0
  match l1 with
  | some (.vstr s) => s
  | some (.vdict _ v) => v
  | Option.none => ""

/-- The wire labels/descriptions dict of the entity JSON, read into a
label map (non-dict entries cannot occur in the modelled wire format). -/
def pyLangData : PyV → List (String × LangVal)
  | .dict fs => fs.filterMap (fun kv =>
      match kv.2 with
      | .dict sub =>
        match dictGet sub "language", dictGet sub "value" with
        | some (.str lg), some (.str v) => some (kv.1, .vdict lg v)
        | _, _ => Option.none
      | .str s => some (kv.1, .vstr s)
      | _ => Option.none)
  | _ => []

/-- First-occurrence deduplication, standing for the Python set
comprehension over alias strings.  (CPython iterates a set of strings
in hash order; only the set of aliases, not their order, is
specified.) -/
def dedupFirstAux : List String → List String → List String
  | [], _ => []
  | s :: rest, seen =>
    if seen.contains s then dedupFirstAux rest seen
    else s :: dedupFirstAux rest (s :: seen)

def dedupFirst (l : List String) : List String := dedupFirstAux l []

/-- The alias extraction shared by both normalizers:
`(aliases.get(lang, []) or []) + (aliases.get("mul", []) or [])`, then
the set comprehension keeping `a["value"]` for dict entries and
`str(a)` otherwise, skipping falsy entries. -/
def aliasString : PyV → Option String
  | .dict sub =>
    match dictGet sub "value" with
    | some (.str v) => some v
    | _ => some "None"
  | v => if pyTruthyV v then some (pyStrOfV v) else Option.none

def extractAliases (aliasesDict : PyV) (lang : String) : List String :=
  let get1 : String → List PyV := fun k =>
    match aliasesDict with
    | .dict fs =>
      match dictGet fs k with
      | some (.list xs) => xs
      | _ => []
    | _ => []
  let raw := get1 lang ++ get1 "mul"
  dedupFirst (raw.filterMap (fun a =>
    if pyTruthyV a then aliasString a else Option.none))

/-- `dvType == some (PyV.str s)` without needing decidable equality on
`PyV` (Python `x == "..."` is true only for equal strings). -/
def isTypeTag (dvType : Option PyV) (s : String) : Bool :=
  match dvType with
  | some (.str t) => t = s
  | _ => false

/-- An integer field as `int(value.get(k, 0) or 0)` reads it:
`some (some n)` an integer, `some none` absent or `None` (defaulted),
`none` a value on which `int()` raises `ValueError` (caught by the
enclosing handler; float fields do not occur in the modelled payloads). -/
def fieldIntOf (fields : List (String × PyV)) (k : String) :
    Option (Option ℤ) :=
  match dictGet fields k with
  | Option.none => some Option.none
  | some .none => some Option.none
  | some (.int n) => some (some n)
  | some _ => Option.none

/-- Building the argument record of `wikidata_time_to_text` from the
raw time dict, with the source's exception behavior: a bad ISO string
or a non-integer numeric field is a caught `ValueError` (`ok none`); a
present-but-`None` (or non-string) `calendarmodel` makes
`value.get("calendarmodel","").rsplit(...)` raise an uncaught
`AttributeError` (`error ()`), but only when reached — the ISO parse
and the integer conversions run first. -/
def pyTimeValue (t : String) (fields : List (String × PyV)) :
    Except Unit (Option TimeValue) :=
  if (parseIso t).isNone then .ok Option.none
  else
    match fieldIntOf fields "timezone", fieldIntOf fields "before",
        fieldIntOf fields "after", fieldIntOf fields "precision" with
    | some tz, some bf, some af, some pr =>
      match dictGet fields "calendarmodel" with
      | Option.none =>
        .ok (some { time := t, timezone := tz, before := bf, after := af
                    precision := pr, calendarmodel := "" })
      | some (.str c) =>
        .ok (some { time := t, timezone := tz, before := bf, after := af
                    precision := pr, calendarmodel := c })
      | some _ => .error ()
    | _, _, _, _ => .ok Option.none

/-- `JSONNormalizer._to_value_object(datatype, datavalue)`.
`ok none` models a dropped value (including every caught
`ValueError`/`TypeError`); `error ()` models an uncaught exception
(`KeyError` out of `wikidata_time_to_text`, or the `AttributeError`
described at `pyTimeValue`). -/
def json_to_value_object (caps : NormCaps) (datatype : String)
    (datavalue : PyV) : Except Unit (Option WValue) :=
  match datavalue with
  | .dict fields =>
    let dvType := dictGet fields "type"
    let dvVal := dictGetD fields "value" .none
    if isTypeTag dvType "wikibase-entityid" ∨ datatype = "wikibase-item"
        ∨ datatype = "wikibase-property" then
      let eid : Option String := match dvVal with
        | .dict vf =>
          match dictGet vf "id" with
          | some (.str i) => some i
          | _ => Option.none
        | _ => Option.none
      match eid with
      | some i =>
        if headIs 'Q' i ∨ headIs 'P' i then
          .ok (some (.entity (.mk i (some (.lazy (caps.resolve i)))
            Option.none [] .nil)))
        else .ok (some (.text (some (pyStrOfV dvVal))))
      | Option.none => .ok (some (.text (some (pyStrOfV dvVal))))
    else if isTypeTag dvType "time" ∨ datatype = "time" then
      match dvVal with
      | .dict dfs =>
        match dictGet dfs "time" with
        | some (.str t) =>
          if t = "" then .ok Option.none
          else
            let calRaw : PyV := match dictGet dfs "calendarmodel" with
              | some v => if pyTruthyV v then v
                  else .str "http://www.wikidata.org/entity/Q1985786"
              | Option.none => .str "http://www.wikidata.org/entity/Q1985786"
            let calId : String := match calRaw with
              | .str c => lastAfterSlash c
              | _ => "Q1985786"
            match pyTimeValue t dfs with
            | .error _ => .error ()
            | .ok Option.none => .ok Option.none
            | .ok (some tv) =>
              match wikidata_time_to_text caps.timeCaps tv with
              | .error .key => .error ()
              | .error .value => .ok Option.none
              | .ok sv =>
                .ok (some (.time (some t)
                  ((fieldIntOf dfs "precision").getD Option.none)
                  (some calId) (some sv)))
        | _ => .ok Option.none
      | _ => .ok Option.none
    else if isTypeTag dvType "quantity" ∨ datatype = "quantity" then
      match dvVal with
      | .dict dfs =>
        match dictGet dfs "amount" with
        | Option.none => .ok Option.none
        | some .none => .ok Option.none
        | some av =>
          let unitUri : Option String := match dictGet dfs "unit" with
            | some (.str u) => some u
            | _ => Option.none
          let ul := quantityUnitOf caps.resolve unitUri
          .ok (some (.quantity (pyStrOfV av) ul.1 ul.2))
      | _ => .ok Option.none
    else if isTypeTag dvType "globe-coordinate" ∨ datatype = "globe-coordinate"
        then
      -- `wikidata_geolocation_to_text(dv_val, self.lang)` hands the whole
      -- dict to `abs()`, which raises `TypeError`; it is caught here, so
      -- every coordinate value is dropped (with or without lat/lon).
      .ok Option.none
    else if isTypeTag dvType "monolingualtext" ∨ datatype = "monolingualtext"
        then
      match dvVal with
      | .dict dfs =>
        let lgMatches : Bool := match dictGet dfs "language" with
          | some (.str l) => l = caps.lang
          | _ => false
        if lgMatches then
          .ok (some (.text (some (match dictGet dfs "text" with
            | Option.none => ""
            | some .none => ""
            | some v => pyStrOfV v))))
        else .ok (some (.text Option.none))
      | _ => .ok Option.none
    else
      match dvVal with
      | .none => .ok (some (.text Option.none))
      | v => .ok (some (.text (some (pyStrOfV v))))
  | _ => .ok Option.none

/-- `st.get("rank")` as an optional rank string (ranks are strings in
every payload in scope). -/
def pyRankOf (fields : List (String × PyV)) : Option String :=
  match dictGet fields "rank" with
  | some (.str r) => some r
  | _ => Option.none

/-- `JSONNormalizer._datatype_from_snaks`. -/
def json_datatype_from_snaks : List PyV → Option String
  | [] => Option.none
  | s :: rest =>
    match s with
    | .dict sf =>
      match dictGet sf "datatype" with
      | some (.str dt) =>
        if dt ≠ "" then some dt else json_datatype_from_snaks rest
      | _ => json_datatype_from_snaks rest
    | _ => json_datatype_from_snaks rest

/-- `JSONNormalizer._claim_datatype_from_statements`. -/
def json_claim_datatype_from_statements : List PyV → Option String
  | [] => Option.none
  | st :: rest =>
    match st with
    | .dict sf =>
      match dictGetD sf "mainsnak" (.dict sf) with
      | .dict mf =>
        match dictGet mf "datatype" with
        | some (.str dt) =>
          if dt ≠ "" then some dt
          else json_claim_datatype_from_statements rest
        | _ => json_claim_datatype_from_statements rest
      | _ => json_claim_datatype_from_statements rest
    | _ => json_claim_datatype_from_statements rest

/-- `JSONNormalizer._filter_by_rank` over raw statement values (the
`RStmt` version above is this same filter over pre-extracted rank
tags). -/
def json_filter_by_rank (allRanks : Bool) (statements : List PyV) :
    List PyV :=
  if allRanks then
    statements.filter (fun s => match s with | .dict _ => true | _ => false)
  else
    let hp := statements.any (fun s =>
      match s with
      | .dict sf => isTypeTag (dictGet sf "rank") "preferred"
      | _ => false)
    statements.filter (fun s =>
      match s with
      | .dict sf =>
        match dictGet sf "rank" with
        | Option.none => true
        | some .none => true
        | some (.str r) => (hp && r == "preferred") || (!hp && r == "normal")
        | some _ => false
      | _ => false)

mutual

/-- `JSONNormalizer._build_snak_claim` (the dummy subject is not
represented; the model's claims carry no subject). -/
def json_build_snak_claim (caps : NormCaps) (pid : String)
    (snaks : List PyV) : Except Unit WClaim := do
  let datatype := (json_datatype_from_snaks snaks).getD "string"
  let vals ← json_snak_values caps datatype snaks
  .ok (.mk (some (.mk pid (some (.lazy (caps.resolve pid))) Option.none []
    .nil)) vals datatype)

def json_snak_values (caps : NormCaps) (datatype : String) :
    List PyV → Except Unit WCValueList
  | [] => .ok .nil
  | snak :: rest => do
    match snak with
    | .dict sf =>
      let rest' ← json_snak_values caps datatype rest
      if isTypeTag (some (dictGetD sf "snaktype" (.str "value"))) "value" then
        let vo ← json_to_value_object caps datatype (dictGetD sf "datavalue"
          .none)
        .ok (.cons (.mk vo .nil .nil Option.none datatype) rest')
      else
        .ok (.cons (.mk Option.none .nil .nil Option.none datatype) rest')
    | _ => json_snak_values caps datatype rest

/-- `JSONNormalizer._parse_qualifiers`. -/
def json_parse_qualifiers (caps : NormCaps) :
    List (String × PyV) → Except Unit WClaimList
  | [] => .ok .nil
  | (qpid, snaks) :: rest => do
    match snaks with
    | .list snakList =>
      if headIs 'P' qpid then
        let c ← json_build_snak_claim caps qpid snakList
        let cs ← json_parse_qualifiers caps rest
        .ok (.cons c cs)
      else json_parse_qualifiers caps rest
    | _ => json_parse_qualifiers caps rest

end

/-- `JSONNormalizer._parse_references`. -/
def json_parse_references (caps : NormCaps) :
    List PyV → Except Unit WRefList
  | [] => .ok .nil
  | ref :: rest => do
    match ref with
    | .dict rf =>
      match (fun s => if pyTruthyV s then s else .dict []) (dictGetD rf
          "snaks" (.dict [])) with
      | .dict snakFields => do
        let g ← json_parse_qualifiers caps snakFields
        let gs ← json_parse_references caps rest
        .ok (.cons g gs)
      | _ => json_parse_references caps rest
    | _ => json_parse_references caps rest

/-- `JSONNormalizer._build_claim_value`. -/
def json_build_claim_value (caps : NormCaps) (datatype : String)
    (includeRefs : Bool) (sf : List (String × PyV)) :
    Except Unit (Option WClaimValue) := do
  match dictGetD sf "mainsnak" (.dict sf) with
  | .dict ms =>
    if ¬ isTypeTag (some (dictGetD ms "snaktype" (.str "value"))) "value" then
      .ok (some (.mk Option.none .nil .nil (pyRankOf sf) datatype))
    else do
      let vo ← json_to_value_object caps datatype (dictGetD ms "datavalue"
        .none)
      let quals ← json_parse_qualifiers caps
        (match (fun q => if pyTruthyV q then q else .dict [])
            (dictGetD sf "qualifiers" (.dict [])) with
          | .dict qf => qf
          | _ => [])
      let refs ← if includeRefs then
          json_parse_references caps
            (match (fun r => if pyTruthyV r then r else .list [])
                (dictGetD sf "references" (.list [])) with
              | .list rl => rl
              | _ => [])
        else .ok .nil
      .ok (some (.mk vo quals refs (pyRankOf sf) datatype))
  | _ => .ok Option.none

def json_claim_values (caps : NormCaps) (datatype : String)
    (includeRefs : Bool) : List PyV → Except Unit WCValueList
  | [] => .ok .nil
  | st :: rest => do
    match st with
    | .dict sf =>
      let cv? ← json_build_claim_value caps datatype includeRefs sf
      let rest' ← json_claim_values caps datatype includeRefs rest
      match cv? with
      | some cv => .ok (.cons cv rest')
      | Option.none => .ok rest'
    | _ => json_claim_values caps datatype includeRefs rest

/-- `JSONNormalizer._build_claim`. -/
def json_build_claim (caps : NormCaps) (pid : String)
    (statements : List PyV) (externalIds includeRefs allRanks : Bool) :
    Except Unit (Option WClaim) := do
  let datatype := (json_claim_datatype_from_statements statements).getD
    "string"
  if ¬externalIds ∧ datatype = "external-id" then .ok Option.none
  else do
    let kept := json_filter_by_rank allRanks statements
    let vals ← json_claim_values caps datatype includeRefs kept
    .ok (some (.mk (some (.mk pid (some (.lazy (caps.resolve pid)))
      Option.none [] .nil)) vals datatype))

def json_claims (caps : NormCaps)
    (externalIds includeRefs allRanks : Bool) (filterPids : List String) :
    List (String × PyV) → Except Unit WClaimList
  | [] => .ok .nil
  | (pid, stmts) :: rest => do
    match stmts with
    | .list stmtList =>
      if headIs 'P' pid then
        if filterPids ≠ [] ∧ pid ∉ filterPids then
          json_claims caps externalIds includeRefs allRanks filterPids rest
        else do
          let c? ← json_build_claim caps pid stmtList externalIds includeRefs
            allRanks
          let rest' ← json_claims caps externalIds includeRefs allRanks
            filterPids rest
          match c? with
          | some c =>
            -- `if claim_obj and claim_obj.values:` — WikidataClaim.__bool__
            -- of the module this normalizer imports (the old module)
            if oldClaimBool c && !(c.values.isNil) then .ok (.cons c rest')
            else .ok rest'
          | Option.none => .ok rest'
      else json_claims caps externalIds includeRefs allRanks filterPids rest
    | _ => json_claims caps externalIds includeRefs allRanks filterPids rest

/-- `JSONNormalizer.normalize`. -/
def json_normalize (caps : NormCaps) (fallbackLang : String)
    (entityId : String) (e : PyV)
    (externalIds includeRefs allRanks : Bool) (filterPids : List String) :
    Except Unit WEntity := do
  match e with
  | .dict fs =>
    let orEmptyDict : PyV → PyV := fun v => if pyTruthyV v then v else .dict []
    let label := getLangVal (pyLangData (orEmptyDict (dictGetD fs "labels"
      (.dict [])))) caps.lang fallbackLang
    let description := getLangVal (pyLangData (orEmptyDict (dictGetD fs
      "descriptions" (.dict [])))) caps.lang fallbackLang
    let aliases := extractAliases (orEmptyDict (dictGetD fs "aliases"
      (.dict []))) caps.lang
    let claimsIn : List (String × PyV) :=
      match orEmptyDict (dictGetD fs "claims" (.dict [])) with
      | .dict cf => cf
      | _ => []
    let claimsOut ← json_claims caps externalIds includeRefs allRanks
      filterPids claimsIn
    .ok (.mk entityId (some (.plain label)) (some description) aliases
      claimsOut)
  | _ => .error ()

/-! ## The TTL normalizer (`src/Normalizer/TTLNormalizer.py`)

The parsed Turtle document is a set of RDF triples; rdflib's `Graph` is
embedded as a list of triples (`TGraph`), with `Graph.value` returning
the first matching object and iteration following list order (rdflib's
iteration order is unspecified; the encoders used in the theorems below
emit at most one object per subject/predicate pair wherever `value` is
consulted, so this choice is immaterial there).

URIs are embedded as the closed vocabulary `TUri`; the string prefix
and suffix tests of the source (`startswith(str(P))`,
`endswith("#WikibaseItem")`, `rsplit("/")`) are implemented
structurally on that vocabulary, case by case, mirroring what the test
yields on the corresponding URI strings. -/

inductive TUri where
  | wd (id : String)        -- http://www.wikidata.org/entity/<id>
  | p (pid : String)        -- .../prop/<pid>
  | ps (pid : String)       -- .../prop/statement/<pid>
  | psv (pid : String)      -- .../prop/statement/value/<pid>
  | pq (pid : String)       -- .../prop/qualifier/<pid>
  | pqv (pid : String)      -- .../prop/qualifier/value/<pid>
  | pqn (pid : String)      -- .../prop/qualifier/value-normalized/<pid>
  | pr (pid : String)       -- .../prop/reference/<pid>
  | prv (pid : String)      -- .../prop/reference/value/<pid>
  | prn (pid : String)      -- .../prop/reference/value-normalized/<pid>
  | stmtNode (i j : ℕ)      -- http://www.wikidata.org/entity/statement/...
  | valNode (i j : ℕ)       -- http://www.wikidata.org/value/...
  | rankUri (name : String) -- http://wikiba.se/ontology#<...>Rank
  | ontology (name : String) -- http://wikiba.se/ontology#<name>
  | rdfsLabel               -- rdf-schema#label
  | schemaDescription       -- schema.org/description
  | skosAltLabel            -- skos/core#altLabel
  | rdfType                 -- rdf-syntax-ns#type
  | provWasDerivedFrom      -- ns/prov#wasDerivedFrom
  deriving DecidableEq, Repr

/-- The URI string (used where the source calls `str()` on a URIRef).
Statement/value node identifiers use the same namespaces as the real
export (`wds:`, `wdv:`), with an index-based local name. -/
def TUri.toStr : TUri → String
  | .wd id => "http://www.wikidata.org/entity/" ++ id
  | .p pid => "http://www.wikidata.org/prop/" ++ pid
  | .ps pid => "http://www.wikidata.org/prop/statement/" ++ pid
  | .psv pid => "http://www.wikidata.org/prop/statement/value/" ++ pid
  | .pq pid => "http://www.wikidata.org/prop/qualifier/" ++ pid
  | .pqv pid => "http://www.wikidata.org/prop/qualifier/value/" ++ pid
  | .pqn pid =>
    "http://www.wikidata.org/prop/qualifier/value-normalized/" ++ pid
  | .pr pid => "http://www.wikidata.org/prop/reference/" ++ pid
  | .prv pid => "http://www.wikidata.org/prop/reference/value/" ++ pid
  | .prn pid =>
    "http://www.wikidata.org/prop/reference/value-normalized/" ++ pid
  | .stmtNode i j =>
    "http://www.wikidata.org/entity/statement/S" ++ toString i ++ "x"
      ++ toString j
  | .valNode i j =>
    "http://www.wikidata.org/value/V" ++ toString i ++ "x" ++ toString j
  | .rankUri name => "http://wikiba.se/ontology#" ++ name
  | .ontology name => "http://wikiba.se/ontology#" ++ name
  | .rdfsLabel => "http://www.w3.org/2000/01/rdf-schema#label"
  | .schemaDescription => "http://schema.org/description"
  | .skosAltLabel => "http://www.w3.org/2004/02/skos/core#altLabel"
  | .rdfType => "http://www.w3.org/1999/02/22-rdf-syntax-ns#type"
  | .provWasDerivedFrom => "http://www.w3.org/ns/prov#wasDerivedFrom"

/-- `"P" + digits` (what `tail.startswith("P") and tail[1:].isdigit()`
accepts). -/
def isPidStr (s : String) : Bool :=
  match s.data with
  | 'P' :: rest => !rest.isEmpty && rest.all Char.isDigit
  | _ => false

/-- `(tail.startswith("Q") or tail.startswith("P")) and
tail[1:].isdigit()`. -/
def isEntityIdStr (s : String) : Bool :=
  match s.data with
  | c :: rest => (c = 'Q' ∨ c = 'P') && !rest.isEmpty && rest.all Char.isDigit
  | [] => false

/-- `str(u).startswith("http://www.wikidata.org/prop/")`: true exactly
for the nine `prop/*` namespaces. -/
def TUri.startsWithProp : TUri → Bool
  | .p _ | .ps _ | .psv _ | .pq _ | .pqv _ | .pqn _ | .pr _ | .prv _
  | .prn _ => true
  | _ => false

/-- `TTLNormalizer._pid_from_prop_uri`: any `prop/*` URI whose last path
component is a well-formed pid.  (`str(PS)`, `str(PQ)` and `str(PR)`
all extend `str(P)`, so the source's four-prefix test accepts all nine
namespaces.) -/
def pidFromPropUri : TUri → Option String
  | .p pid | .ps pid | .psv pid | .pq pid | .pqv pid | .pqn pid | .pr pid
  | .prv pid | .prn pid => if isPidStr pid then some pid else Option.none
  | _ => Option.none

/-- `TTLNormalizer._qid_from_wd_uri`.  Statement-node URIs live under
the entity namespace too, but their local names (UUID-style) fail the
digits test, as here. -/
def qidFromWdUri : TUri → Option String
  | .wd id => if isEntityIdStr id then some id else Option.none
  | _ => Option.none

/-- `s.endswith(pat)`. -/
def endsWithS (pat s : String) : Bool := pat.data.isSuffixOf s.data

/-- `TTLNormalizer._rank_to_str` (`endswith` on the URI string). -/
def rankToStr (u : TUri) : Option String :=
  if endsWithS "PreferredRank" u.toStr then some "preferred"
  else if endsWithS "NormalRank" u.toStr then some "normal"
  else if endsWithS "DeprecatedRank" u.toStr then some "deprecated"
  else Option.none

/-- An RDF node: URI or literal (with optional language tag and
datatype). -/
inductive TNode where
  | u (uri : TUri)
  | lit (s : String) (lang : Option String) (dt : Option TUri)
  deriving DecidableEq, Repr

/-- `str(node)`. -/
def TNode.toStr : TNode → String
  | .u uri => uri.toStr
  | .lit s _ _ => s

def TNode.isUri : TNode → Bool
  | .u _ => true
  | .lit _ _ _ => false

/-- A parsed rdflib graph: a triple list (subject, predicate, object);
rdflib predicates are always URIs. -/
def TGraph := List (TNode × TUri × TNode)

instance : Membership (TNode × TUri × TNode) TGraph :=
  inferInstanceAs (Membership _ (List _))

/-- `Graph.value(s, p)`: an arbitrary matching object (first in list
order here). -/
def gvalue (g : TGraph) (s : TNode) (p : TUri) : Option TNode :=
  match g with
  | [] => Option.none
  | (s', p', o) :: rest =>
    if s' = s ∧ p' = p then some o else gvalue rest s p

/-- `Graph.predicate_objects(s)`. -/
def predObjs (g : TGraph) (s : TNode) : List (TUri × TNode) :=
  g.filterMap (fun t => if t.1 = s then some (t.2.1, t.2.2) else Option.none)

/-- `Graph.objects(s, p)`. -/
def objsOf (g : TGraph) (s : TNode) (p : TUri) : List TNode :=
  g.filterMap (fun t =>
    if t.1 = s ∧ t.2.1 = p then some t.2.2 else Option.none)

/-- `Graph.subjects()` (one yield per triple; consumers deduplicate). -/
def gsubjects (g : TGraph) : List TNode := g.map (·.1)

/-- Python dict assignment `m[k] = v`: overwrite in place, else append
(insertion order preserved). -/
def dictUpsert : List (String × LangVal) → String → LangVal →
    List (String × LangVal)
  | [], k, v => [(k, v)]
  | (k0, v0) :: rest, k, v =>
    if k0 = k then (k0, v) :: rest
    else (k0, v0) :: dictUpsert rest k v

/-- `TTLNormalizer._lang_value_map` (language-tagged literals only; an
empty language tag is falsy and skipped; a later literal for the same
language overwrites the earlier). -/
def ttl_lang_value_map (g : TGraph) (subj : TNode) (pred : TUri) :
    List (String × LangVal) :=
  (objsOf g subj pred).foldl (fun m o =>
    match o with
    | .lit s (some lg) _ =>
      if lg ≠ "" then dictUpsert m lg (LangVal.vdict lg s) else m
    | _ => m) []

/-- The TTL alias pipeline: `_aliases_lang_map` restricted to the
requested language plus `"mul"`, the entries' `"value"` fields, then
the set comprehension (`dedupFirst`). -/
def ttl_aliases (g : TGraph) (subj : TNode) (lang : String) : List String :=
  let items : String → List String := fun l =>
    (objsOf g subj .skosAltLabel).filterMap (fun o =>
      match o with
      | .lit s (some lg) _ =>
        if lg = l ∧ lg ≠ "" then some s else Option.none
      | _ => Option.none)
  dedupFirst (items lang ++ items "mul")

/-- `TTLNormalizer._build_label_cache_from_ttl` followed by
`WikidataLabel._compress_labels`: the label maps (compressed to plain
strings) of every `wd:Q...`/`wd:P...` that occurs as a subject and has
label triples. -/
def ttl_build_label_cache (g : TGraph) :
    List (String × List (String × LangVal)) :=
  let candidates := dedupFirst ((gsubjects g).filterMap (fun s =>
    match s with
    | .u uri => qidFromWdUri uri
    | _ => Option.none))
  candidates.filterMap (fun sid =>
    let labels := ttl_lang_value_map g (.u (.wd sid)) .rdfsLabel
    if labels ≠ [] then
      some (sid, labels.map (fun kv =>
        (kv.1, match kv.2 with
          | .vdict _ v => LangVal.vstr v
          | .vstr v => LangVal.vstr v)))
    else Option.none)

/-- The label each `LazyLabel` of the TTL normalizer resolves to: the
TTL-internal cache first, the external store (`caps.resolve`) for the
rest (`LazyLabelFactory.resolve_all` never overwrites cached ids). -/
def ttlResolve (caps : NormCaps) (fallbackLang : String) (g : TGraph)
    (qid : String) : String :=
  match (ttl_build_label_cache g).lookup qid with
  | some data => getLangVal data caps.lang fallbackLang
  | Option.none => caps.resolve qid

/-- The Python values built by the TTL value-node/literal parsing
helpers (`_time_from_node`, `_quantity_from_node`, `_coord_from_node`,
the monolingual dict of `_parse_ps_value`, and plain strings). -/
inductive TParsed where
  | pstr (s : String)
  | ptime (time : Option String) (precision : Option ℤ)
      (calendarmodel : Option String)
  | pquantity (amount : Option String) (unit : String)
      (upper lower : Option String)
  | pcoord (lat lon : Option ℚ) (globe : Option String) (prec : Option ℚ)
  | pmono (text : String) (language : String)
  deriving DecidableEq, Repr

/-- `str(parsed)`; dict reprs are stand-ins (degenerate branches only,
observed only for non-emptiness). -/
def tparsedStr : TParsed → String
  | .pstr s => s
  | .ptime _ _ _ => "<time-dict>"
  | .pquantity _ _ _ _ => "<quantity-dict>"
  | .pcoord _ _ _ _ => "<coord-dict>"
  | .pmono _ _ => "<mono-dict>"

/-- `int(...)` of an integer literal's lexical form. -/
def litIntOf (s : String) : Option ℤ :=
  match s.data with
  | '-' :: ds => if !ds.isEmpty && ds.all Char.isDigit then
      some (-(digitsToNat ds : ℤ)) else Option.none
  | '+' :: ds => if !ds.isEmpty && ds.all Char.isDigit then
      some ((digitsToNat ds : ℤ)) else Option.none
  | ds => if !ds.isEmpty && ds.all Char.isDigit then
      some ((digitsToNat ds : ℤ)) else Option.none

/-- `float(...)` of a decimal literal (sufficient for the values in
scope). -/
def litQOf (s : String) : Option ℚ :=
  match s.splitOn "." with
  | [a] => (litIntOf a).map (fun n => (n : ℚ))
  | [a, b] =>
    match litIntOf a, if !b.data.isEmpty && b.data.all Char.isDigit then
        some (digitsToNat b.data) else Option.none with
    | some n, some f =>
      let den : ℚ := (10 : ℚ) ^ b.length
      some ((n : ℚ) + (if n < 0 then -(f : ℚ) else (f : ℚ)) / den)
    | _, _ => Option.none
  | _ => Option.none

/-- `TTLNormalizer._time_from_node`. -/
def ttl_time_from_node (g : TGraph) (node : TNode) : TParsed :=
  let timeV := gvalue g node (.ontology "timeValue")
  let prec := gvalue g node (.ontology "timePrecision")
  let cal := gvalue g node (.ontology "timeCalendarModel")
  .ptime (timeV.map TNode.toStr)
    (match prec with
      | some (.lit s _ _) => litIntOf s
      | _ => Option.none)
    (cal.map TNode.toStr)

/-- `TTLNormalizer._quantity_from_node`. -/
def ttl_quantity_from_node (g : TGraph) (node : TNode) : TParsed :=
  let amount := gvalue g node (.ontology "quantityAmount")
  let unit := gvalue g node (.ontology "quantityUnit")
  let upper := gvalue g node (.ontology "quantityUpperBound")
  let lower := gvalue g node (.ontology "quantityLowerBound")
  .pquantity (amount.map TNode.toStr)
    (match unit with
      | some n => n.toStr
      | Option.none => "1")
    (upper.map TNode.toStr) (lower.map TNode.toStr)

/-- `TTLNormalizer._coord_from_node`. -/
def ttl_coord_from_node (g : TGraph) (node : TNode) : TParsed :=
  let lat := gvalue g node (.ontology "geoLatitude")
  let lon := gvalue g node (.ontology "geoLongitude")
  let globe := gvalue g node (.ontology "geoGlobe")
  let prec := gvalue g node (.ontology "geoPrecision")
  .pcoord
    (match lat with | some (.lit s _ _) => litQOf s | _ => Option.none)
    (match lon with | some (.lit s _ _) => litQOf s | _ => Option.none)
    (globe.map TNode.toStr)
    (match prec with | some (.lit s _ _) => litQOf s | _ => Option.none)

/-- `TTLNormalizer._parse_rich_value_node`. -/
def ttl_parse_rich_value_node (g : TGraph) (datatype : String)
    (node : TNode) : Option TParsed :=
  if datatype = "time" then
    match ttl_time_from_node g node with
    | .ptime (some t) p c => if t ≠ "" then some (.ptime (some t) p c)
        else Option.none
    | _ => Option.none
  else if datatype = "quantity" then
    match ttl_quantity_from_node g node with
    | .pquantity (some a) u up lo => some (.pquantity (some a) u up lo)
    | _ => Option.none
  else if datatype = "globe-coordinate" then
    match ttl_coord_from_node g node with
    | .pcoord (some la) (some lo) gl pr =>
      some (.pcoord (some la) (some lo) gl pr)
    | _ => Option.none
  else Option.none

/-- `TTLNormalizer._infer_from_rich_node`. -/
def ttl_infer_from_rich_node (g : TGraph) (node : TNode) : Option TParsed :=
  if (gvalue g node (.ontology "timeValue")).isSome then
    match ttl_time_from_node g node with
    | .ptime (some t) p c => if t ≠ "" then some (.ptime (some t) p c)
        else Option.none
    | _ => Option.none
  else if (gvalue g node (.ontology "quantityAmount")).isSome then
    match ttl_quantity_from_node g node with
    | .pquantity (some a) u up lo => some (.pquantity (some a) u up lo)
    | _ => Option.none
  else if (gvalue g node (.ontology "geoLatitude")).isSome then
    match ttl_coord_from_node g node with
    | .pcoord (some la) (some lo) gl pr =>
      some (.pcoord (some la) (some lo) gl pr)
    | _ => Option.none
  else Option.none

/-- `TTLNormalizer._parse_ps_value`. -/
def ttl_parse_ps_value (g : TGraph) (datatype : String) (v : TNode) :
    Option TParsed :=
  if datatype = "time" then
    match v with
    | .u _ =>
      match ttl_time_from_node g v with
      | .ptime (some t) p c => if t ≠ "" then some (.ptime (some t) p c)
          else Option.none
      | _ => Option.none
    | .lit s _ _ =>
      if s = "" then Option.none
      else if (s.data.getLast? = some 'Z')
          ∨ (s.data.drop 10).contains '+' ∨ (s.data.drop 10).contains '-'
        then some (.ptime (some s) Option.none Option.none)
      else some (.ptime (some (s ++ "Z")) Option.none Option.none)
  else if datatype = "wikibase-item" then
    match v with
    | .u uri =>
      match qidFromWdUri uri with
      | some q => some (.pstr q)
      | Option.none => Option.none
    | .lit s _ _ => some (.pstr s)
  else if datatype = "monolingualtext" then
    match v with
    | .lit s lg _ => some (.pmono s (lg.getD ""))
    | .u uri => some (.pstr uri.toStr)
  else
    some (.pstr v.toStr)

/-- `TTLNormalizer._is_statement_node`. -/
def ttl_is_statement_node (g : TGraph) (node : TNode) (pid : String) :
    Bool :=
  match node with
  | .lit _ _ _ => false
  | .u _ =>
    (gvalue g node (.ontology "rank")).isSome
    || (gvalue g node (.ps pid)).isSome
    || (gvalue g node (.psv pid)).isSome
    || (gvalue g node .rdfType == some (.u (.ontology "Statement")))
    || (predObjs g node).any (fun po =>
        match po.1 with
        | .ps _ => true
        | .psv _ => true
        | _ => false)

/-- `TTLNormalizer._is_special_main_value`. -/
def ttl_is_special (g : TGraph) (node : TNode) (pid : String) : Bool :=
  (gvalue g node (.ps pid)).isNone && (gvalue g node (.psv pid)).isNone

/-- `TTLNormalizer._prop_datatype`. -/
def ttl_prop_datatype (g : TGraph) (pid : String)
    (statementNode : Option TNode) : String :=
  let fromPType : Option String :=
    match gvalue g (.u (.wd pid)) (.ontology "propertyType") with
    | some (.u ptype) =>
      let s := ptype.toStr
      if endsWithS "#WikibaseItem" s then some "wikibase-item"
      else if endsWithS "#Quantity" s then some "quantity"
      else if endsWithS "#Time" s then some "time"
      else if endsWithS "#GlobeCoordinate" s then some "globe-coordinate"
      else if endsWithS "#ExternalId" s then some "external-id"
      else if endsWithS "#Monolingualtext" s then some "monolingualtext"
      else if endsWithS "#Url" s then some "url"
      else if endsWithS "#String" s then some "string"
      else if endsWithS "#CommonsMedia" s then some "commonsMedia"
      else if endsWithS "#GeoShape" s then some "geoShape"
      else if endsWithS "#TabularData" s then some "tabular-data"
      else if endsWithS "#Math" s then some "math"
      else if endsWithS "#MusicalNotation" s then some "musical-notation"
      else Option.none
    | _ => Option.none
  match fromPType with
  | some dt => dt
  | Option.none =>
    match statementNode with
    | some node =>
      let fromRich : Option String :=
        match gvalue g node (.psv pid) with
        | some rich =>
          if rich.isUri then
            if (gvalue g rich (.ontology "timeValue")).isSome then some "time"
            else if (gvalue g rich (.ontology "quantityAmount")).isSome then
              some "quantity"
            else if (gvalue g rich (.ontology "geoLatitude")).isSome then
              some "globe-coordinate"
            else Option.none
          else Option.none
        | Option.none => Option.none
      match fromRich with
      | some dt => dt
      | Option.none =>
        match gvalue g node (.ps pid) with
        | some (.u uri) =>
          match qidFromWdUri uri with
          | some q => if headIs 'Q' q then "wikibase-item" else "string"
          | Option.none => "string"
        | some (.lit _ _ (some dtUri)) =>
          if endsWithS "dateTime" dtUri.toStr then "time"
          else if endsWithS "decimal" dtUri.toStr then "quantity"
          else "string"
        | _ => "string"
    | Option.none => "string"

/-- `TTLNormalizer._main_value`. -/
def ttl_main_value (g : TGraph) (node : TNode) (pid : String)
    (datatype : String) : Option TParsed :=
  if ¬ ttl_is_statement_node g node pid then Option.none
  else
    let richNode := gvalue g node (.psv pid)
    let richParsed : Option TParsed :=
      match richNode with
      | some rich =>
        if rich.isUri then ttl_parse_rich_value_node g datatype rich
        else Option.none
      | Option.none => Option.none
    match richParsed with
    | some parsed => some parsed
    | Option.none =>
      match gvalue g node (.ps pid) with
      | Option.none =>
        match richNode with
        | some rich =>
          if rich.isUri then ttl_infer_from_rich_node g rich
          else Option.none
        | Option.none => Option.none
      | some v => ttl_parse_ps_value g datatype v

/-- `TTLNormalizer._snak_value`. -/
def ttl_snak_value (g : TGraph) (datatype : String) (obj : TNode)
    (rich : Option TNode) : Option TParsed :=
  if datatype = "external-id" then
    match obj with
    | .lit s _ _ => some (.pstr s)
    | .u _ => Option.none
  else if datatype = "time" then
    let fromCandidates : Option TParsed :=
      match rich with
      | some r =>
        if r.isUri then
          match ttl_time_from_node g r with
          | .ptime (some t) p c =>
            if t ≠ "" then some (.ptime (some t) p c) else Option.none
          | _ => Option.none
        else Option.none
      | Option.none => Option.none
    match fromCandidates with
    | some x => some x
    | Option.none =>
      match obj with
      | .u _ =>
        match ttl_time_from_node g obj with
        | .ptime (some t) p c =>
          if t ≠ "" then some (.ptime (some t) p c) else Option.none
        | _ => Option.none
      | .lit s _ _ =>
        if s ≠ "" then some (.ptime (some s) Option.none Option.none)
        else Option.none
  else if datatype = "quantity" then
    let fromRich : Option TParsed :=
      match rich with
      | some r =>
        if r.isUri then
          match ttl_quantity_from_node g r with
          | .pquantity (some a) u up lo => some (.pquantity (some a) u up lo)
          | _ => Option.none
        else Option.none
      | Option.none => Option.none
    match fromRich with
    | some x => some x
    | Option.none =>
      match obj with
      | .lit s _ _ => some (.pquantity (some s) "1" Option.none Option.none)
      | .u _ => Option.none
  else if datatype = "globe-coordinate" then
    match rich with
    | some r =>
      if r.isUri then
        match ttl_coord_from_node g r with
        | .pcoord (some la) (some lo) gl pr =>
          some (.pcoord (some la) (some lo) gl pr)
        | _ => Option.none
      else Option.none
    | Option.none => Option.none
  else if datatype = "wikibase-item" then
    match obj with
    | .u uri =>
      match qidFromWdUri uri with
      | some q => some (.pstr q)
      | Option.none => Option.none
    | .lit s _ _ => some (.pstr s)
  else if datatype = "monolingualtext" then
    match obj with
    | .lit s lg _ => some (.pmono s (lg.getD ""))
    | .u uri => some (.pstr uri.toStr)
  else
    some (.pstr obj.toStr)

/-- `TTLNormalizer._to_value_object`.  The time branch hands the parsed
dict to `wikidata_time_to_text` and catches `ValueError`, `TypeError`,
`KeyError` and `requests.RequestException`; a `"calendarmodel"` key
holding `None` makes `value.get("calendarmodel", "").rsplit` raise
`AttributeError`, which is in no except list and crashes the
normalizer (`.error ()`).  The coordinate branch passes the whole dict
to `wikidata_geolocation_to_text`, whose `abs(value)` raises a caught
`TypeError`, so every coordinate value collapses to `None`. -/
def ttl_to_value_object (caps : NormCaps) (resolve : String → String)
    (datatype : String) (parsed : Option TParsed) :
    Except Unit (Option WValue) :=
  match parsed with
  | Option.none => .ok Option.none
  | some parsed =>
    if datatype = "wikibase-item" then
      match parsed with
      | .pstr s =>
        if headIs 'Q' s then
          .ok (some (.entity (.mk s (some (.lazy (resolve s))) Option.none []
            .nil)))
        else .ok (some (.text (some s)))
      | p => .ok (some (.text (some (tparsedStr p))))
    else if datatype = "quantity" then
      match parsed with
      | .pquantity amount? unit _ _ =>
        match amount? with
        | Option.none => .ok Option.none
        | some amount =>
          let ul := quantityUnitOf resolve (some unit)
          .ok (some (.quantity amount ul.1 ul.2))
      | _ => .ok Option.none
    else if datatype = "time" then
      match parsed with
      | .ptime time? prec cal =>
        match time? with
        | Option.none => .ok Option.none
        | some t =>
          if t = "" then .ok Option.none
          else
            match cal with
            | Option.none => .error ()   -- uncaught AttributeError
            | some c =>
              let calRaw := if c ≠ "" then c
                else "http://www.wikidata.org/entity/Q1985786"
              let calId := lastAfterSlash calRaw
              match wikidata_time_to_text caps.timeCaps
                  { time := t, timezone := Option.none,
                    before := Option.none, after := Option.none,
                    precision := prec, calendarmodel := c } with
              | .error _ => .ok Option.none  -- ValueError and KeyError caught
              | .ok sv =>
                .ok (some (.time (some t) prec (some calId) (some sv)))
      | _ => .ok Option.none
    else if datatype = "globe-coordinate" then
      match parsed with
      | .pcoord lat? lon? _ _ =>
        match lat?, lon? with
        | some _, some _ =>
          -- `wikidata_geolocation_to_text(parsed, ...)`: TypeError, caught
          .ok Option.none
        | _, _ => .ok Option.none
      | _ => .ok Option.none
    else
      match parsed with
      | .pmono txt lg =>
        if lg ≠ caps.lang then .ok (some (.text Option.none))
        else .ok (some (.text (some txt)))
      | p => .ok (some (.text (some (tparsedStr p))))

/-- `defaultdict(list)` append under a key (insertion order). -/
def groupAppend {α : Type} :
    List (String × List α) → String → α → List (String × List α)
  | [], k, v => [(k, [v])]
  | (k0, vs) :: rest, k, v =>
    if k0 = k then (k0, vs ++ [v]) :: rest
    else (k0, vs) :: groupAppend rest k v

/-- `TTLNormalizer._qualifiers`. -/
def ttl_qualifiers (g : TGraph) (node : TNode) :
    List (String × List TParsed) :=
  (predObjs g node).foldl (fun out po =>
    match po.1 with
    | .pq qp =>
      if isPidStr qp then
        let datatype := ttl_prop_datatype g qp Option.none
        let rich := gvalue g node (.pqv qp)
        match ttl_snak_value g datatype po.2 rich with
        | some v => groupAppend out qp v
        | Option.none => out
      else out
    | _ => out) []

/-- `TTLNormalizer._references` (each group's snak map, in order; a
reference node with no accepted snaks still contributes a group). -/
def ttl_references (g : TGraph) (node : TNode) :
    List (List (String × List TParsed)) :=
  (objsOf g node .provWasDerivedFrom).filterMap (fun refNode =>
    match refNode with
    | .u _ =>
      some ((predObjs g refNode).foldl (fun snaks po =>
        match po.1 with
        | .pr rp =>
          if isPidStr rp then
            let datatype := ttl_prop_datatype g rp Option.none
            let rich := gvalue g refNode (.prv rp)
            match ttl_snak_value g datatype po.2 rich with
            | some v => groupAppend snaks rp v
            | Option.none => snaks
          else snaks
        | _ => snaks) [])
    | _ => Option.none)

/-- One extracted statement dict of `_claims_for_subject`. -/
structure TStmt where
  pid : String
  datatype : String
  rank : Option String
  main : Option TParsed
  qualifiers : List (String × List TParsed)
  references : List (List (String × List TParsed))
  isSpecial : Bool
  deriving DecidableEq, Repr

/-- `TTLNormalizer._claims_for_subject`. -/
def ttl_claims_for_subject (g : TGraph) (subj : TNode)
    (externalIds includeRefs allRanks qualifiers : Bool)
    (filterPids : List String) : List (String × List TStmt) :=
  let out := (predObjs g subj).foldl (fun out po =>
    match po with
    | (pred, .u objUri) =>
      if pred.startsWithProp then
        match pidFromPropUri pred with
        | some pid =>
          if filterPids ≠ [] ∧ pid ∉ filterPids then out
          else
            let obj : TNode := .u objUri
            if ttl_is_statement_node g obj pid then
              let datatype := ttl_prop_datatype g pid (some obj)
              if ¬externalIds ∧ datatype = "external-id" then out
              else
                let rank := match gvalue g obj (.ontology "rank") with
                  | some (.u ru) => rankToStr ru
                  | _ => Option.none
                let isSpecial := ttl_is_special g obj pid
                let main := if isSpecial then Option.none
                  else ttl_main_value g obj pid datatype
                let quals := if qualifiers then ttl_qualifiers g obj else []
                let refs := if includeRefs then ttl_references g obj else []
                groupAppend out pid
                  (TStmt.mk pid datatype rank main quals refs isSpecial)
            else out
        | Option.none => out
      else out
    | _ => out) []
  if allRanks then out
  else
    out.map (fun kv =>
      let hp := kv.2.any (fun s => s.rank == some "preferred")
      (kv.1, kv.2.filter (fun s =>
        match s.rank with
        | Option.none => true
        | some r => (hp && r == "preferred") || (!hp && r == "normal"))))

/-- The value list of `TTLNormalizer._build_snak_claim`. -/
def ttl_snak_claim_values (caps : NormCaps) (resolve : String → String)
    (datatype : String) : List TParsed → Except Unit WCValueList
  | [] => .ok .nil
  | v :: rest => do
    let vo ← ttl_to_value_object caps resolve datatype (some v)
    let rest' ← ttl_snak_claim_values caps resolve datatype rest
    .ok (.cons (.mk vo .nil .nil Option.none datatype) rest')

/-- `TTLNormalizer._build_snak_claim` (dummy subject omitted as in the
JSON model). -/
def ttl_build_snak_claim (caps : NormCaps) (resolve : String → String)
    (pid datatype : String) (snaks : List TParsed) : Except Unit WClaim := do
  let vals ← ttl_snak_claim_values caps resolve datatype snaks
  .ok (.mk (some (.mk pid (some (.lazy (resolve pid))) Option.none [] .nil))
    vals datatype)

/-- The qualifier list comprehension of `_build_claim_object` (also the
per-reference snak-claim list). -/
def ttl_qual_claims (caps : NormCaps) (resolve : String → String)
    (g : TGraph) : List (String × List TParsed) → Except Unit WClaimList
  | [] => .ok .nil
  | (qpid, qsnaks) :: rest => do
    let c ← ttl_build_snak_claim caps resolve qpid
      (ttl_prop_datatype g qpid Option.none) qsnaks
    let cs ← ttl_qual_claims caps resolve g rest
    .ok (.cons c cs)

def ttl_ref_claims (caps : NormCaps) (resolve : String → String)
    (g : TGraph) :
    List (List (String × List TParsed)) → Except Unit WRefList
  | [] => .ok .nil
  | grp :: rest => do
    let cl ← ttl_qual_claims caps resolve g grp
    let gs ← ttl_ref_claims caps resolve g rest
    .ok (.cons cl gs)

/-- The value loop of `TTLNormalizer._build_claim_object`
(`claimDt` = the claim's datatype from the first statement; each
value's conversion uses its own statement's datatype). -/
def ttl_claim_values (caps : NormCaps) (resolve : String → String)
    (g : TGraph) (claimDt : String) (includeRefs qualifiers : Bool) :
    List TStmt → Except Unit WCValueList
  | [] => .ok .nil
  | st :: rest => do
    let vo ← ttl_to_value_object caps resolve st.datatype st.main
    let quals ← if qualifiers then
        ttl_qual_claims caps resolve g st.qualifiers
      else .ok .nil
    let refs ← if includeRefs then
        ttl_ref_claims caps resolve g st.references
      else .ok .nil
    let rest' ← ttl_claim_values caps resolve g claimDt includeRefs
      qualifiers rest
    .ok (.cons (.mk vo quals refs st.rank claimDt) rest')

/-- `TTLNormalizer._build_claim_object`. -/
def ttl_build_claim_object (caps : NormCaps) (resolve : String → String)
    (g : TGraph) (pid : String) (statements : List TStmt)
    (includeRefs qualifiers : Bool) : Except Unit WClaim := do
  let dt0 := match statements with
    | st :: _ => if st.datatype ≠ "" then st.datatype else "string"
    | [] => "string"
  let vals ← ttl_claim_values caps resolve g dt0 includeRefs qualifiers
    statements
  .ok (.mk (some (.mk pid (some (.lazy (resolve pid))) Option.none [] .nil))
    vals dt0)

/-- The claims list comprehension of `TTLNormalizer.normalize`
(`if statements` skips rank-emptied pids; unlike the JSON normalizer,
no claim-truthiness filter is applied to the built claims). -/
def ttl_claims_build (caps : NormCaps) (resolve : String → String)
    (g : TGraph) (includeRefs qualifiers : Bool) :
    List (String × List TStmt) → Except Unit WClaimList
  | [] => .ok .nil
  | (pid, sts) :: rest =>
    if sts.isEmpty then ttl_claims_build caps resolve g includeRefs
      qualifiers rest
    else do
      let c ← ttl_build_claim_object caps resolve g pid sts includeRefs
        qualifiers
      let cs ← ttl_claims_build caps resolve g includeRefs qualifiers rest
      .ok (.cons c cs)

/-- `TTLNormalizer.normalize`. -/
def ttl_normalize (caps : NormCaps) (fallbackLang : String)
    (entityId : String) (g : TGraph)
    (externalIds includeRefs allRanks qualifiers : Bool)
    (filterPids : List String) : Except Unit WEntity := do
  let resolve := ttlResolve caps fallbackLang g
  let subj : TNode := .u (.wd entityId)
  let label := getLangVal (ttl_lang_value_map g subj .rdfsLabel) caps.lang
    fallbackLang
  let description := getLangVal (ttl_lang_value_map g subj
    .schemaDescription) caps.lang fallbackLang
  let aliases := ttl_aliases g subj caps.lang
  let claimsDict := ttl_claims_for_subject g subj externalIds includeRefs
    allRanks qualifiers filterPids
  let claims ← ttl_claims_build caps resolve g includeRefs qualifiers
    claimsDict
  .ok (.mk entityId (some (.plain label)) (some description) aliases claims)


/-! ### C7: value-level failure handling -/

/-- A transparent `NormCaps`: empty label store, the transparent
`revealCaps` time locale, language `"en"`. -/
def plainNormCaps : NormCaps :=
  { resolve := fun _ => "", timeCaps := revealCaps, lang := "en" }

/-- A raw JSON statement whose mainsnak carries a time datavalue with
the given inner value dict, at normal rank. -/
def timeStmtFields (dfs : List (String × PyV)) : List (String × PyV) :=
  [("mainsnak", .dict [("snaktype", .str "value"),
     ("datatype", .str "time"),
     ("datavalue", .dict [("type", .str "time"), ("value", .dict dfs)])]),
   ("rank", .str "normal")]

lemma json_tvo_time_fail (caps : NormCaps) (dfs : List (String × PyV))
    (t : String) (tv : TimeValue)
    (hdt : dictGet dfs "time" = some (.str t)) (ht : t ≠ "")
    (hfail : pyTimeValue t dfs = .ok Option.none ∨
      (pyTimeValue t dfs = .ok (some tv) ∧
        wikidata_time_to_text caps.timeCaps tv = .error .value)) :
    json_to_value_object caps "time"
      (.dict [("type", .str "time"), ("value", .dict dfs)]) =
      .ok Option.none := by
  rcases hfail with hpt | ⟨hpt, herr⟩
  · simp [json_to_value_object, dictGetD, dictGet, isTypeTag, hdt, ht, hpt]
  · simp [json_to_value_object, dictGetD, dictGet, isTypeTag, hdt, ht, hpt,
      herr]


lemma json_tvo_time_keyerr (caps : NormCaps) (dfs : List (String × PyV))
    (t : String) (tv : TimeValue)
    (hdt : dictGet dfs "time" = some (PyV.str t)) (ht : t ≠ "")
    (hpt : pyTimeValue t dfs = .ok (some tv))
    (herr : wikidata_time_to_text caps.timeCaps tv = .error .key) :
    json_to_value_object caps "time"
      (.dict [("type", .str "time"), ("value", .dict dfs)]) = .error () := by
  simp [json_to_value_object, dictGetD, dictGet, isTypeTag, hdt, ht, hpt,
    herr]

lemma json_bcv_of_tvo (caps : NormCaps) (dfs : List (String × PyV))
    (r : Except Unit (Option WValue))
    (hvo : json_to_value_object caps "time"
      (.dict [("type", .str "time"), ("value", .dict dfs)]) = r) :
    json_build_claim_value caps "time" false (timeStmtFields dfs) =
      r.map (fun vo => some (.mk vo .nil .nil (some "normal") "time")) := by
  cases r <;>
    simp [json_build_claim_value, timeStmtFields, dictGetD, dictGet,
      isTypeTag, pyTruthyV, pyRankOf, json_parse_qualifiers, hvo,
      Except.map, bind, Except.bind]

lemma json_build_claim_two (caps : NormCaps) (pid : String)
    (sfB sfG : List (String × PyV)) (cvB cvG : WClaimValue)
    (hdt : json_claim_datatype_from_statements [.dict sfB, .dict sfG] =
      some "time")
    (hb : json_build_claim_value caps "time" false sfB = .ok (some cvB))
    (hg : json_build_claim_value caps "time" false sfG = .ok (some cvG)) :
    json_build_claim caps pid [.dict sfB, .dict sfG] true false true =
      .ok (some (.mk (some (.mk pid (some (.lazy (caps.resolve pid)))
          Option.none [] .nil))
        (.cons cvB (.cons cvG .nil)) "time")) := by
  simp [json_build_claim, json_filter_by_rank, json_claim_values, hdt, hb,
    hg, bind, Except.bind]

lemma json_build_claim_err (caps : NormCaps) (pid : String)
    (sfB : List (String × PyV))
    (hb : json_build_claim_value caps "time" false sfB = .error ())
    (hdt : json_claim_datatype_from_statements [.dict sfB] = some "time") :
    json_build_claim caps pid [.dict sfB] true false true = .error () := by
  simp [json_build_claim, json_filter_by_rank, json_claim_values, hdt, hb,
    bind, Except.bind]

lemma ttl_claim_two (caps : NormCaps) (resolve : String → String)
    (g : TGraph) (pid : String) (pBad pGood : TParsed) (vG : WValue)
    (hB : ttl_to_value_object caps resolve "time" (some pBad) =
      .ok Option.none)
    (hG : ttl_to_value_object caps resolve "time" (some pGood) =
      .ok (some vG)) :
    ttl_build_claim_object caps resolve g pid
      [⟨pid, "time", some "normal", some pBad, [], [], false⟩,
       ⟨pid, "time", some "normal", some pGood, [], [], false⟩] false true =
      .ok (.mk (some (.mk pid (some (.lazy (resolve pid))) Option.none []
          .nil))
        (.cons (.mk Option.none .nil .nil (some "normal") "time")
          (.cons (.mk (some vG) .nil .nil (some "normal") "time") .nil))
        "time") := by
  simp [ttl_build_claim_object, ttl_claim_values, ttl_qual_claims,
    ttl_ref_claims, hB, hG, bind, Except.bind]

lemma ttl_tvo_time_err_drop (caps : NormCaps) (resolve : String → String)
    (t : String) (prec : Option ℤ) (c : String) (e : TimeErr)
    (ht : t ≠ "")
    (herr : wikidata_time_to_text caps.timeCaps
      { time := t, precision := prec, calendarmodel := c } = .error e) :
    ttl_to_value_object caps resolve "time"
      (some (.ptime (some t) prec (some c))) = .ok Option.none := by
  simp [ttl_to_value_object, ht, herr]


/-- The malformed time value dict: unparseable ISO string (raises
`ValueError` in `_parse_iso`, the caught class). -/
def dfsJunk : List (String × PyV) :=
  [("time", .str "junk"), ("precision", .int 11),
   ("calendarmodel", .str "http://www.wikidata.org/entity/Q1985727")]

/-- A well-formed day-precision time value dict. -/
def dfsGood : List (String × PyV) :=
  [("time", .str "+2001-06-15T00:00:00Z"), ("precision", .int 11),
   ("calendarmodel", .str "http://www.wikidata.org/entity/Q1985727")]

/-- A time value dict with precision 15: `wikidata_time_to_text` raises
`KeyError` on the precision-formats table. -/
def dfs15 : List (String × PyV) :=
  [("time", .str "+2000-01-01T00:00:00Z"), ("precision", .int 15),
   ("calendarmodel", .str "http://www.wikidata.org/entity/Q1985727")]

/-- **C7 (amended).**  Value-level failure handling.
(1) A time payload whose failure is of the caught class (`ValueError`)
is dropped locally by the JSON normalizer: the claim is still built,
the failing value slot is `None` with its rank kept, and a following
good value survives intact.  (2) The TTL normalizer does the same at
the claim level.  (3) A formatter `KeyError` (precision outside the
0..14 table) is not in the JSON normalizer except list: it propagates
and aborts the enclosing claim.  (4) The TTL normalizer catches
`KeyError` and still drops only the value.  (5) Every coordinate
payload fails formatting (`TypeError` from `abs(dict)`) and is dropped
by both normalizers. -/
theorem value_failure_recovery (caps : NormCaps) (resolve : String → String)
    (g : TGraph) (pid : String) :
    (∀ dfs t tv (sfG : List (String × PyV)) cvG,
      dictGet dfs "time" = some (PyV.str t) → t ≠ "" →
      (pyTimeValue t dfs = .ok Option.none ∨
        (pyTimeValue t dfs = .ok (some tv) ∧
          wikidata_time_to_text caps.timeCaps tv = .error .value)) →
      json_build_claim_value caps "time" false sfG = .ok (some cvG) →
      json_build_claim caps pid [.dict (timeStmtFields dfs), .dict sfG]
          true false true =
        .ok (some (.mk (some (.mk pid (some (.lazy (caps.resolve pid)))
            Option.none [] .nil))
          (.cons (.mk Option.none .nil .nil (some "normal") "time")
            (.cons cvG .nil)) "time"))) ∧
    (∀ pBad pGood vG,
      ttl_to_value_object caps resolve "time" (some pBad) =
        .ok Option.none →
      ttl_to_value_object caps resolve "time" (some pGood) =
        .ok (some vG) →
      ttl_build_claim_object caps resolve g pid
          [⟨pid, "time", some "normal", some pBad, [], [], false⟩,
           ⟨pid, "time", some "normal", some pGood, [], [], false⟩]
          false true =
        .ok (.mk (some (.mk pid (some (.lazy (resolve pid))) Option.none []
            .nil))
          (.cons (.mk Option.none .nil .nil (some "normal") "time")
            (.cons (.mk (some vG) .nil .nil (some "normal") "time") .nil))
          "time")) ∧
    (∀ dfs t tv,
      dictGet dfs "time" = some (PyV.str t) → t ≠ "" →
      pyTimeValue t dfs = .ok (some tv) →
      wikidata_time_to_text caps.timeCaps tv = .error .key →
      json_build_claim caps pid [.dict (timeStmtFields dfs)] true false true
        = .error ()) ∧
    (∀ t prec c, t ≠ "" →
      wikidata_time_to_text caps.timeCaps
        { time := t, precision := prec, calendarmodel := c } = .error .key →
      ttl_to_value_object caps resolve "time"
        (some (.ptime (some t) prec (some c))) = .ok Option.none) ∧
    (∀ dfs, json_to_value_object caps "globe-coordinate"
      (.dict [("type", .str "globe-coordinate"), ("value", .dict dfs)]) =
      .ok Option.none) ∧
    (∀ la lo gl pc, ttl_to_value_object caps resolve "globe-coordinate"
      (some (.pcoord (some la) (some lo) gl pc)) = .ok Option.none) := by
  refine ⟨?_, ?_, ?_, ?_, ?_, ?_⟩
  · intro dfs t tv sfG cvG hdt ht hfail hg
    exact json_build_claim_two caps pid (timeStmtFields dfs) sfG _ cvG rfl
      (json_bcv_of_tvo caps dfs _ (json_tvo_time_fail caps dfs t tv hdt ht
        hfail)) hg
  · intro pBad pGood vG hB hG
    exact ttl_claim_two caps resolve g pid pBad pGood vG hB hG
  · intro dfs t tv hdt ht hpt herr
    exact json_build_claim_err caps pid (timeStmtFields dfs)
      (json_bcv_of_tvo caps dfs _ (json_tvo_time_keyerr caps dfs t tv hdt ht
        hpt herr)) rfl
  · intro t prec c ht herr
    exact ttl_tvo_time_err_drop caps resolve t prec c .key ht herr
  · intro dfs
    simp [json_to_value_object, dictGetD, dictGet, isTypeTag]
  · intro la lo gl pc
    simp [ttl_to_value_object]

theorem value_failure_recovery_witness :
    json_build_claim plainNormCaps "P1"
        [.dict (timeStmtFields dfsJunk), .dict (timeStmtFields dfsGood)]
        true false true =
      .ok (some (.mk (some (.mk "P1" (some (.lazy "")) Option.none [] .nil))
        (.cons (.mk Option.none .nil .nil (some "normal") "time")
          (.cons (.mk (some (.time (some "+2001-06-15T00:00:00Z") (some 11)
              (some "Q1985727") (some "date:2001-6-15"))) .nil .nil
              (some "normal") "time") .nil)) "time")) ∧
    ttl_build_claim_object plainNormCaps (fun _ => "") [] "P1"
        [⟨"P1", "time", some "normal",
          some (.ptime (some "junk") (some 11)
            (some "http://www.wikidata.org/entity/Q1985727")), [], [],
          false⟩,
         ⟨"P1", "time", some "normal",
          some (.ptime (some "+2001-06-15T00:00:00Z") (some 11)
            (some "http://www.wikidata.org/entity/Q1985727")), [], [],
          false⟩] false true =
      .ok (.mk (some (.mk "P1" (some (.lazy "")) Option.none [] .nil))
        (.cons (.mk Option.none .nil .nil (some "normal") "time")
          (.cons (.mk (some (.time (some "+2001-06-15T00:00:00Z") (some 11)
              (some "Q1985727") (some "date:2001-6-15"))) .nil .nil
              (some "normal") "time") .nil)) "time") ∧
    json_build_claim plainNormCaps "P1" [.dict (timeStmtFields dfs15)]
        true false true = .error () ∧
    ttl_to_value_object plainNormCaps (fun _ => "") "time"
        (some (.ptime (some "+2000-01-01T00:00:00Z") (some 15)
          (some "http://www.wikidata.org/entity/Q1985727"))) =
      .ok Option.none ∧
    json_to_value_object plainNormCaps "globe-coordinate"
        (.dict [("type", .str "globe-coordinate"),
          ("value", .dict [("latitude", .int 51), ("longitude", .int 0)])])
      = .ok Option.none ∧
    ttl_to_value_object plainNormCaps (fun _ => "") "globe-coordinate"
        (some (.pcoord (some 51) (some 0) Option.none Option.none)) =
      .ok Option.none := by
  have T := value_failure_recovery plainNormCaps (fun _ => "") [] "P1"
  refine ⟨?_, ?_, ?_, ?_, T.2.2.2.2.1 _, T.2.2.2.2.2 51 0 Option.none
    Option.none⟩
  · exact T.1 dfsJunk "junk" ⟨"", Option.none, Option.none, Option.none,
      Option.none, ""⟩ (timeStmtFields dfsGood) _ rfl (by decide)
      (Or.inl rfl) rfl
  · exact T.2.1 (.ptime (some "junk") (some 11)
      (some "http://www.wikidata.org/entity/Q1985727"))
      (.ptime (some "+2001-06-15T00:00:00Z") (some 11)
        (some "http://www.wikidata.org/entity/Q1985727"))
      (.time (some "+2001-06-15T00:00:00Z") (some 11) (some "Q1985727")
        (some "date:2001-6-15")) rfl rfl
  · exact T.2.2.1 dfs15 "+2000-01-01T00:00:00Z"
      ⟨"+2000-01-01T00:00:00Z", Option.none, Option.none, Option.none,
        some 15, "http://www.wikidata.org/entity/Q1985727"⟩ rfl (by decide)
      rfl rfl
  · exact T.2.2.2.1 "+2000-01-01T00:00:00Z" (some 15)
      "http://www.wikidata.org/entity/Q1985727" (by decide) rfl

/-! ### C1: refinement equivalence of the two normalizers

The canonical-fact universe: one underlying entity with a label, a
description, aliases, and a list of properties, each holding item- or
string-valued statements with explicit ranks.  `encodeJson` writes the
facts in the wikibase JSON wire format, `encodeTtl` as the
Special:EntityData Turtle triples.  Statement nodes are distinguished
by a per-statement tag (`wds` local names are unique in real
exports). -/

inductive CVal where
  | item (q : String)
  | strv (s : String)
  deriving DecidableEq, Repr

structure CStmt where
  tag : ℕ
  rank : String
  value : CVal
  deriving DecidableEq, Repr

structure CFact where
  pid : String
  statements : List CStmt
  deriving DecidableEq, Repr

def rankOk (r : String) : Bool :=
  r == "preferred" || r == "normal" || r == "deprecated"

/-- Item references are well-formed `Q...` ids distinct from the
subject entity (the TTL normalizer would resolve a self-reference from
the in-file label cache instead of the store). -/
def cvalOk (id : String) : CVal → Bool
  | .item q => isEntityIdStr q && headIs 'Q' q && q ≠ id
  | .strv s => s ≠ ""

def cstmtOk (id : String) (st : CStmt) : Bool :=
  rankOk st.rank && cvalOk id st.value

def dtOfVal : CVal → String
  | .item _ => "wikibase-item"
  | .strv _ => "string"

/-- All statements of a property share the value kind (the claim-level
datatype is taken from the first statement before rank filtering by
the JSON normalizer but after it by the TTL normalizer; homogeneous
properties make both agree). -/
def factHomog (f : CFact) : Bool :=
  match f.statements with
  | [] => true
  | st0 :: _ => f.statements.all (fun st =>
      dtOfVal st.value == dtOfVal st0.value)

def cfactOk (id : String) (f : CFact) : Bool :=
  isPidStr f.pid && !f.statements.isEmpty
    && f.statements.all (cstmtOk id) && factHomog f

def nodupB : List ℕ → Bool
  | [] => true
  | x :: xs => !(xs.contains x) && nodupB xs

def nodupS : List String → Bool
  | [] => true
  | x :: xs => !(xs.contains x) && nodupS xs

def allTags (facts : List CFact) : List ℕ :=
  facts.flatMap (fun f => f.statements.map (·.tag))

def cfactsOk (id : String) (facts : List CFact) : Bool :=
  isEntityIdStr id && headIs 'Q' id && facts.all (cfactOk id)
    && nodupS (facts.map (·.pid)) && nodupB (allTags facts)

/-- The wikibase JSON datavalue of a canonical value. -/
def jsonDvOf : CVal → PyV
  | .item q => .dict [("type", .str "wikibase-entityid"),
      ("value", .dict [("id", .str q)])]
  | .strv s => .dict [("type", .str "string"), ("value", .str s)]

def jsonStmtOf (st : CStmt) : PyV :=
  .dict [("mainsnak", .dict [("snaktype", .str "value"),
      ("datatype", .str (dtOfVal st.value)),
      ("datavalue", jsonDvOf st.value)]),
    ("rank", .str st.rank)]

def encodeJson (lang label desc : String) (aliases : List String)
    (facts : List CFact) : PyV :=
  .dict [("labels", .dict [(lang, .dict [("language", .str lang),
      ("value", .str label)])]),
    ("descriptions", .dict [(lang, .dict [("language", .str lang),
      ("value", .str desc)])]),
    ("aliases", .dict [(lang, .list (aliases.map (fun a =>
      .dict [("language", .str lang), ("value", .str a)])))]),
    ("claims", .dict (facts.map (fun f =>
      (f.pid, .list (f.statements.map jsonStmtOf)))))]

def rankNm (r : String) : String :=
  if r = "preferred" then "PreferredRank"
  else if r = "normal" then "NormalRank"
  else "DeprecatedRank"

def ttlObjOf : CVal → TNode
  | .item q => .u (.wd q)
  | .strv s => .lit s Option.none Option.none

def stmtTriples (id pid : String) (st : CStmt) : TGraph :=
  [(.u (.wd id), .p pid, .u (.stmtNode 0 st.tag)),
   (.u (.stmtNode 0 st.tag), .ontology "rank", .u (.rankUri (rankNm st.rank))),
   (.u (.stmtNode 0 st.tag), .ps pid, ttlObjOf st.value)]

def factTriples (id : String) (f : CFact) : TGraph :=
  f.statements.flatMap (stmtTriples id f.pid)

def encodeTtl (lang id label desc : String) (aliases : List String)
    (facts : List CFact) : TGraph :=
  (.u (.wd id), .rdfsLabel, .lit label (some lang) Option.none)
  :: (.u (.wd id), .schemaDescription, .lit desc (some lang) Option.none)
  :: (aliases.map (fun a =>
      ((.u (.wd id) : TNode), TUri.skosAltLabel,
        (.lit a (some lang) Option.none : TNode))))
  ++ facts.flatMap (factTriples id)

/-- The common rank filter (the statement-level rule of both
normalizers; ranks in this universe are always one of the three
strings, so the `None`-rank clause never fires). -/
def keepC (sts : List CStmt) : List CStmt :=
  let hp := sts.any (fun st => st.rank == "preferred")
  sts.filter (fun st =>
    (hp && st.rank == "preferred") || (!hp && st.rank == "normal"))

def valOfC (caps : NormCaps) : CVal → WValue
  | .item q => .entity (.mk q (some (.lazy (caps.resolve q))) Option.none []
      .nil)
  | .strv s => .text (some s)

def cvOfC (caps : NormCaps) (dt : String) (st : CStmt) : WClaimValue :=
  .mk (some (valOfC caps st.value)) .nil .nil (some st.rank) dt

def toWCVL : List WClaimValue → WCValueList
  | [] => .nil
  | v :: vs => .cons v (toWCVL vs)

def dtOfFact (f : CFact) : String :=
  match f.statements with
  | st :: _ => dtOfVal st.value
  | [] => "string"

def claimOfC (caps : NormCaps) (f : CFact) : WClaim :=
  .mk (some (.mk f.pid (some (.lazy (caps.resolve f.pid))) Option.none []
      .nil))
    (toWCVL ((keepC f.statements).map (cvOfC caps (dtOfFact f))))
    (dtOfFact f)

def claimsOfC (caps : NormCaps) : List CFact → WClaimList
  | [] => .nil
  | f :: fs =>
    if (keepC f.statements).isEmpty then claimsOfC caps fs
    else .cons (claimOfC caps f) (claimsOfC caps fs)

/-- What both normalizers produce on the canonical encodings. -/
def builtEntity (caps : NormCaps) (id label desc : String)
    (aliases : List String) (facts : List CFact) : WEntity :=
  .mk id (some (.plain label)) (some desc) (dedupFirst aliases)
    (claimsOfC caps facts)

/-- **C7 (counterexample to the original claim).**  A statement whose
time payload has precision 15 fails formatting with `KeyError`; the
JSON normalizer does not catch `KeyError`, so the failure aborts the
whole entity (`error`), contradicting "the failure is never propagated
to abort the enclosing Claim or Entity" — while the TTL normalizer
recovers by dropping just that value. -/
theorem json_keyerror_aborts_entity_cex :
    json_normalize plainNormCaps "en" "Q7"
        (.dict [("claims", .dict [("P1",
          .list [.dict (timeStmtFields dfs15)])])]) true false false [] =
      .error () ∧
    ttl_to_value_object plainNormCaps (fun _ => "") "time"
        (some (.ptime (some "+2000-01-01T00:00:00Z") (some 15)
          (some "http://www.wikidata.org/entity/Q1985727"))) =
      .ok Option.none :=
  ⟨rfl, rfl⟩


lemma getLangVal_single (lang x fb : String) :
    getLangVal [(lang, .vdict lang x)] lang fb = x := by
  simp [getLangVal, List.lookup, langValTruthy]

lemma pyLangData_single (lang x : String) :
    pyLangData (.dict [(lang, .dict [("language", .str lang),
      ("value", .str x)])]) = [(lang, .vdict lang x)] := by
  simp [pyLangData, dictGet]

lemma aliasChoice (lang a : String) :
    (if pyTruthyV (PyV.dict [("language", .str lang), ("value", .str a)])
      then aliasString (PyV.dict [("language", .str lang),
        ("value", .str a)]) else Option.none) = some a := rfl

lemma extractAliases_enc (lang : String) (aliases : List String)
    (hl : lang ≠ "mul") :
    extractAliases (.dict [(lang, .list (aliases.map (fun a =>
      .dict [("language", .str lang), ("value", .str a)])))]) lang =
    dedupFirst aliases := by
  simp only [extractAliases, dictGet, if_pos, if_neg hl]
  have h2 : (aliases.map (fun a => PyV.dict [("language", .str lang),
      ("value", .str a)])).filterMap (fun a =>
        if pyTruthyV a then aliasString a else Option.none) = aliases := by
    induction aliases with
    | nil => rfl
    | cons a rest ih =>
      simp only [List.map_cons, List.filterMap_cons, aliasChoice, ih]
  simp [h2]


lemma isPidStr_headP (p : String) (h : isPidStr p = true) :
    headIs 'P' p = true := by
  unfold isPidStr at h
  unfold headIs
  split at h
  · next heq => rw [heq]; simp
  · exact absurd h (by simp)

lemma json_cdt_enc (st0 : CStmt) (rest : List PyV) :
    json_claim_datatype_from_statements (jsonStmtOf st0 :: rest) =
    some (dtOfVal st0.value) := by
  obtain ⟨t, r, v⟩ := st0
  cases v <;>
    simp [json_claim_datatype_from_statements, jsonStmtOf, dtOfVal,
      dictGetD, dictGet]

lemma json_claim_values_enc (caps : NormCaps) (dt : String)
    (hdt : dt = "wikibase-item" ∨ dt = "string") :
    ∀ sts : List CStmt,
    (∀ st ∈ sts, ∀ q, st.value = .item q → headIs 'Q' q = true) →
    json_claim_values caps dt false (sts.map jsonStmtOf) =
      .ok (toWCVL (sts.map (cvOfC caps dt)))
  | [], _ => rfl
  | st :: rest, h => by
    have hq0 := h st (List.mem_cons_self _ _)
    have ih := json_claim_values_enc caps dt hdt rest
      (fun s hs => h s (List.mem_cons_of_mem _ hs))
    cases hval : st.value with
    | item q =>
      have hQ := hq0 q hval
      simp [json_claim_values, json_build_claim_value, json_to_value_object,
        jsonStmtOf, jsonDvOf, dictGetD, dictGet, isTypeTag, pyRankOf,
        json_parse_qualifiers, pyTruthyV, cvOfC, valOfC, toWCVL, hval, hQ,
        bind, Except.bind, ih]
    | strv sv =>
      rcases hdt with h1 | h1 <;> subst h1 <;>
        simp [json_claim_values, json_build_claim_value,
          json_to_value_object, jsonStmtOf, jsonDvOf, dictGetD, dictGet,
          isTypeTag, pyRankOf, json_parse_qualifiers, pyTruthyV, pyStrOfV,
          cvOfC, valOfC, toWCVL, hval, bind, Except.bind, ih]

lemma json_filter_enc_aux (b : Bool) : ∀ l : List CStmt,
    List.filter (fun s =>
      match s with
      | PyV.dict sf =>
        match dictGet sf "rank" with
        | Option.none => true
        | some PyV.none => true
        | some (PyV.str r) => b && r == "preferred" || !b && r == "normal"
        | some _ => false
      | _ => false) (l.map jsonStmtOf) =
    (l.filter (fun st =>
      b && st.rank == "preferred" || !b && st.rank == "normal")).map
      jsonStmtOf
  | [] => rfl
  | st :: r => by
    simp only [List.map_cons, List.filter_cons]
    by_cases hc : (b && st.rank == "preferred"
        || !b && st.rank == "normal") = true
    · simp [jsonStmtOf, dictGet, hc, json_filter_enc_aux b r]
    · simp [jsonStmtOf, dictGet, hc, json_filter_enc_aux b r]

lemma json_filter_enc (sts : List CStmt) :
    json_filter_by_rank false (sts.map jsonStmtOf) =
    (keepC sts).map jsonStmtOf := by
  unfold json_filter_by_rank keepC
  rw [if_neg (by decide)]
  have hany : (sts.map jsonStmtOf).any (fun s =>
      match s with
      | .dict sf => isTypeTag (dictGet sf "rank") "preferred"
      | _ => false) = sts.any (fun st => st.rank == "preferred") := by
    induction sts with
    | nil => rfl
    | cons st r ih =>
      simp only [List.map_cons, List.any_cons, ih]
      simp [jsonStmtOf, dictGet, isTypeTag, beq_eq_decide]
      congr 1
      exact decide_eq_decide.mpr Iff.rfl
  rw [hany]
  exact json_filter_enc_aux _ sts

lemma oldEntityStr_bare (q r : String) :
    oldEntityStr (.mk q (some (.lazy r)) Option.none [] .nil) = r := by
  simp [oldEntityStr, pyTruthyOptLbl, pyStrOptLbl, Lbl.pyTruthy, Lbl.str,
    pyTruthyOptStr, oldClaimStrsFiltered]

lemma oldCVBool_cvOfC (caps : NormCaps) (dt : String) (st : CStmt)
    (hv : ∀ q, st.value = .item q → caps.resolve q ≠ "")
    (hs : ∀ s, st.value = .strv s → s ≠ "") :
    oldCVBool (cvOfC caps dt st) = true := by
  cases hval : st.value with
  | item q =>
    simp [cvOfC, valOfC, oldCVBool, oldValueStr, hval, oldEntityStr_bare,
      hv q hval]
  | strv s =>
    simp [cvOfC, valOfC, oldCVBool, oldValueStr, hval, hs s hval]

lemma oldClaimBool_claimOfC (caps : NormCaps) (f : CFact)
    (hp : caps.resolve f.pid ≠ "")
    (hk : keepC f.statements ≠ [])
    (hv : ∀ st ∈ f.statements, ∀ q, st.value = .item q →
      caps.resolve q ≠ "")
    (hs : ∀ st ∈ f.statements, ∀ s, st.value = .strv s → s ≠ "") :
    oldClaimBool (claimOfC caps f) = true := by
  obtain ⟨st0, rest, hsts⟩ := List.exists_cons_of_ne_nil hk
  have hm0 : st0 ∈ f.statements :=
    List.mem_of_mem_filter (hsts ▸ List.mem_cons_self st0 rest)
  simp only [claimOfC, oldClaimBool, hsts, List.map_cons, toWCVL]
  simp [pyStrOptLbl, Lbl.str, WEntity.label, hp, WCValueList.length,
    oldCVAnyTruthy, oldCVBool_cvOfC caps _ st0 (hv st0 hm0) (hs st0 hm0)]

lemma json_build_claim_enc (caps : NormCaps) (f : CFact)
    (hne : f.statements ≠ [])
    (hq : ∀ st ∈ f.statements, ∀ q, st.value = .item q →
      headIs 'Q' q = true) :
    json_build_claim caps f.pid (f.statements.map jsonStmtOf) true false
      false = .ok (some (claimOfC caps f)) := by
  obtain ⟨st0, rest, hsts⟩ := List.exists_cons_of_ne_nil hne
  have hdt : dtOfVal st0.value = "wikibase-item"
      ∨ dtOfVal st0.value = "string" := by
    cases st0.value
    · exact Or.inl rfl
    · exact Or.inr rfl
  have hdtf : dtOfFact f = dtOfVal st0.value := by
    simp [dtOfFact, hsts]
  have hkq : ∀ st ∈ keepC f.statements, ∀ q, st.value = .item q →
      headIs 'Q' q = true := fun st hst =>
    hq st (List.mem_of_mem_filter hst)
  unfold json_build_claim
  rw [hsts, List.map_cons, json_cdt_enc, ← List.map_cons, ← hsts]
  simp only [Option.getD_some]
  rw [if_neg (by simp), json_filter_enc,
    json_claim_values_enc caps _ hdt (keepC f.statements) hkq]
  simp [claimOfC, hdtf, bind, Except.bind]

lemma json_claims_enc (caps : NormCaps) : ∀ facts : List CFact,
    (∀ f ∈ facts, isPidStr f.pid = true) →
    (∀ f ∈ facts, f.statements ≠ []) →
    (∀ f ∈ facts, caps.resolve f.pid ≠ "") →
    (∀ f ∈ facts, ∀ st ∈ f.statements, ∀ q, st.value = .item q →
      headIs 'Q' q = true ∧ caps.resolve q ≠ "") →
    (∀ f ∈ facts, ∀ st ∈ f.statements, ∀ s, st.value = .strv s → s ≠ "") →
    json_claims caps true false false [] (facts.map (fun f =>
      (f.pid, .list (f.statements.map jsonStmtOf)))) =
      .ok (claimsOfC caps facts)
  | [], _, _, _, _, _ => rfl
  | f :: fs, hpid, hne, hres, hit, hstr => by
    have ih := json_claims_enc caps fs
      (fun g hg => hpid g (List.mem_cons_of_mem _ hg))
      (fun g hg => hne g (List.mem_cons_of_mem _ hg))
      (fun g hg => hres g (List.mem_cons_of_mem _ hg))
      (fun g hg => hit g (List.mem_cons_of_mem _ hg))
      (fun g hg => hstr g (List.mem_cons_of_mem _ hg))
    have hf0 := List.mem_cons_self f fs
    have hbc := json_build_claim_enc caps f (hne f hf0)
      (fun st hst q hq => (hit f hf0 st hst q hq).1)
    have hP := isPidStr_headP f.pid (hpid f hf0)
    by_cases hk : keepC f.statements = []
    · have hnil : toWCVL ((keepC f.statements).map
          (cvOfC caps (dtOfFact f))) = .nil := by
        rw [hk]; rfl
      simp [json_claims, hP, hbc, ih, bind, Except.bind, claimsOfC, hk,
        claimOfC, hnil, toWCVL, WClaim.values, WCValueList.isNil]
    · have hcb := oldClaimBool_claimOfC caps f (hres f hf0) hk
        (fun st hst q hq => (hit f hf0 st hst q hq).2) (hstr f hf0)
      obtain ⟨st0, rest, hsts⟩ := List.exists_cons_of_ne_nil hk
      have hcons : toWCVL ((keepC f.statements).map
          (cvOfC caps (dtOfFact f))) = .cons (cvOfC caps (dtOfFact f) st0)
          (toWCVL (rest.map (cvOfC caps (dtOfFact f)))) := by
        rw [hsts]; rfl
      simp only [claimOfC, hcons] at hcb
      simp [json_claims, hP, hbc, ih, bind, Except.bind, claimsOfC, hk,
        hcb, claimOfC, hcons, WClaim.values, WCValueList.isNil]

lemma orEmptyDict_dict (l : List (String × PyV)) :
    (if pyTruthyV (.dict l) then PyV.dict l else .dict []) = .dict l := by
  cases l <;> simp [pyTruthyV]

lemma json_normalize_enc (caps : NormCaps) (fb id label desc : String)
    (aliases : List String) (facts : List CFact)
    (hmul : caps.lang ≠ "mul")
    (hpid : ∀ f ∈ facts, isPidStr f.pid = true)
    (hne : ∀ f ∈ facts, f.statements ≠ [])
    (hres : ∀ f ∈ facts, caps.resolve f.pid ≠ "")
    (hit : ∀ f ∈ facts, ∀ st ∈ f.statements, ∀ q, st.value = .item q →
      headIs 'Q' q = true ∧ caps.resolve q ≠ "")
    (hstr : ∀ f ∈ facts, ∀ st ∈ f.statements, ∀ s, st.value = .strv s →
      s ≠ "") :
    json_normalize caps fb id (encodeJson caps.lang label desc aliases
      facts) true false false [] =
      .ok (builtEntity caps id label desc aliases facts) := by
  unfold json_normalize encodeJson
  simp [dictGetD, dictGet, pyTruthyV, orEmptyDict_dict, pyLangData_single,
    getLangVal_single, extractAliases_enc caps.lang aliases hmul,
    json_claims_enc caps facts hpid hne hres hit hstr, builtEntity, bind,
    Except.bind]
  have hcl : (match (if facts = [] then PyV.dict []
      else PyV.dict (facts.map (fun f =>
        (f.pid, PyV.list (f.statements.map jsonStmtOf))))) with
    | PyV.dict cf => cf
    | _ => []) = facts.map (fun f =>
        (f.pid, PyV.list (f.statements.map jsonStmtOf))) := by
    by_cases hfe : facts = []
    · subst hfe; rfl
    · rw [if_neg hfe]
  rw [hcl, json_claims_enc caps facts hpid hne hres hit hstr]


/-- The parsed main value a canonical statement yields in the TTL
pipeline. -/
def pstrOfC : CVal → TParsed
  | .item q => .pstr q
  | .strv s => .pstr s

/-- The statement dict `_claims_for_subject` extracts for a canonical
statement. -/
def tstmtOf (f : CFact) (st : CStmt) : TStmt :=
  ⟨f.pid, dtOfVal st.value, some st.rank, some (pstrOfC st.value), [], [],
    false⟩

lemma gvalue_append (g1 g2 : List (TNode × TUri × TNode)) (s : TNode)
    (p : TUri) :
    gvalue (g1 ++ g2) s p =
    (match gvalue g1 s p with
      | some o => some o
      | Option.none => gvalue g2 s p) := by
  induction g1 with
  | nil => rfl
  | cons t g1 ih =>
    obtain ⟨ts, tp, tn⟩ := t
    by_cases hc : ts = s ∧ tp = p
    · show gvalue ((ts, tp, tn) :: (g1 ++ g2)) s p = _
      rw [show gvalue ((ts, tp, tn) :: (g1 ++ g2)) s p =
        (if ts = s ∧ tp = p then some tn else gvalue (g1 ++ g2) s p) from
        rfl, if_pos hc]
      rw [show gvalue ((ts, tp, tn) :: g1) s p =
        (if ts = s ∧ tp = p then some tn else gvalue g1 s p) from rfl,
        if_pos hc]
    · show gvalue ((ts, tp, tn) :: (g1 ++ g2)) s p = _
      rw [show gvalue ((ts, tp, tn) :: (g1 ++ g2)) s p =
        (if ts = s ∧ tp = p then some tn else gvalue (g1 ++ g2) s p) from
        rfl, if_neg hc]
      rw [show gvalue ((ts, tp, tn) :: g1) s p =
        (if ts = s ∧ tp = p then some tn else gvalue g1 s p) from rfl,
        if_neg hc, ih]

lemma objsOf_append (g1 g2 : List (TNode × TUri × TNode)) (s : TNode)
    (p : TUri) :
    objsOf (g1 ++ g2) s p = objsOf g1 s p ++ objsOf g2 s p :=
  List.filterMap_append _ _ _

lemma predObjs_append (g1 g2 : List (TNode × TUri × TNode)) (s : TNode) :
    predObjs (g1 ++ g2) s = predObjs g1 s ++ predObjs g2 s :=
  List.filterMap_append _ _ _

lemma gvalue_none_of_no_subj (g : List (TNode × TUri × TNode)) (s : TNode)
    (p : TUri) (h : ∀ t ∈ g, t.1 ≠ s) : gvalue g s p = Option.none := by
  induction g with
  | nil => rfl
  | cons t g ih =>
    obtain ⟨ts, tp, tn⟩ := t
    have hne := h (ts, tp, tn) (List.mem_cons_self _ _)
    rw [show gvalue ((ts, tp, tn) :: g) s p =
      (if ts = s ∧ tp = p then some tn else gvalue g s p) from rfl]
    rw [if_neg (fun hc => hne hc.1), ih (fun t ht =>
      h t (List.mem_cons_of_mem _ ht))]

lemma objsOf_cons (t : TNode × TUri × TNode)
    (g : List (TNode × TUri × TNode)) (s : TNode) (p : TUri) :
    objsOf (t :: g) s p =
    (if t.1 = s ∧ t.2.1 = p then t.2.2 :: objsOf g s p else objsOf g s p)
    := by
  show List.filterMap _ (t :: g) = _
  rw [List.filterMap_cons]
  by_cases hc : t.1 = s ∧ t.2.1 = p
  · simp only [if_pos hc]; rfl
  · simp only [if_neg hc]; rfl

lemma objsOf_nil_of_no_subj (g : List (TNode × TUri × TNode)) (s : TNode)
    (p : TUri) (h : ∀ t ∈ g, t.1 ≠ s) : objsOf g s p = [] := by
  induction g with
  | nil => rfl
  | cons t g ih =>
    rw [objsOf_cons, if_neg (fun hc =>
      h t (List.mem_cons_self _ _) hc.1), ih (fun t ht =>
      h t (List.mem_cons_of_mem _ ht))]

lemma predObjs_cons (t : TNode × TUri × TNode)
    (g : List (TNode × TUri × TNode)) (s : TNode) :
    predObjs (t :: g) s =
    (if t.1 = s then (t.2.1, t.2.2) :: predObjs g s else predObjs g s) := by
  show List.filterMap _ (t :: g) = _
  rw [List.filterMap_cons]
  by_cases hc : t.1 = s
  · simp only [if_pos hc]; rfl
  · simp only [if_neg hc]; rfl

lemma predObjs_nil_of_no_subj (g : List (TNode × TUri × TNode)) (s : TNode)
    (h : ∀ t ∈ g, t.1 ≠ s) : predObjs g s = [] := by
  induction g with
  | nil => rfl
  | cons t g ih =>
    rw [predObjs_cons, if_neg (h t (List.mem_cons_self _ _)),
      ih (fun t ht => h t (List.mem_cons_of_mem _ ht))]

/-- Every subject of the canonical claim triples is the entity or a
statement node. -/
lemma claimsG_subj (id : String) : ∀ (facts : List CFact),
    ∀ t ∈ facts.flatMap (factTriples id),
    t.1 = .u (.wd id) ∨ ∃ tg, t.1 = .u (.stmtNode 0 tg)
  | [], t, ht => absurd ht (by simp)
  | f :: fs, t, ht => by
    rw [List.flatMap_cons, List.mem_append] at ht
    rcases ht with ht | ht
    · rw [factTriples, List.mem_flatMap] at ht
      obtain ⟨st, _, hst⟩ := ht
      simp only [stmtTriples, List.mem_cons, List.not_mem_nil, or_false]
        at hst
      rcases hst with h | h | h
      · exact Or.inl (by rw [h])
      · exact Or.inr ⟨st.tag, by rw [h]⟩
      · exact Or.inr ⟨st.tag, by rw [h]⟩
    · exact claimsG_subj id fs t ht

lemma gvalue_chunk_skip (id pid : String) (st : CStmt) (tg : ℕ)
    (hne : st.tag ≠ tg) (p : TUri) :
    gvalue (stmtTriples id pid st) (.u (.stmtNode 0 tg)) p = Option.none
    := by
  simp [stmtTriples, gvalue, hne]

lemma gvalue_stmts_skip (id pid : String) : ∀ (sts : List CStmt) (tg : ℕ),
    tg ∉ sts.map (·.tag) → ∀ p,
    gvalue (sts.flatMap (stmtTriples id pid)) (.u (.stmtNode 0 tg)) p =
    Option.none
  | [], _, _, _ => rfl
  | st :: rest, tg, h, p => by
    rw [List.flatMap_cons, gvalue_append,
      gvalue_chunk_skip id pid st tg (fun he =>
        h (he ▸ List.mem_cons_self _ _)),
      gvalue_stmts_skip id pid rest tg (fun hm =>
        h (List.mem_cons_of_mem _ hm)) p]

lemma gvalue_facts_skip (id : String) : ∀ (facts : List CFact) (tg : ℕ),
    tg ∉ allTags facts → ∀ p,
    gvalue (facts.flatMap (factTriples id)) (.u (.stmtNode 0 tg)) p =
    Option.none
  | [], _, _, _ => rfl
  | f :: fs, tg, h, p => by
    have h1 : tg ∉ f.statements.map (·.tag) := fun hm =>
      h (by rw [allTags, List.flatMap_cons, List.mem_append]
            exact Or.inl hm)
    have h2 : tg ∉ allTags fs := fun hm =>
      h (by rw [allTags, List.flatMap_cons, List.mem_append]
            exact Or.inr hm)
    rw [List.flatMap_cons, gvalue_append, factTriples,
      gvalue_stmts_skip id f.pid f.statements tg h1,
      gvalue_facts_skip id fs tg h2 p]

lemma contains_iff_memN (l : List ℕ) (x : ℕ) :
    l.contains x = true ↔ x ∈ l := by
  induction l with
  | nil => simp
  | cons y ys ih =>
    simp only [List.contains_cons, List.mem_cons, Bool.or_eq_true, ih,
      beq_iff_eq]

lemma nodupB_append (xs ys : List ℕ) (h : nodupB (xs ++ ys) = true) :
    nodupB xs = true ∧ nodupB ys = true ∧ ∀ x ∈ xs, x ∉ ys := by
  induction xs with
  | nil => exact ⟨rfl, h, by simp⟩
  | cons x xs ih =>
    rw [List.cons_append] at h
    rw [show nodupB (x :: (xs ++ ys)) =
      (!((xs ++ ys).contains x) && nodupB (xs ++ ys)) from rfl] at h
    rw [Bool.and_eq_true, Bool.not_eq_true'] at h
    obtain ⟨hx, hrest⟩ := h
    obtain ⟨h1, h2, h3⟩ := ih hrest
    have hxmem : x ∉ xs ++ ys := fun hm =>
      by rw [(contains_iff_memN _ _).mpr hm] at hx; exact Bool.noConfusion hx
    refine ⟨?_, h2, ?_⟩
    · rw [show nodupB (x :: xs) = (!(xs.contains x) && nodupB xs) from rfl,
        Bool.and_eq_true, Bool.not_eq_true']
      refine ⟨?_, h1⟩
      by_cases hc : xs.contains x = true
      · exact absurd (List.mem_append_left ys ((contains_iff_memN _ _).mp
          hc)) hxmem
      · simpa using hc
    · intro z hz
      rcases List.mem_cons.mp hz with rfl | hz'
      · exact fun hm => hxmem (List.mem_append_right xs hm)
      · exact h3 z hz'

lemma gvalue_stmts_to_chunk (id pid : String) : ∀ (sts : List CStmt)
    (st : CStmt), nodupB (sts.map (·.tag)) = true → st ∈ sts → ∀ p,
    gvalue (sts.flatMap (stmtTriples id pid)) (.u (.stmtNode 0 st.tag)) p =
    gvalue (stmtTriples id pid st) (.u (.stmtNode 0 st.tag)) p
  | [], st, _, hmem, _ => absurd hmem (by simp)
  | st0 :: rest, st, hnd, hmem, p => by
    have hnd' := nodupB_append [st0.tag] (rest.map (·.tag))
      (by simpa using hnd)
    rcases List.mem_cons.mp hmem with rfl | hmem'
    · rw [List.flatMap_cons, gvalue_append]
      cases hc : gvalue (stmtTriples id pid st) (.u (.stmtNode 0 st.tag)) p
        with
      | none =>
        rw [gvalue_stmts_skip id pid rest st.tag (fun hm =>
          hnd'.2.2 st.tag (by simp) hm) p]
      | some v => rfl
    · have hne : st0.tag ≠ st.tag := fun he =>
        hnd'.2.2 st0.tag (by simp) (he ▸ List.mem_map_of_mem _ hmem')
      rw [List.flatMap_cons, gvalue_append,
        gvalue_chunk_skip id pid st0 st.tag hne,
        gvalue_stmts_to_chunk id pid rest st hnd'.2.1 hmem' p]

lemma gvalue_claims_to_chunk (id : String) : ∀ (facts : List CFact)
    (f : CFact) (st : CStmt), nodupB (allTags facts) = true → f ∈ facts →
    st ∈ f.statements → ∀ p,
    gvalue (facts.flatMap (factTriples id)) (.u (.stmtNode 0 st.tag)) p =
    gvalue (stmtTriples id f.pid st) (.u (.stmtNode 0 st.tag)) p
  | [], f, st, _, hmem, _, _ => absurd hmem (by simp)
  | f0 :: fs, f, st, hnd, hmem, hst, p => by
    have hnd' := nodupB_append (f0.statements.map (·.tag)) (allTags fs)
      (by rw [allTags, List.flatMap_cons] at hnd; exact hnd)
    rcases List.mem_cons.mp hmem with rfl | hmem'
    · rw [List.flatMap_cons, gvalue_append, factTriples,
        gvalue_stmts_to_chunk id f.pid f.statements st hnd'.1 hst p]
      cases hc : gvalue (stmtTriples id f.pid st) (.u (.stmtNode 0 st.tag))
          p with
      | none =>
        rw [gvalue_facts_skip id fs st.tag (fun hm =>
          hnd'.2.2 st.tag (List.mem_map_of_mem _ hst) hm) p]
      | some v => rfl
    · have htg : st.tag ∈ allTags fs := by
        rw [allTags, List.mem_flatMap]
        exact ⟨f, hmem', List.mem_map_of_mem _ hst⟩
      have hskip : st.tag ∉ f0.statements.map (·.tag) := fun hm =>
        hnd'.2.2 st.tag hm htg
      rw [List.flatMap_cons, gvalue_append, factTriples,
        gvalue_stmts_skip id f0.pid f0.statements st.tag hskip p,
        gvalue_claims_to_chunk id fs f st hnd'.2.1 hmem' hst p]

lemma gvalue_chunk_rank (id pid : String) (st : CStmt) :
    gvalue (stmtTriples id pid st) (.u (.stmtNode 0 st.tag))
      (.ontology "rank") = some (.u (.rankUri (rankNm st.rank))) := by
  simp [stmtTriples, gvalue]

lemma gvalue_chunk_ps (id pid : String) (st : CStmt) :
    gvalue (stmtTriples id pid st) (.u (.stmtNode 0 st.tag)) (.ps pid) =
    some (ttlObjOf st.value) := by
  simp [stmtTriples, gvalue]

lemma gvalue_chunk_psv (id pid : String) (st : CStmt) (x : String) :
    gvalue (stmtTriples id pid st) (.u (.stmtNode 0 st.tag)) (.psv x) =
    Option.none := by
  simp [stmtTriples, gvalue]

lemma predObjs_chunk (id pid : String) (st : CStmt) :
    predObjs (stmtTriples id pid st) (.u (.stmtNode 0 st.tag)) =
    [(.ontology "rank", .u (.rankUri (rankNm st.rank))),
     (.ps pid, ttlObjOf st.value)] := by
  rw [stmtTriples, predObjs_cons, predObjs_cons, predObjs_cons]
  rw [if_neg (by simp), if_pos (by simp), if_pos (by simp)]
  rfl

lemma predObjs_chunk_skip (id pid : String) (st : CStmt) (tg : ℕ)
    (hne : st.tag ≠ tg) :
    predObjs (stmtTriples id pid st) (.u (.stmtNode 0 tg)) = [] := by
  rw [stmtTriples, predObjs_cons, predObjs_cons, predObjs_cons]
  rw [if_neg (by simp), if_neg (by simp [hne]), if_neg (by simp [hne])]
  rfl

lemma predObjs_stmts_to_chunk (id pid : String) : ∀ (sts : List CStmt)
    (st : CStmt), nodupB (sts.map (·.tag)) = true → st ∈ sts →
    predObjs (sts.flatMap (stmtTriples id pid)) (.u (.stmtNode 0 st.tag)) =
    predObjs (stmtTriples id pid st) (.u (.stmtNode 0 st.tag))
  | [], st, _, hmem => absurd hmem (by simp)
  | st0 :: rest, st, hnd, hmem => by
    have hnd' := nodupB_append [st0.tag] (rest.map (·.tag))
      (by simpa using hnd)
    rcases List.mem_cons.mp hmem with rfl | hmem'
    · rw [List.flatMap_cons, predObjs_append]
      have hrest : predObjs (rest.flatMap (stmtTriples id pid))
          (.u (.stmtNode 0 st.tag)) = [] := by
        refine predObjs_nil_of_no_subj _ _ (fun t ht => ?_)
        rw [List.mem_flatMap] at ht
        obtain ⟨st1, hst1, ht1⟩ := ht
        have hne : st1.tag ≠ st.tag := fun he =>
          hnd'.2.2 st.tag (by simp) (he ▸ List.mem_map_of_mem _ hst1)
        simp only [stmtTriples, List.mem_cons, List.not_mem_nil, or_false]
          at ht1
        rcases ht1 with h | h | h <;> rw [h] <;> simp [hne]
      rw [hrest, List.append_nil]
    · have hne : st0.tag ≠ st.tag := fun he =>
        hnd'.2.2 st0.tag (by simp) (he ▸ List.mem_map_of_mem _ hmem')
      rw [List.flatMap_cons, predObjs_append,
        predObjs_chunk_skip id pid st0 st.tag hne, List.nil_append,
        predObjs_stmts_to_chunk id pid rest st hnd'.2.1 hmem']

lemma predObjs_claims_to_chunk (id : String) : ∀ (facts : List CFact)
    (f : CFact) (st : CStmt), nodupB (allTags facts) = true → f ∈ facts →
    st ∈ f.statements →
    predObjs (facts.flatMap (factTriples id)) (.u (.stmtNode 0 st.tag)) =
    predObjs (stmtTriples id f.pid st) (.u (.stmtNode 0 st.tag))
  | [], f, st, _, hmem, _ => absurd hmem (by simp)
  | f0 :: fs, f, st, hnd, hmem, hst => by
    have hnd' := nodupB_append (f0.statements.map (·.tag)) (allTags fs)
      (by rw [allTags, List.flatMap_cons] at hnd; exact hnd)
    rcases List.mem_cons.mp hmem with rfl | hmem'
    · rw [List.flatMap_cons, predObjs_append, factTriples,
        predObjs_stmts_to_chunk id f.pid f.statements st hnd'.1 hst]
      have hrest : predObjs (fs.flatMap (factTriples id))
          (.u (.stmtNode 0 st.tag)) = [] := by
        refine predObjs_nil_of_no_subj _ _ (fun t ht => ?_)
        have htg : st.tag ∉ allTags fs := fun hm =>
          hnd'.2.2 st.tag (List.mem_map_of_mem _ hst) hm
        rw [List.mem_flatMap] at ht
        obtain ⟨f1, hf1, ht1⟩ := ht
        rw [factTriples, List.mem_flatMap] at ht1
        obtain ⟨st1, hst1, ht2⟩ := ht1
        have hne : st1.tag ≠ st.tag := fun he => htg (by
          rw [allTags, List.mem_flatMap]
          exact ⟨f1, hf1, he ▸ List.mem_map_of_mem _ hst1⟩)
        simp only [stmtTriples, List.mem_cons, List.not_mem_nil, or_false]
          at ht2
        rcases ht2 with h | h | h <;> rw [h] <;> simp [hne]
      rw [hrest, List.append_nil]
    · have htg : st.tag ∈ allTags fs := by
        rw [allTags, List.mem_flatMap]
        exact ⟨f, hmem', List.mem_map_of_mem _ hst⟩
      have hskip : predObjs (factTriples id f0) (.u (.stmtNode 0 st.tag)) =
          [] := by
        refine predObjs_nil_of_no_subj _ _ (fun t ht => ?_)
        rw [factTriples, List.mem_flatMap] at ht
        obtain ⟨st1, hst1, ht1⟩ := ht
        have hne : st1.tag ≠ st.tag := fun he =>
          hnd'.2.2 st.tag (he ▸ List.mem_map_of_mem _ hst1) htg
        simp only [stmtTriples, List.mem_cons, List.not_mem_nil, or_false]
          at ht1
        rcases ht1 with h | h | h <;> rw [h] <;> simp [hne]
      rw [List.flatMap_cons, predObjs_append, hskip, List.nil_append,
        predObjs_claims_to_chunk id fs f st hnd'.2.1 hmem' hst]

end WDT

namespace WDT

lemma objsOf_nil_of (g : List (TNode × TUri × TNode)) (s : TNode) (p : TUri)
    (h : ∀ t ∈ g, ¬(t.1 = s ∧ t.2.1 = p)) : objsOf g s p = [] := by
  induction g with
  | nil => rfl
  | cons t g ih =>
    rw [objsOf_cons, if_neg (h t (List.mem_cons_self _ _)),
      ih (fun t ht => h t (List.mem_cons_of_mem _ ht))]

/-- An entity-subject triple of the canonical claim graph always has a
`p:` predicate. -/
lemma claimsG_entity_pred (id : String) : ∀ (facts : List CFact),
    ∀ t ∈ facts.flatMap (factTriples id), t.1 = .u (.wd id) →
    ∃ x, t.2.1 = TUri.p x
  | [], t, ht, _ => absurd ht (by simp)
  | f :: fs, t, ht, hsub => by
    rw [List.flatMap_cons, List.mem_append] at ht
    rcases ht with ht | ht
    · rw [factTriples, List.mem_flatMap] at ht
      obtain ⟨st, _, hst⟩ := ht
      simp only [stmtTriples, List.mem_cons, List.not_mem_nil, or_false]
        at hst
      rcases hst with h | h | h
      · exact ⟨f.pid, by rw [h]⟩
      · rw [h] at hsub; exact absurd hsub (by simp)
      · rw [h] at hsub; exact absurd hsub (by simp)
    · exact claimsG_entity_pred id fs t ht hsub

lemma objsOf_claimsG_entity (id : String) (facts : List CFact) (p : TUri)
    (hp : ∀ x, p ≠ .p x) :
    objsOf (facts.flatMap (factTriples id)) (.u (.wd id)) p = [] := by
  refine objsOf_nil_of _ _ _ (fun t ht hc => ?_)
  obtain ⟨x, hx⟩ := claimsG_entity_pred id facts t ht hc.1
  exact hp x (hc.2 ▸ hx)

lemma objsOf_aliasT (lang id : String) (aliases : List String) (p : TUri)
    (hp : p ≠ .skosAltLabel) :
    objsOf (aliases.map (fun a =>
      ((.u (.wd id) : TNode), TUri.skosAltLabel,
        (.lit a (some lang) Option.none : TNode)))) (.u (.wd id)) p = [] := by
  induction aliases with
  | nil => rfl
  | cons a rest ih =>
    rw [List.map_cons, objsOf_cons, if_neg (fun hc => hp hc.2.symm), ih]

lemma objsOf_aliasT_skos (lang id : String) (aliases : List String) :
    objsOf (aliases.map (fun a =>
      ((.u (.wd id) : TNode), TUri.skosAltLabel,
        (.lit a (some lang) Option.none : TNode)))) (.u (.wd id))
      .skosAltLabel =
    aliases.map (fun a => (.lit a (some lang) Option.none : TNode)) := by
  induction aliases with
  | nil => rfl
  | cons a rest ih =>
    rw [List.map_cons, objsOf_cons, if_pos ⟨rfl, rfl⟩, ih, List.map_cons]

lemma objsOf_enc_label (lang id label desc : String)
    (aliases : List String) (facts : List CFact) :
    objsOf (encodeTtl lang id label desc aliases facts) (.u (.wd id))
      .rdfsLabel = [.lit label (some lang) Option.none] := by
  rw [encodeTtl]
  simp only [objsOf_cons, objsOf_append,
    objsOf_aliasT lang id aliases TUri.rdfsLabel (by simp),
    objsOf_claimsG_entity id facts TUri.rdfsLabel (by simp)]
  simp

lemma objsOf_enc_desc (lang id label desc : String)
    (aliases : List String) (facts : List CFact) :
    objsOf (encodeTtl lang id label desc aliases facts) (.u (.wd id))
      .schemaDescription = [.lit desc (some lang) Option.none] := by
  rw [encodeTtl]
  simp only [objsOf_cons, objsOf_append,
    objsOf_aliasT lang id aliases TUri.schemaDescription (by simp),
    objsOf_claimsG_entity id facts TUri.schemaDescription (by simp)]
  simp

lemma objsOf_enc_alias (lang id label desc : String)
    (aliases : List String) (facts : List CFact) :
    objsOf (encodeTtl lang id label desc aliases facts) (.u (.wd id))
      .skosAltLabel =
    aliases.map (fun a => (.lit a (some lang) Option.none : TNode)) := by
  rw [encodeTtl]
  simp only [objsOf_cons, objsOf_append, objsOf_aliasT_skos,
    objsOf_claimsG_entity id facts TUri.skosAltLabel (by simp)]
  simp

lemma lang_value_map_enc_label (lang id label desc : String)
    (aliases : List String) (facts : List CFact) (hlang : lang ≠ "") :
    ttl_lang_value_map (encodeTtl lang id label desc aliases facts)
      (.u (.wd id)) .rdfsLabel = [(lang, .vdict lang label)] := by
  rw [ttl_lang_value_map, objsOf_enc_label]
  simp [hlang, dictUpsert]

lemma lang_value_map_enc_desc (lang id label desc : String)
    (aliases : List String) (facts : List CFact) (hlang : lang ≠ "") :
    ttl_lang_value_map (encodeTtl lang id label desc aliases facts)
      (.u (.wd id)) .schemaDescription = [(lang, .vdict lang desc)] := by
  rw [ttl_lang_value_map, objsOf_enc_desc]
  simp [hlang, dictUpsert]

lemma ttl_aliases_enc (lang id label desc : String)
    (aliases : List String) (facts : List CFact) (hlang : lang ≠ "")
    (hmul : lang ≠ "mul") :
    ttl_aliases (encodeTtl lang id label desc aliases facts) (.u (.wd id))
      lang = dedupFirst aliases := by
  rw [ttl_aliases]
  simp only [objsOf_enc_alias]
  have h1 : (aliases.map (fun a =>
      (.lit a (some lang) Option.none : TNode))).filterMap (fun o =>
        match o with
        | .lit s (some lg) _ =>
          if lg = lang ∧ lg ≠ "" then some s else Option.none
        | _ => Option.none) = aliases := by
    induction aliases with
    | nil => rfl
    | cons a rest ih =>
      rw [List.map_cons, List.filterMap_cons]
      simp [hlang, ih]
  have h2 : (aliases.map (fun a =>
      (.lit a (some lang) Option.none : TNode))).filterMap (fun o =>
        match o with
        | .lit s (some lg) _ =>
          if lg = "mul" ∧ lg ≠ "" then some s else Option.none
        | _ => Option.none) = [] := by
    induction aliases with
    | nil => rfl
    | cons a rest ih =>
      rw [List.map_cons, List.filterMap_cons]
      simp [hmul, ih]
  rw [h1, h2, List.append_nil]

lemma dedupFirstAux_all_skip (c : String) : ∀ (l : List String),
    (∀ x ∈ l, x = c) → dedupFirstAux l [c] = []
  | [], _ => rfl
  | x :: rest, h => by
    have hx : x = c := h x (List.mem_cons_self _ _)
    rw [dedupFirstAux, if_pos (by simp [hx]),
      dedupFirstAux_all_skip c rest (fun y hy =>
        h y (List.mem_cons_of_mem _ hy))]

lemma dedupFirst_all_eq (c : String) (l : List String)
    (h : ∀ x ∈ l, x = c) : dedupFirst (c :: l) = [c] := by
  rw [dedupFirst, dedupFirstAux, if_neg (by simp),
    dedupFirstAux_all_skip c l h]

lemma gvalue_cons (t : TNode × TUri × TNode)
    (g : List (TNode × TUri × TNode)) (s : TNode) (p : TUri) :
    gvalue (t :: g) s p =
    (if t.1 = s ∧ t.2.1 = p then some t.2.2 else gvalue g s p) := by
  obtain ⟨a, b, c⟩ := t
  rfl

/-- Every subject of the full canonical graph is the entity node or a
statement node. -/
lemma enc_subj (lang id label desc : String) (aliases : List String)
    (facts : List CFact) :
    ∀ t ∈ encodeTtl lang id label desc aliases facts,
    t.1 = .u (.wd id) ∨ ∃ tg, t.1 = .u (.stmtNode 0 tg) := by
  intro t ht
  rw [encodeTtl] at ht
  rcases List.mem_cons.mp ht with rfl | ht
  · exact Or.inl rfl
  rcases List.mem_cons.mp ht with rfl | ht
  · exact Or.inl rfl
  rcases List.mem_append.mp ht with ht | ht
  · obtain ⟨a, _, ha⟩ := List.mem_map.mp ht
    exact Or.inl (by rw [← ha])
  · exact claimsG_subj id facts t ht

lemma gvalue_enc_wdx (lang id label desc : String) (aliases : List String)
    (facts : List CFact) (x : String) (hx : x ≠ id) (p : TUri) :
    gvalue (encodeTtl lang id label desc aliases facts) (.u (.wd x)) p =
    Option.none := by
  refine gvalue_none_of_no_subj _ _ _ (fun t ht hc => ?_)
  rcases enc_subj lang id label desc aliases facts t ht with h | ⟨tg, h⟩
  · rw [h] at hc
    exact hx (TUri.wd.inj (TNode.u.inj hc)).symm
  · rw [h] at hc
    exact TUri.noConfusion (TNode.u.inj hc)

lemma gvalue_enc_stmtNode (lang id label desc : String)
    (aliases : List String) (facts : List CFact) (tg : ℕ) (p : TUri) :
    gvalue (encodeTtl lang id label desc aliases facts)
      (.u (.stmtNode 0 tg)) p =
    gvalue (facts.flatMap (factTriples id)) (.u (.stmtNode 0 tg)) p := by
  rw [encodeTtl]
  simp only [gvalue_cons, gvalue_append]
  rw [gvalue_none_of_no_subj (aliases.map (fun a =>
      ((.u (.wd id) : TNode), TUri.skosAltLabel,
        (.lit a (some lang) Option.none : TNode)))) (.u (.stmtNode 0 tg)) p
    (fun t ht hc => ?_)]
  · simp
  · obtain ⟨a, _, ha⟩ := List.mem_map.mp ht
    rw [← ha] at hc
    exact TUri.noConfusion (TNode.u.inj hc)

lemma predObjs_enc_stmtNode (lang id label desc : String)
    (aliases : List String) (facts : List CFact) (tg : ℕ) :
    predObjs (encodeTtl lang id label desc aliases facts)
      (.u (.stmtNode 0 tg)) =
    predObjs (facts.flatMap (factTriples id)) (.u (.stmtNode 0 tg)) := by
  rw [encodeTtl]
  simp only [predObjs_cons, predObjs_append]
  rw [predObjs_nil_of_no_subj (aliases.map (fun a =>
      ((.u (.wd id) : TNode), TUri.skosAltLabel,
        (.lit a (some lang) Option.none : TNode)))) (.u (.stmtNode 0 tg))
    (fun t ht hc => ?_)]
  · simp
  · obtain ⟨a, _, ha⟩ := List.mem_map.mp ht
    rw [← ha] at hc
    exact TUri.noConfusion (TNode.u.inj hc)

end WDT

namespace WDT

lemma cache_enc (lang id label desc : String) (aliases : List String)
    (facts : List CFact) (hid : isEntityIdStr id = true)
    (hlang : lang ≠ "") :
    ttl_build_label_cache (encodeTtl lang id label desc aliases facts) =
    [(id, [(lang, .vstr label)])] := by
  rw [ttl_build_label_cache]
  have hcand : dedupFirst ((gsubjects (encodeTtl lang id label desc aliases
      facts)).filterMap (fun s =>
        match s with
        | .u uri => qidFromWdUri uri
        | _ => Option.none)) = [id] := by
    have hall : ∀ x ∈ (gsubjects (encodeTtl lang id label desc aliases
        facts)).filterMap (fun s =>
          match s with
          | .u uri => qidFromWdUri uri
          | _ => Option.none), x = id := by
      intro x hx
      obtain ⟨sn, hsn, hq⟩ := List.mem_filterMap.mp hx
      obtain ⟨t, ht, hts⟩ := List.mem_map.mp hsn
      rcases enc_subj lang id label desc aliases facts t ht with h | ⟨tg, h⟩
      · rw [hts] at h
        rw [h] at hq
        rw [show (match TNode.u (TUri.wd id) with
            | TNode.u uri => qidFromWdUri uri
            | _ => Option.none) =
          (if isEntityIdStr id = true then some id else Option.none) from
          rfl, if_pos hid] at hq
        exact (Option.some.inj hq).symm
      · rw [hts] at h
        rw [h] at hq
        exact Option.noConfusion hq
    have hhead : (gsubjects (encodeTtl lang id label desc aliases
        facts)).filterMap (fun s =>
          match s with
          | .u uri => qidFromWdUri uri
          | _ => Option.none) =
        id :: ((gsubjects (encodeTtl lang id label desc aliases
          facts)).filterMap (fun s =>
            match s with
            | .u uri => qidFromWdUri uri
            | _ => Option.none)).tail := by
      rw [encodeTtl]
      rw [show gsubjects ((.u (.wd id), TUri.rdfsLabel,
          (.lit label (some lang) Option.none : TNode)) ::
          (.u (.wd id), TUri.schemaDescription,
            (.lit desc (some lang) Option.none : TNode)) ::
          (aliases.map (fun a => ((.u (.wd id) : TNode), TUri.skosAltLabel,
            (.lit a (some lang) Option.none : TNode)))) ++
          facts.flatMap (factTriples id) : TGraph) =
        (TNode.u (.wd id)) :: gsubjects
          (((.u (.wd id), TUri.schemaDescription,
            (.lit desc (some lang) Option.none : TNode)) ::
          (aliases.map (fun a => ((.u (.wd id) : TNode), TUri.skosAltLabel,
            (.lit a (some lang) Option.none : TNode)))) ++
          facts.flatMap (factTriples id)) : TGraph) from rfl]
      rw [List.filterMap_cons]
      rw [show (match (TNode.u (.wd id)) with
        | .u uri => qidFromWdUri uri
        | _ => Option.none) = some id from by
          rw [show (match (TNode.u (.wd id)) with
            | .u uri => qidFromWdUri uri
            | _ => Option.none) = (if isEntityIdStr id = true then some id
              else Option.none) from rfl, if_pos hid]]
      rfl
    rw [hhead]
    refine dedupFirst_all_eq id _ (fun x hx => ?_)
    exact hall x (hhead ▸ List.mem_cons_of_mem _ hx)
  rw [hcand, List.filterMap_cons]
  have hl := lang_value_map_enc_label lang id label desc aliases facts hlang
  simp only [hl]
  simp

lemma ttlResolve_enc (caps : NormCaps) (fb lang id label desc : String)
    (aliases : List String) (facts : List CFact)
    (hid : isEntityIdStr id = true) (hlang : lang ≠ "") (x : String)
    (hx : x ≠ id) :
    ttlResolve caps fb (encodeTtl lang id label desc aliases facts) x =
    caps.resolve x := by
  rw [ttlResolve, cache_enc lang id label desc aliases facts hid hlang]
  simp [List.lookup]
  rw [show (x == id) = false from by simp [hx]]

/-- The fold step of `ttl_claims_for_subject`, named for the proofs
below (definitionally the inline lambda of the source embedding). -/
def ttlStep (g : TGraph) (externalIds includeRefs qualifiers : Bool)
    (filterPids : List String) (out : List (String × List TStmt))
    (po : TUri × TNode) : List (String × List TStmt) :=
  match po with
  | (pred, .u objUri) =>
    if pred.startsWithProp then
      match pidFromPropUri pred with
      | some pid =>
        if filterPids ≠ [] ∧ pid ∉ filterPids then out
        else
          let obj : TNode := .u objUri
          if ttl_is_statement_node g obj pid then
            let datatype := ttl_prop_datatype g pid (some obj)
            if ¬externalIds ∧ datatype = "external-id" then out
            else
              let rank := match gvalue g obj (.ontology "rank") with
                | some (.u ru) => rankToStr ru
                | _ => Option.none
              let isSpecial := ttl_is_special g obj pid
              let main := if isSpecial then Option.none
                else ttl_main_value g obj pid datatype
              let quals := if qualifiers then ttl_qualifiers g obj else []
              let refs := if includeRefs then ttl_references g obj else []
              groupAppend out pid
                (TStmt.mk pid datatype rank main quals refs isSpecial)
          else out
      | Option.none => out
    else out
  | _ => out

lemma ttl_cfs_foldl (g : TGraph) (subj : TNode)
    (externalIds includeRefs allRanks qualifiers : Bool)
    (filterPids : List String) :
    ttl_claims_for_subject g subj externalIds includeRefs allRanks
      qualifiers filterPids =
    (let out := (predObjs g subj).foldl
      (ttlStep g externalIds includeRefs qualifiers filterPids) []
    if allRanks then out
    else
      out.map (fun kv =>
        let hp := kv.2.any (fun s => s.rank == some "preferred")
        (kv.1, kv.2.filter (fun s =>
          match s.rank with
          | Option.none => true
          | some r => (hp && r == "preferred") || (!hp && r == "normal")))))
    := rfl

lemma ttlStep_lit (g : TGraph) (ei ir qs : Bool) (fp : List String)
    (out : List (String × List TStmt)) (pred : TUri) (sv : String)
    (lg : Option String) (dt : Option TUri) :
    ttlStep g ei ir qs fp out (pred, .lit sv lg dt) = out := rfl

lemma headP_ne_headQ (p i : String) (hp : headIs 'P' p = true)
    (hi : headIs 'Q' i = true) : p ≠ i := by
  intro he
  subst he
  unfold headIs at hp hi
  cases hd : p.data with
  | nil => rw [hd] at hp; exact Bool.noConfusion hp
  | cons c rest =>
    rw [hd] at hp hi
    have h1 : c = 'P' := by simpa using hp
    have h2 : c = 'Q' := by simpa using hi
    rw [h1] at h2
    exact absurd h2 (by decide)

lemma rankToStr_rankNm (r : String) (h : rankOk r = true) :
    rankToStr (.rankUri (rankNm r)) = some r := by
  rw [rankOk, Bool.or_eq_true, Bool.or_eq_true] at h
  rcases h with (h | h) | h <;> rw [beq_iff_eq] at h <;> subst h <;> decide

lemma enc_node_rank (lang id label desc : String) (aliases : List String)
    (facts : List CFact) (f : CFact) (st : CStmt)
    (hnd : nodupB (allTags facts) = true) (hf : f ∈ facts)
    (hst : st ∈ f.statements) :
    gvalue (encodeTtl lang id label desc aliases facts)
      (.u (.stmtNode 0 st.tag)) (.ontology "rank") =
    some (.u (.rankUri (rankNm st.rank))) := by
  rw [gvalue_enc_stmtNode, gvalue_claims_to_chunk id facts f st hnd hf hst,
    gvalue_chunk_rank]

lemma enc_node_ps (lang id label desc : String) (aliases : List String)
    (facts : List CFact) (f : CFact) (st : CStmt)
    (hnd : nodupB (allTags facts) = true) (hf : f ∈ facts)
    (hst : st ∈ f.statements) :
    gvalue (encodeTtl lang id label desc aliases facts)
      (.u (.stmtNode 0 st.tag)) (.ps f.pid) = some (ttlObjOf st.value) := by
  rw [gvalue_enc_stmtNode, gvalue_claims_to_chunk id facts f st hnd hf hst,
    gvalue_chunk_ps]

lemma enc_node_psv (lang id label desc : String) (aliases : List String)
    (facts : List CFact) (f : CFact) (st : CStmt)
    (hnd : nodupB (allTags facts) = true) (hf : f ∈ facts)
    (hst : st ∈ f.statements) (x : String) :
    gvalue (encodeTtl lang id label desc aliases facts)
      (.u (.stmtNode 0 st.tag)) (.psv x) = Option.none := by
  rw [gvalue_enc_stmtNode, gvalue_claims_to_chunk id facts f st hnd hf hst,
    gvalue_chunk_psv]

lemma enc_node_predObjs (lang id label desc : String)
    (aliases : List String) (facts : List CFact) (f : CFact) (st : CStmt)
    (hnd : nodupB (allTags facts) = true) (hf : f ∈ facts)
    (hst : st ∈ f.statements) :
    predObjs (encodeTtl lang id label desc aliases facts)
      (.u (.stmtNode 0 st.tag)) =
    [(.ontology "rank", .u (.rankUri (rankNm st.rank))),
     (.ps f.pid, ttlObjOf st.value)] := by
  rw [predObjs_enc_stmtNode, predObjs_claims_to_chunk id facts f st hnd hf
    hst, predObjs_chunk]

lemma enc_node_is_stmt (lang id label desc : String)
    (aliases : List String) (facts : List CFact) (f : CFact) (st : CStmt)
    (hnd : nodupB (allTags facts) = true) (hf : f ∈ facts)
    (hst : st ∈ f.statements) :
    ttl_is_statement_node (encodeTtl lang id label desc aliases facts)
      (.u (.stmtNode 0 st.tag)) f.pid = true := by
  rw [ttl_is_statement_node]
  rw [enc_node_rank lang id label desc aliases facts f st hnd hf hst]
  rfl

lemma enc_node_special (lang id label desc : String)
    (aliases : List String) (facts : List CFact) (f : CFact) (st : CStmt)
    (hnd : nodupB (allTags facts) = true) (hf : f ∈ facts)
    (hst : st ∈ f.statements) :
    ttl_is_special (encodeTtl lang id label desc aliases facts)
      (.u (.stmtNode 0 st.tag)) f.pid = false := by
  rw [ttl_is_special]
  rw [enc_node_ps lang id label desc aliases facts f st hnd hf hst]
  rfl

lemma enc_node_datatype (lang id label desc : String)
    (aliases : List String) (facts : List CFact) (f : CFact) (st : CStmt)
    (hid : headIs 'Q' id = true) (hnd : nodupB (allTags facts) = true)
    (hf : f ∈ facts) (hst : st ∈ f.statements)
    (hpid : isPidStr f.pid = true)
    (hq : ∀ q, st.value = .item q → isEntityIdStr q = true ∧
      headIs 'Q' q = true) :
    ttl_prop_datatype (encodeTtl lang id label desc aliases facts) f.pid
      (some (.u (.stmtNode 0 st.tag))) = dtOfVal st.value := by
  rw [ttl_prop_datatype]
  rw [gvalue_enc_wdx lang id label desc aliases facts f.pid
    (headP_ne_headQ f.pid id (isPidStr_headP f.pid hpid) hid)]
  rw [enc_node_psv lang id label desc aliases facts f st hnd hf hst]
  rw [enc_node_ps lang id label desc aliases facts f st hnd hf hst]
  cases hval : st.value with
  | item q =>
    obtain ⟨h1, h2⟩ := hq q hval
    simp [ttlObjOf, qidFromWdUri, h1, h2, dtOfVal]
  | strv sv =>
    simp [ttlObjOf, dtOfVal]

lemma enc_node_main (lang id label desc : String)
    (aliases : List String) (facts : List CFact) (f : CFact) (st : CStmt)
    (hnd : nodupB (allTags facts) = true)
    (hf : f ∈ facts) (hst : st ∈ f.statements)
    (hq : ∀ q, st.value = .item q → isEntityIdStr q = true) :
    ttl_main_value (encodeTtl lang id label desc aliases facts)
      (.u (.stmtNode 0 st.tag)) f.pid (dtOfVal st.value) =
    some (pstrOfC st.value) := by
  rw [ttl_main_value]
  rw [if_neg (by
    rw [enc_node_is_stmt lang id label desc aliases facts f st hnd hf hst]
    simp)]
  rw [enc_node_psv lang id label desc aliases facts f st hnd hf hst]
  rw [enc_node_ps lang id label desc aliases facts f st hnd hf hst]
  cases hval : st.value with
  | item q =>
    simp [ttlObjOf, dtOfVal, ttl_parse_ps_value, qidFromWdUri, hq q hval,
      pstrOfC]
  | strv sv =>
    simp [ttlObjOf, dtOfVal, ttl_parse_ps_value, pstrOfC, TNode.toStr]

lemma enc_node_quals (lang id label desc : String)
    (aliases : List String) (facts : List CFact) (f : CFact) (st : CStmt)
    (hnd : nodupB (allTags facts) = true)
    (hf : f ∈ facts) (hst : st ∈ f.statements) :
    ttl_qualifiers (encodeTtl lang id label desc aliases facts)
      (.u (.stmtNode 0 st.tag)) = [] := by
  rw [ttl_qualifiers]
  rw [enc_node_predObjs lang id label desc aliases facts f st hnd hf hst]
  rfl

lemma ttlStep_stmt (lang id label desc : String) (aliases : List String)
    (facts : List CFact) (f : CFact) (st : CStmt)
    (hid : headIs 'Q' id = true) (hnd : nodupB (allTags facts) = true)
    (hf : f ∈ facts) (hst : st ∈ f.statements)
    (hpid : isPidStr f.pid = true) (hrank : rankOk st.rank = true)
    (hq : ∀ q, st.value = .item q → isEntityIdStr q = true ∧
      headIs 'Q' q = true)
    (out : List (String × List TStmt)) :
    ttlStep (encodeTtl lang id label desc aliases facts) true false true []
      out (.p f.pid, .u (.stmtNode 0 st.tag)) =
    groupAppend out f.pid (tstmtOf f st) := by
  have hpp : pidFromPropUri (.p f.pid) = some f.pid := by
    rw [show pidFromPropUri (.p f.pid) =
      (if isPidStr f.pid then some f.pid else Option.none) from rfl,
      if_pos hpid]
  simp only [ttlStep, TUri.startsWithProp, hpp,
    enc_node_is_stmt lang id label desc aliases facts f st hnd hf hst,
    enc_node_datatype lang id label desc aliases facts f st hid hnd hf hst
      hpid hq,
    enc_node_rank lang id label desc aliases facts f st hnd hf hst,
    enc_node_special lang id label desc aliases facts f st hnd hf hst,
    enc_node_main lang id label desc aliases facts f st hnd hf hst
      (fun q hv => (hq q hv).1),
    enc_node_quals lang id label desc aliases facts f st hnd hf hst,
    rankToStr_rankNm st.rank hrank]
  simp [tstmtOf]

lemma groupAppend_fresh {α : Type} (acc : List (String × List α))
    (k : String) (v : α) (h : k ∉ acc.map (·.1)) :
    groupAppend acc k v = acc ++ [(k, [v])] := by
  induction acc with
  | nil => rfl
  | cons kv rest ih =>
    obtain ⟨k0, vs0⟩ := kv
    rw [groupAppend, if_neg (fun he => h (by simp [he])), List.cons_append,
      ih (fun hm => h (List.mem_cons_of_mem _ hm))]

lemma groupAppend_at_end {α : Type} (acc0 : List (String × List α))
    (k : String) (vs : List α) (v : α) (h : k ∉ acc0.map (·.1)) :
    groupAppend (acc0 ++ [(k, vs)]) k v = acc0 ++ [(k, vs ++ [v])] := by
  induction acc0 with
  | nil => simp [groupAppend]
  | cons kv rest ih =>
    obtain ⟨k0, vs0⟩ := kv
    rw [List.cons_append, groupAppend,
      if_neg (fun he => h (by simp [he])), List.cons_append,
      ih (fun hm => h (List.mem_cons_of_mem _ hm))]

lemma fold_stmts_ext (lang id label desc : String) (aliases : List String)
    (facts : List CFact) (f : CFact)
    (hid : headIs 'Q' id = true) (hnd : nodupB (allTags facts) = true)
    (hf : f ∈ facts) (hpid : isPidStr f.pid = true)
    (hok : ∀ st ∈ f.statements, rankOk st.rank = true ∧
      (∀ q, st.value = .item q → isEntityIdStr q = true ∧
        headIs 'Q' q = true)) :
    ∀ (sts : List CStmt) (acc0 : List (String × List TStmt))
      (cur : List TStmt), f.pid ∉ acc0.map (·.1) →
      (∀ st ∈ sts, st ∈ f.statements) →
      List.foldl (ttlStep (encodeTtl lang id label desc aliases facts) true
        false true []) (acc0 ++ [(f.pid, cur)])
        (sts.map (fun st => (TUri.p f.pid, TNode.u (.stmtNode 0 st.tag))))
      = acc0 ++ [(f.pid, cur ++ sts.map (tstmtOf f))]
  | [], acc0, cur, _, _ => by simp
  | st :: rest, acc0, cur, hfr, hsub => by
    have hstm := hsub st (List.mem_cons_self _ _)
    rw [List.map_cons, List.foldl_cons,
      ttlStep_stmt lang id label desc aliases facts f st hid hnd hf hstm
        hpid (hok st hstm).1 (hok st hstm).2,
      groupAppend_at_end acc0 f.pid cur (tstmtOf f st) hfr,
      fold_stmts_ext lang id label desc aliases facts f hid hnd hf hpid hok
        rest acc0 (cur ++ [tstmtOf f st]) hfr
        (fun s hs => hsub s (List.mem_cons_of_mem _ hs)),
      List.map_cons, List.append_assoc]
    rfl

lemma fold_fact (lang id label desc : String) (aliases : List String)
    (facts : List CFact) (f : CFact)
    (hid : headIs 'Q' id = true) (hnd : nodupB (allTags facts) = true)
    (hf : f ∈ facts) (hpid : isPidStr f.pid = true)
    (hne : f.statements ≠ [])
    (hok : ∀ st ∈ f.statements, rankOk st.rank = true ∧
      (∀ q, st.value = .item q → isEntityIdStr q = true ∧
        headIs 'Q' q = true))
    (acc : List (String × List TStmt)) (hfr : f.pid ∉ acc.map (·.1)) :
    List.foldl (ttlStep (encodeTtl lang id label desc aliases facts) true
      false true []) acc
      (f.statements.map (fun st =>
        (TUri.p f.pid, TNode.u (.stmtNode 0 st.tag))))
    = acc ++ [(f.pid, f.statements.map (tstmtOf f))] := by
  obtain ⟨st0, rest, hsts⟩ := List.exists_cons_of_ne_nil hne
  rw [hsts, List.map_cons, List.foldl_cons,
    ttlStep_stmt lang id label desc aliases facts f st0 hid hnd hf
      (hsts ▸ List.mem_cons_self _ _) hpid
      (hok st0 (hsts ▸ List.mem_cons_self _ _)).1
      (hok st0 (hsts ▸ List.mem_cons_self _ _)).2,
    groupAppend_fresh acc f.pid (tstmtOf f st0) hfr,
    fold_stmts_ext lang id label desc aliases facts f hid hnd hf hpid hok
      rest acc [tstmtOf f st0] hfr
      (fun s hs => hsts ▸ List.mem_cons_of_mem _ hs),
    List.map_cons]
  rfl

lemma contains_iff_memS (l : List String) (x : String) :
    l.contains x = true ↔ x ∈ l := by
  induction l with
  | nil => simp
  | cons y ys ih =>
    simp only [List.contains_cons, List.mem_cons, Bool.or_eq_true, ih,
      beq_iff_eq]

lemma nodupS_cons (x : String) (xs : List String)
    (h : nodupS (x :: xs) = true) :
    x ∉ xs ∧ nodupS xs = true := by
  rw [show nodupS (x :: xs) = (!(xs.contains x) && nodupS xs) from rfl,
    Bool.and_eq_true, Bool.not_eq_true'] at h
  refine ⟨fun hm => ?_, h.2⟩
  rw [(contains_iff_memS _ _).mpr hm] at h
  exact Bool.noConfusion h.1

lemma fold_facts (lang id label desc : String) (aliases : List String)
    (facts : List CFact) (hid : headIs 'Q' id = true)
    (hnd : nodupB (allTags facts) = true) :
    ∀ (fs : List CFact) (acc : List (String × List TStmt)),
    (∀ g ∈ fs, g ∈ facts) → (∀ g ∈ fs, g.pid ∉ acc.map (·.1)) →
    nodupS (fs.map (·.pid)) = true →
    (∀ g ∈ fs, isPidStr g.pid = true) → (∀ g ∈ fs, g.statements ≠ []) →
    (∀ g ∈ fs, ∀ st ∈ g.statements, rankOk st.rank = true ∧
      (∀ q, st.value = .item q → isEntityIdStr q = true ∧
        headIs 'Q' q = true)) →
    List.foldl (ttlStep (encodeTtl lang id label desc aliases facts) true
      false true []) acc
      (fs.flatMap (fun g => g.statements.map (fun st =>
        (TUri.p g.pid, TNode.u (.stmtNode 0 st.tag)))))
    = acc ++ fs.map (fun g => (g.pid, g.statements.map (tstmtOf g)))
  | [], acc, _, _, _, _, _, _ => by simp
  | g :: gs, acc, hsub, hfr, hndp, hpids, hnes, hoks => by
    obtain ⟨hgx, hndp'⟩ := nodupS_cons g.pid (gs.map (·.pid))
      (by simpa using hndp)
    rw [List.flatMap_cons, List.foldl_append,
      fold_fact lang id label desc aliases facts g hid hnd
        (hsub g (List.mem_cons_self _ _))
        (hpids g (List.mem_cons_self _ _))
        (hnes g (List.mem_cons_self _ _))
        (hoks g (List.mem_cons_self _ _)) acc
        (hfr g (List.mem_cons_self _ _)),
      fold_facts lang id label desc aliases facts hid hnd gs
        (acc ++ [(g.pid, g.statements.map (tstmtOf g))])
        (fun x hx => hsub x (List.mem_cons_of_mem _ hx))
        (fun x hx => by
          rw [List.map_append, List.mem_append]
          rintro (hm | hm)
          · exact hfr x (List.mem_cons_of_mem _ hx) hm
          · simp only [List.map_cons, List.map_nil, List.mem_singleton]
              at hm
            exact hgx (hm ▸ List.mem_map_of_mem (·.pid) hx))
        hndp'
        (fun x hx => hpids x (List.mem_cons_of_mem _ hx))
        (fun x hx => hnes x (List.mem_cons_of_mem _ hx))
        (fun x hx => hoks x (List.mem_cons_of_mem _ hx)),
      List.map_cons, List.append_assoc]
    rfl

lemma predObjs_aliasT (lang id : String) (aliases : List String) :
    predObjs (aliases.map (fun a =>
      ((.u (.wd id) : TNode), TUri.skosAltLabel,
        (.lit a (some lang) Option.none : TNode)))) (.u (.wd id)) =
    aliases.map (fun a =>
      (TUri.skosAltLabel, (.lit a (some lang) Option.none : TNode))) := by
  induction aliases with
  | nil => rfl
  | cons a rest ih =>
    rw [List.map_cons, predObjs_cons, if_pos rfl, ih, List.map_cons]

lemma predObjs_stmt_chunk_entity (id pid : String) (st : CStmt) :
    predObjs (stmtTriples id pid st) (.u (.wd id)) =
    [(TUri.p pid, TNode.u (.stmtNode 0 st.tag))] := by
  rw [stmtTriples, predObjs_cons, if_pos rfl, predObjs_cons,
    if_neg (by simp), predObjs_cons, if_neg (by simp)]
  rfl

lemma predObjs_claimsG_entity (id : String) : ∀ (facts : List CFact),
    predObjs (facts.flatMap (factTriples id)) (.u (.wd id)) =
    facts.flatMap (fun f => f.statements.map (fun st =>
      (TUri.p f.pid, TNode.u (.stmtNode 0 st.tag))))
  | [] => rfl
  | f :: fs => by
    rw [List.flatMap_cons, predObjs_append, List.flatMap_cons,
      predObjs_claimsG_entity id fs, factTriples]
    congr 1
    induction f.statements with
    | nil => rfl
    | cons st rest ih =>
      rw [List.flatMap_cons, predObjs_append,
        predObjs_stmt_chunk_entity id f.pid st, ih, List.map_cons]
      rfl

lemma predObjs_enc_entity (lang id label desc : String)
    (aliases : List String) (facts : List CFact) :
    predObjs (encodeTtl lang id label desc aliases facts) (.u (.wd id)) =
    (TUri.rdfsLabel, (.lit label (some lang) Option.none : TNode)) ::
    (TUri.schemaDescription, (.lit desc (some lang) Option.none : TNode)) ::
    (aliases.map (fun a =>
      (TUri.skosAltLabel, (.lit a (some lang) Option.none : TNode))) ++
    facts.flatMap (fun f => f.statements.map (fun st =>
      (TUri.p f.pid, TNode.u (.stmtNode 0 st.tag))))) := by
  rw [encodeTtl]
  simp only [predObjs_cons, predObjs_append, predObjs_aliasT,
    predObjs_claimsG_entity]
  simp

lemma fold_lits (g : TGraph) (ei ir qs : Bool) (fp : List String) :
    ∀ (prs : List (TUri × TNode)),
    (∀ pr ∈ prs, ∃ a lg dt, pr.2 = TNode.lit a lg dt) →
    ∀ (out : List (String × List TStmt)),
    List.foldl (ttlStep g ei ir qs fp) out prs = out
  | [], _, out => rfl
  | pr :: rest, h, out => by
    obtain ⟨a, lg, dt, ha⟩ := h pr (List.mem_cons_self _ _)
    obtain ⟨prp, pro⟩ := pr
    simp only at ha
    rw [List.foldl_cons, ha, ttlStep_lit,
      fold_lits g ei ir qs fp rest
        (fun x hx => h x (List.mem_cons_of_mem _ hx)) out]

lemma ttl_any_f (f : CFact) : ∀ sts : List CStmt,
    (sts.map (tstmtOf f)).any (fun s => s.rank == some "preferred") =
    sts.any (fun st => st.rank == "preferred")
  | [] => rfl
  | st :: rest => by
    rw [List.map_cons, List.any_cons, List.any_cons,
      ttl_any_f f rest]
    congr 1

lemma ttl_filter_f_aux (f : CFact) (b : Bool) : ∀ sts : List CStmt,
    (sts.map (tstmtOf f)).filter (fun s =>
      match s.rank with
      | Option.none => true
      | some r => (b && r == "preferred") || (!b && r == "normal")) =
    (sts.filter (fun st =>
      (b && st.rank == "preferred") || (!b && st.rank == "normal"))).map
      (tstmtOf f)
  | [] => rfl
  | st :: rest => by
    rw [List.map_cons, List.filter_cons, List.filter_cons]
    by_cases hc : ((b && st.rank == "preferred")
        || (!b && st.rank == "normal")) = true
    · rw [if_pos (by exact hc), if_pos hc, ttl_filter_f_aux f b rest,
        List.map_cons]
    · rw [if_neg (by exact hc), if_neg hc, ttl_filter_f_aux f b rest]

lemma ttl_cfs_enc (lang id label desc : String) (aliases : List String)
    (facts : List CFact) (hid : headIs 'Q' id = true)
    (hnd : nodupB (allTags facts) = true)
    (hndp : nodupS (facts.map (·.pid)) = true)
    (hpids : ∀ g ∈ facts, isPidStr g.pid = true)
    (hnes : ∀ g ∈ facts, g.statements ≠ [])
    (hoks : ∀ g ∈ facts, ∀ st ∈ g.statements, rankOk st.rank = true ∧
      (∀ q, st.value = .item q → isEntityIdStr q = true ∧
        headIs 'Q' q = true)) :
    ttl_claims_for_subject (encodeTtl lang id label desc aliases facts)
      (.u (.wd id)) true false false true [] =
    facts.map (fun f => (f.pid, (keepC f.statements).map (tstmtOf f))) := by
  rw [ttl_cfs_foldl, predObjs_enc_entity]
  rw [List.foldl_cons, ttlStep_lit, List.foldl_cons, ttlStep_lit,
    List.foldl_append]
  rw [fold_lits (encodeTtl lang id label desc aliases facts) true false
    true [] (aliases.map (fun a =>
      (TUri.skosAltLabel, (.lit a (some lang) Option.none : TNode))))
    (by
      intro pr hpr
      obtain ⟨a, _, ha⟩ := List.mem_map.mp hpr
      exact ⟨a, some lang, Option.none, by rw [← ha]⟩) []]
  rw [fold_facts lang id label desc aliases facts hid hnd facts []
    (fun g hg => hg) (fun g _ => by simp) hndp hpids hnes hoks,
    List.nil_append]
  rw [if_neg (by simp)]
  rw [List.map_map]
  refine List.map_congr_left (fun f hf => ?_)
  show (f.pid, _) = (f.pid, (keepC f.statements).map (tstmtOf f))
  rw [Prod.mk.injEq]
  refine ⟨rfl, ?_⟩
  rw [show (f.pid, f.statements.map (tstmtOf f)).2.any (fun s =>
    s.rank == some "preferred") = f.statements.any (fun st =>
      st.rank == "preferred") from ttl_any_f f f.statements]
  exact ttl_filter_f_aux f _ f.statements

lemma ttl_tvo_item (caps : NormCaps) (resolve : String → String)
    (q : String) (hq : headIs 'Q' q = true) :
    ttl_to_value_object caps resolve "wikibase-item" (some (.pstr q)) =
    .ok (some (.entity (.mk q (some (.lazy (resolve q))) Option.none []
      .nil))) := by
  simp [ttl_to_value_object, hq]

lemma ttl_tvo_str (caps : NormCaps) (resolve : String → String)
    (s : String) :
    ttl_to_value_object caps resolve "string" (some (.pstr s)) =
    .ok (some (.text (some s))) := by
  simp [ttl_to_value_object, tparsedStr]

lemma dtOfVal_ne_empty (v : CVal) : (dtOfVal v ≠ "") = True := by
  cases v <;> simp [dtOfVal]

lemma ttl_claim_values_enc (caps : NormCaps)
    (fb lang id label desc : String) (aliases : List String)
    (facts : List CFact) (f : CFact) (dt0 : String)
    (hid : isEntityIdStr id = true) (hlang : lang ≠ "") :
    ∀ sts : List CStmt,
    (∀ st ∈ sts, ∀ q, st.value = .item q → headIs 'Q' q = true ∧ q ≠ id) →
    ttl_claim_values caps
      (ttlResolve caps fb (encodeTtl lang id label desc aliases facts))
      (encodeTtl lang id label desc aliases facts) dt0 false true
      (sts.map (tstmtOf f)) = .ok (toWCVL (sts.map (cvOfC caps dt0)))
  | [], _ => rfl
  | st :: rest, h => by
    have ih := ttl_claim_values_enc caps fb lang id label desc aliases
      facts f dt0 hid hlang rest
      (fun s hs => h s (List.mem_cons_of_mem _ hs))
    cases hval : st.value with
    | item q =>
      obtain ⟨hQ, hqid⟩ := h st (List.mem_cons_self _ _) q hval
      simp [ttl_claim_values, tstmtOf, hval, pstrOfC, dtOfVal,
        ttl_tvo_item caps _ q hQ,
        ttlResolve_enc caps fb lang id label desc aliases facts hid hlang
          q hqid,
        ttl_qual_claims, ih, bind, Except.bind, toWCVL, cvOfC, valOfC]
    | strv sv =>
      simp [ttl_claim_values, tstmtOf, hval, pstrOfC, dtOfVal,
        ttl_tvo_str, ttl_qual_claims, ih, bind, Except.bind, toWCVL,
        cvOfC, valOfC]

lemma dtOfFact_of_mem (f : CFact) (st : CStmt)
    (hhom : factHomog f = true) (hst : st ∈ f.statements) :
    dtOfVal st.value = dtOfFact f := by
  rw [factHomog] at hhom
  rw [dtOfFact]
  cases hsts : f.statements with
  | nil => rw [hsts] at hst; exact absurd hst (by simp)
  | cons st0 rest =>
    rw [hsts] at hhom
    have := List.all_eq_true.mp hhom st (hsts ▸ hst)
    simpa using this

lemma ttl_build_claim_enc (caps : NormCaps)
    (fb lang id label desc : String) (aliases : List String)
    (facts : List CFact) (f : CFact)
    (hid : isEntityIdStr id = true) (hidq : headIs 'Q' id = true)
    (hlang : lang ≠ "") (hpid : isPidStr f.pid = true)
    (hhom : factHomog f = true)
    (hk : keepC f.statements ≠ [])
    (hq : ∀ st ∈ f.statements, ∀ q, st.value = .item q →
      headIs 'Q' q = true ∧ q ≠ id) :
    ttl_build_claim_object caps
      (ttlResolve caps fb (encodeTtl lang id label desc aliases facts))
      (encodeTtl lang id label desc aliases facts) f.pid
      ((keepC f.statements).map (tstmtOf f)) false true =
    .ok (claimOfC caps f) := by
  obtain ⟨st0, rest, hsts⟩ := List.exists_cons_of_ne_nil hk
  have hm0 : st0 ∈ f.statements :=
    List.mem_of_mem_filter (hsts ▸ List.mem_cons_self st0 rest)
  have hdt0 : dtOfVal st0.value = dtOfFact f :=
    dtOfFact_of_mem f st0 hhom hm0
  rw [ttl_build_claim_object.eq_def]
  rw [show ((keepC f.statements).map (tstmtOf f)) =
    (tstmtOf f st0) :: (rest.map (tstmtOf f)) from by
      rw [hsts, List.map_cons]]
  rw [show (match (tstmtOf f st0) :: (rest.map (tstmtOf f)) with
    | st :: _ => if st.datatype ≠ "" then st.datatype else "string"
    | [] => "string") = dtOfFact f from by
      show (if (tstmtOf f st0).datatype ≠ "" then (tstmtOf f st0).datatype
        else "string") = dtOfFact f
      rw [show (tstmtOf f st0).datatype = dtOfVal st0.value from rfl]
      rw [if_pos (by cases st0.value <;> simp [dtOfVal])]
      exact hdt0]
  rw [show (tstmtOf f st0) :: (rest.map (tstmtOf f)) =
    ((st0 :: rest).map (tstmtOf f)) from by rw [List.map_cons], ← hsts]
  simp only [ttl_claim_values_enc caps fb lang id label desc aliases
      facts f (dtOfFact f) hid hlang (keepC f.statements)
      (fun st hst => hq st (List.mem_of_mem_filter hst)),
    ttlResolve_enc caps fb lang id label desc aliases facts hid hlang
      f.pid (headP_ne_headQ f.pid id (isPidStr_headP f.pid hpid) hidq)]
  simp [claimOfC, bind, Except.bind]

lemma ttl_claims_build_enc (caps : NormCaps)
    (fb lang id label desc : String) (aliases : List String)
    (facts : List CFact)
    (hid : isEntityIdStr id = true) (hidq : headIs 'Q' id = true)
    (hlang : lang ≠ "") :
    ∀ fs : List CFact, (∀ g ∈ fs, isPidStr g.pid = true) →
    (∀ g ∈ fs, factHomog g = true) →
    (∀ g ∈ fs, ∀ st ∈ g.statements, ∀ q, st.value = .item q →
      headIs 'Q' q = true ∧ q ≠ id) →
    ttl_claims_build caps
      (ttlResolve caps fb (encodeTtl lang id label desc aliases facts))
      (encodeTtl lang id label desc aliases facts) false true
      (fs.map (fun g => (g.pid, (keepC g.statements).map (tstmtOf g)))) =
    .ok (claimsOfC caps fs)
  | [], _, _, _ => rfl
  | g :: gs, hpids, hhoms, hqs => by
    have ih := ttl_claims_build_enc caps fb lang id label desc aliases
      facts hid hidq hlang gs
      (fun x hx => hpids x (List.mem_cons_of_mem _ hx))
      (fun x hx => hhoms x (List.mem_cons_of_mem _ hx))
      (fun x hx => hqs x (List.mem_cons_of_mem _ hx))
    by_cases hk : keepC g.statements = []
    · simp [ttl_claims_build, claimsOfC, hk, ih]
    · have hb := ttl_build_claim_enc caps fb lang id label desc aliases
        facts g hid hidq hlang (hpids g (List.mem_cons_self _ _))
        (hhoms g (List.mem_cons_self _ _)) hk
        (hqs g (List.mem_cons_self _ _))
      have hkm : ((keepC g.statements).map (tstmtOf g)).isEmpty = false :=
        by
        cases hke : keepC g.statements with
        | nil => exact absurd hke hk
        | cons a b => rw [List.map_cons]; rfl
      simp [ttl_claims_build, claimsOfC, hk, hkm, hb, ih, bind,
        Except.bind]

lemma ttl_normalize_enc (caps : NormCaps) (fb id label desc : String)
    (aliases : List String) (facts : List CFact)
    (hlang : caps.lang ≠ "") (hmul : caps.lang ≠ "mul")
    (hid : isEntityIdStr id = true) (hidq : headIs 'Q' id = true)
    (hnd : nodupB (allTags facts) = true)
    (hndp : nodupS (facts.map (·.pid)) = true)
    (hpids : ∀ g ∈ facts, isPidStr g.pid = true)
    (hnes : ∀ g ∈ facts, g.statements ≠ [])
    (hhoms : ∀ g ∈ facts, factHomog g = true)
    (hoks : ∀ g ∈ facts, ∀ st ∈ g.statements, rankOk st.rank = true ∧
      (∀ q, st.value = .item q → isEntityIdStr q = true ∧
        headIs 'Q' q = true ∧ q ≠ id)) :
    ttl_normalize caps fb id
      (encodeTtl caps.lang id label desc aliases facts) true false false
      true [] = .ok (builtEntity caps id label desc aliases facts) := by
  rw [ttl_normalize]
  simp only [lang_value_map_enc_label caps.lang id label desc aliases
      facts hlang,
    lang_value_map_enc_desc caps.lang id label desc aliases facts hlang,
    getLangVal_single,
    ttl_aliases_enc caps.lang id label desc aliases facts hlang hmul,
    ttl_cfs_enc caps.lang id label desc aliases facts hidq hnd hndp hpids
      hnes (fun g hg st hst => ⟨(hoks g hg st hst).1,
        fun q hq => ⟨((hoks g hg st hst).2 q hq).1,
          ((hoks g hg st hst).2 q hq).2.1⟩⟩),
    ttl_claims_build_enc caps fb caps.lang id label desc aliases facts hid
      hidq hlang facts hpids hhoms
      (fun g hg st hst q hq => ⟨((hoks g hg st hst).2 q hq).2.1,
        ((hoks g hg st hst).2 q hq).2.2⟩)]
  simp [builtEntity, bind, Except.bind]

lemma rankOk_ne_empty (r : String) (h : rankOk r = true) : r ≠ "" := by
  rw [rankOk, Bool.or_eq_true, Bool.or_eq_true] at h
  rcases h with (h | h) | h <;> rw [beq_iff_eq] at h <;> subst h <;> decide

lemma entityRepr_ne (e : WEntity) : entityRepr e ≠ "" := by
  intro h
  have := congrArg String.length h
  rw [entityRepr] at this
  simp [String.length_append] at this
  exact absurd this.1.1 (by decide)

lemma newCVBool_cvOfC (caps : NormCaps) (dt : String) (st : CStmt)
    (hs : ∀ s, st.value = .strv s → s ≠ "") :
    newCVBool (cvOfC caps dt st) = true := by
  cases hval : st.value with
  | item q =>
    simp [cvOfC, valOfC, newCVBool, newValueStr, hval, entityRepr_ne]
  | strv s =>
    simp [cvOfC, valOfC, newCVBool, newValueStr, hval, hs s hval]

lemma cv_json_eq (caps : NormCaps) (dt : String) (st : CStmt)
    (hv : ∀ q, st.value = .item q → caps.resolve q ≠ "")
    (hs : ∀ s, st.value = .strv s → s ≠ "") :
    oldCVToJson (cvOfC caps dt st) = newCVToJson (cvOfC caps dt st) := by
  cases hval : st.value with
  | item q =>
    simp [cvOfC, valOfC, oldCVToJson, newCVToJson, hval, oldValueStr,
      newValueStr, oldEntityStr_bare, hv q hval, entityRepr_ne]
  | strv s =>
    simp [cvOfC, valOfC, oldCVToJson, newCVToJson, hval, oldValueStr,
      newValueStr, hs s hval]

lemma cvs_json_eq (caps : NormCaps) (dt : String) : ∀ (sts : List CStmt),
    (∀ st ∈ sts, (∀ q, st.value = .item q → caps.resolve q ≠ "") ∧
      (∀ s, st.value = .strv s → s ≠ "")) →
    oldCVsJsonFiltered (toWCVL (sts.map (cvOfC caps dt))) =
    newCVsJsonFiltered (toWCVL (sts.map (cvOfC caps dt)))
  | [], _ => rfl
  | st :: rest, h => by
    have h0 := h st (List.mem_cons_self _ _)
    rw [List.map_cons, toWCVL, oldCVsJsonFiltered, newCVsJsonFiltered,
      if_pos (oldCVBool_cvOfC caps dt st h0.1 h0.2),
      if_pos (newCVBool_cvOfC caps dt st h0.2),
      cv_json_eq caps dt st h0.1 h0.2,
      cvs_json_eq caps dt rest
        (fun s hs => h s (List.mem_cons_of_mem _ hs))]

lemma newClaimBool_claimOfC (caps : NormCaps) (f : CFact)
    (hp : caps.resolve f.pid ≠ "")
    (hk : keepC f.statements ≠ [])
    (hs : ∀ st ∈ f.statements, ∀ s, st.value = .strv s → s ≠ "") :
    newClaimBool (claimOfC caps f) = true := by
  obtain ⟨st0, rest, hsts⟩ := List.exists_cons_of_ne_nil hk
  have hm0 : st0 ∈ f.statements :=
    List.mem_of_mem_filter (hsts ▸ List.mem_cons_self st0 rest)
  simp only [claimOfC, newClaimBool, hsts, List.map_cons, toWCVL]
  simp [pyStrOptLbl, Lbl.str, WEntity.label, hp, WCValueList.length,
    newCVAnyTruthy, newCVBool_cvOfC caps _ st0 (hs st0 hm0)]

lemma claim_json_eq (caps : NormCaps) (f : CFact)
    (h : ∀ st ∈ keepC f.statements,
      (∀ q, st.value = .item q → caps.resolve q ≠ "") ∧
      (∀ s, st.value = .strv s → s ≠ "")) :
    oldClaimToJson (claimOfC caps f) = newClaimToJson (claimOfC caps f)
    := by
  simp only [claimOfC, oldClaimToJson, newClaimToJson]
  rw [cvs_json_eq caps (dtOfFact f) (keepC f.statements) h]

lemma claims_json_eq (caps : NormCaps) : ∀ (facts : List CFact),
    (∀ f ∈ facts, caps.resolve f.pid ≠ "") →
    (∀ f ∈ facts, ∀ st ∈ f.statements,
      (∀ q, st.value = .item q → caps.resolve q ≠ "") ∧
      (∀ s, st.value = .strv s → s ≠ "")) →
    oldClaimsJsonFiltered (claimsOfC caps facts) =
    newClaimsJsonFiltered (claimsOfC caps facts)
  | [], _, _ => rfl
  | f :: fs, hres, hok => by
    have ih := claims_json_eq caps fs
      (fun g hg => hres g (List.mem_cons_of_mem _ hg))
      (fun g hg => hok g (List.mem_cons_of_mem _ hg))
    by_cases hk : keepC f.statements = []
    · simp only [claimsOfC,
        if_pos (show (keepC f.statements).isEmpty = true from by
          rw [hk]; rfl)]
      exact ih
    · have hf0 := List.mem_cons_self f fs
      have hmemok : ∀ st ∈ keepC f.statements,
          (∀ q, st.value = .item q → caps.resolve q ≠ "") ∧
          (∀ s, st.value = .strv s → s ≠ "") := fun st hst =>
        hok f hf0 st (List.mem_of_mem_filter hst)
      rw [claimsOfC, if_neg (by
        intro hko
        exact hk (List.isEmpty_iff.mp hko))]
      rw [oldClaimsJsonFiltered, newClaimsJsonFiltered,
        if_pos (oldClaimBool_claimOfC caps f (hres f hf0) hk
          (fun st hst q hq => (hok f hf0 st hst).1 q hq)
          (fun st hst s hs => (hok f hf0 st hst).2 s hs)),
        if_pos (newClaimBool_claimOfC caps f (hres f hf0) hk
          (fun st hst s hs => (hok f hf0 st hst).2 s hs)),
        claim_json_eq caps f hmemok, ih]

lemma entity_json_eq (caps : NormCaps) (id label desc : String)
    (aliases : List String) (facts : List CFact)
    (hres : ∀ f ∈ facts, caps.resolve f.pid ≠ "")
    (hok : ∀ f ∈ facts, ∀ st ∈ f.statements,
      (∀ q, st.value = .item q → caps.resolve q ≠ "") ∧
      (∀ s, st.value = .strv s → s ≠ "")) :
    oldEntityToJson (builtEntity caps id label desc aliases facts) =
    newEntityToJson (builtEntity caps id label desc aliases facts) := by
  simp only [builtEntity, oldEntityToJson, newEntityToJson]
  rw [claims_json_eq caps facts hres hok]

lemma cv_triplet_eq (caps : NormCaps) (dt : String) (st : CStmt)
    (hv : ∀ q, st.value = .item q → caps.resolve q ≠ "")
    (hs : ∀ s, st.value = .strv s → s ≠ "") :
    oldCVToTriplet (cvOfC caps dt st) = newCVToTriplet (cvOfC caps dt st)
    := by
  cases hval : st.value with
  | item q =>
    simp [cvOfC, valOfC, oldCVToTriplet, newCVToTriplet, hval, oldValueStr,
      newValueStr, oldEntityStr_bare, hv q hval, entityRepr_ne,
      oldQualTripletsFiltered, newQualTripletsFiltered]
  | strv s =>
    simp [cvOfC, valOfC, oldCVToTriplet, newCVToTriplet, hval, oldValueStr,
      newValueStr, hs s hval, oldQualTripletsFiltered,
      newQualTripletsFiltered]

lemma cvs_triplet_eq (caps : NormCaps) (dt : String) :
    ∀ (sts : List CStmt),
    (∀ st ∈ sts, (∀ q, st.value = .item q → caps.resolve q ≠ "") ∧
      (∀ s, st.value = .strv s → s ≠ "")) →
    oldCVTripletsFiltered (toWCVL (sts.map (cvOfC caps dt))) =
    newCVTripletsFiltered (toWCVL (sts.map (cvOfC caps dt)))
  | [], _ => rfl
  | st :: rest, h => by
    have h0 := h st (List.mem_cons_self _ _)
    rw [List.map_cons, toWCVL, oldCVTripletsFiltered,
      newCVTripletsFiltered,
      if_pos (oldCVBool_cvOfC caps dt st h0.1 h0.2),
      if_pos (newCVBool_cvOfC caps dt st h0.2),
      cv_triplet_eq caps dt st h0.1 h0.2,
      cvs_triplet_eq caps dt rest
        (fun s hs => h s (List.mem_cons_of_mem _ hs))]

lemma claim_triplet_eq (caps : NormCaps) (f : CFact) (asQ : Bool)
    (h : ∀ st ∈ keepC f.statements,
      (∀ q, st.value = .item q → caps.resolve q ≠ "") ∧
      (∀ s, st.value = .strv s → s ≠ "")) :
    oldClaimToTriplet asQ (claimOfC caps f) =
    newClaimToTriplet asQ (claimOfC caps f) := by
  simp only [claimOfC, oldClaimToTriplet, newClaimToTriplet]
  rw [cvs_triplet_eq caps (dtOfFact f) (keepC f.statements) h]
  have hb : oldCVAnyTruthy (toWCVL ((keepC f.statements).map
      (cvOfC caps (dtOfFact f)))) = newCVAnyTruthy (toWCVL
      ((keepC f.statements).map (cvOfC caps (dtOfFact f)))) := by
    cases hke : keepC f.statements with
    | nil => rfl
    | cons st0 rest =>
      have hm0 : st0 ∈ keepC f.statements := hke ▸ List.mem_cons_self _ _
      rw [List.map_cons, toWCVL, oldCVAnyTruthy, newCVAnyTruthy,
        oldCVBool_cvOfC caps _ st0 (h st0 hm0).1 (h st0 hm0).2,
        newCVBool_cvOfC caps _ st0 (h st0 hm0).2]
      simp
  rw [hb]

lemma claims_triplet_eq (caps : NormCaps) : ∀ (facts : List CFact),
    (∀ f ∈ facts, caps.resolve f.pid ≠ "") →
    (∀ f ∈ facts, ∀ st ∈ f.statements,
      (∀ q, st.value = .item q → caps.resolve q ≠ "") ∧
      (∀ s, st.value = .strv s → s ≠ "")) →
    oldClaimTripletsFiltered (claimsOfC caps facts) =
    newClaimTripletsFiltered (claimsOfC caps facts)
  | [], _, _ => rfl
  | f :: fs, hres, hok => by
    have ih := claims_triplet_eq caps fs
      (fun g hg => hres g (List.mem_cons_of_mem _ hg))
      (fun g hg => hok g (List.mem_cons_of_mem _ hg))
    by_cases hk : keepC f.statements = []
    · simp only [claimsOfC,
        if_pos (show (keepC f.statements).isEmpty = true from by
          rw [hk]; rfl)]
      exact ih
    · have hf0 := List.mem_cons_self f fs
      have hmemok : ∀ st ∈ keepC f.statements,
          (∀ q, st.value = .item q → caps.resolve q ≠ "") ∧
          (∀ s, st.value = .strv s → s ≠ "") := fun st hst =>
        hok f hf0 st (List.mem_of_mem_filter hst)
      rw [claimsOfC, if_neg (by
        intro hko
        exact hk (List.isEmpty_iff.mp hko))]
      rw [oldClaimTripletsFiltered, newClaimTripletsFiltered,
        if_pos (oldClaimBool_claimOfC caps f (hres f hf0) hk
          (fun st hst q hq => (hok f hf0 st hst).1 q hq)
          (fun st hst s hs => (hok f hf0 st hst).2 s hs)),
        if_pos (newClaimBool_claimOfC caps f (hres f hf0) hk
          (fun st hst s hs => (hok f hf0 st hst).2 s hs)),
        claim_triplet_eq caps f false hmemok, ih]

lemma entity_triplet_eq (caps : NormCaps) (id label desc : String)
    (aliases : List String) (facts : List CFact)
    (hres : ∀ f ∈ facts, caps.resolve f.pid ≠ "")
    (hok : ∀ f ∈ facts, ∀ st ∈ f.statements,
      (∀ q, st.value = .item q → caps.resolve q ≠ "") ∧
      (∀ s, st.value = .strv s → s ≠ "")) :
    oldEntityToTriplet (builtEntity caps id label desc aliases facts) =
    newEntityToTriplet (builtEntity caps id label desc aliases facts) := by
  simp only [builtEntity, oldEntityToTriplet, newEntityToTriplet]
  rw [claims_triplet_eq caps facts hres hok]

/-- **C1 (amended).**  On canonically encoded inputs — one entity with
language-tagged label, description and aliases, and item- or
string-valued statements of explicit rank, written both as wikibase
JSON (`encodeJson`) and as the equivalent Turtle triples
(`encodeTtl`) — the two normalizers produce the *same* normalized
entity (`builtEntity`): identical label, description, alias set,
claims, per-property rank-filtered value lists, under the stated
side conditions (well-formed ids, distinct pids and statement nodes,
homogeneous per-property datatypes, a label store that resolves every
referenced id non-emptily, and a non-degenerate language code).  On
that common entity the structured (`to_json`) and triplet renderers of
the two textifier modules also agree.  The prose renderers do NOT
agree (see the counterexample theorem): the original claim's
"identical rendered outputs across all three renderers" fails for
prose. -/
theorem normalizer_refinement (caps : NormCaps) (fb id label desc : String)
    (aliases : List String) (facts : List CFact)
    (hw : cfactsOk id facts = true)
    (hlang : caps.lang ≠ "") (hmul : caps.lang ≠ "mul")
    (hres : ∀ f ∈ facts, caps.resolve f.pid ≠ "")
    (hresq : ∀ f ∈ facts, ∀ st ∈ f.statements, ∀ q,
      st.value = .item q → caps.resolve q ≠ "") :
    json_normalize caps fb id
        (encodeJson caps.lang label desc aliases facts) true false false []
      = .ok (builtEntity caps id label desc aliases facts) ∧
    ttl_normalize caps fb id
        (encodeTtl caps.lang id label desc aliases facts) true false false
        true []
      = .ok (builtEntity caps id label desc aliases facts) ∧
    oldEntityToJson (builtEntity caps id label desc aliases facts) =
      newEntityToJson (builtEntity caps id label desc aliases facts) ∧
    oldEntityToTriplet (builtEntity caps id label desc aliases facts) =
      newEntityToTriplet (builtEntity caps id label desc aliases facts)
    := by
  rw [cfactsOk] at hw
  simp only [Bool.and_eq_true] at hw
  obtain ⟨⟨⟨⟨hid, hidq⟩, hall⟩, hndp⟩, hnd⟩ := hw
  have hfact : ∀ f ∈ facts, cfactOk id f = true := List.all_eq_true.mp hall
  have hpids : ∀ f ∈ facts, isPidStr f.pid = true := by
    intro f hf
    have := hfact f hf
    rw [cfactOk] at this
    simp only [Bool.and_eq_true] at this
    exact this.1.1.1
  have hnes : ∀ f ∈ facts, f.statements ≠ [] := by
    intro f hf
    have := hfact f hf
    rw [cfactOk] at this
    simp only [Bool.and_eq_true] at this
    have h2 := this.1.1.2
    intro he
    rw [he] at h2
    exact Bool.noConfusion h2
  have hhoms : ∀ f ∈ facts, factHomog f = true := by
    intro f hf
    have := hfact f hf
    rw [cfactOk] at this
    simp only [Bool.and_eq_true] at this
    exact this.2
  have hsts : ∀ f ∈ facts, ∀ st ∈ f.statements, cstmtOk id st = true := by
    intro f hf
    have := hfact f hf
    rw [cfactOk] at this
    simp only [Bool.and_eq_true] at this
    exact List.all_eq_true.mp this.1.2
  have hrk : ∀ f ∈ facts, ∀ st ∈ f.statements, rankOk st.rank = true := by
    intro f hf st hst
    have := hsts f hf st hst
    rw [cstmtOk, Bool.and_eq_true] at this
    exact this.1
  have hitem : ∀ f ∈ facts, ∀ st ∈ f.statements, ∀ q,
      st.value = .item q → isEntityIdStr q = true ∧ headIs 'Q' q = true ∧
        q ≠ id := by
    intro f hf st hst q hq
    have := hsts f hf st hst
    rw [cstmtOk, Bool.and_eq_true] at this
    have h2 := this.2
    rw [cvalOk.eq_def, hq] at h2
    simp only [Bool.and_eq_true, decide_eq_true_eq] at h2
    exact ⟨h2.1.1, h2.1.2, h2.2⟩
  have hstr : ∀ f ∈ facts, ∀ st ∈ f.statements, ∀ sv,
      st.value = .strv sv → sv ≠ "" := by
    intro f hf st hst sv hv
    have := hsts f hf st hst
    rw [cstmtOk, Bool.and_eq_true] at this
    have h2 := this.2
    rw [cvalOk.eq_def, hv] at h2
    simpa using h2
  have hok2 : ∀ f ∈ facts, ∀ st ∈ f.statements,
      (∀ q, st.value = .item q → caps.resolve q ≠ "") ∧
      (∀ sv, st.value = .strv sv → sv ≠ "") :=
    fun f hf st hst => ⟨fun q hq => hresq f hf st hst q hq,
      fun sv hv => hstr f hf st hst sv hv⟩
  refine ⟨?_, ?_, ?_, ?_⟩
  · exact json_normalize_enc caps fb id label desc aliases facts hmul
      hpids hnes hres
      (fun f hf st hst q hq => ⟨(hitem f hf st hst q hq).2.1,
        hresq f hf st hst q hq⟩)
      hstr
  · exact ttl_normalize_enc caps fb id label desc aliases facts hlang hmul
      hid hidq hnd hndp hpids hnes hhoms
      (fun f hf st hst => ⟨hrk f hf st hst,
        fun q hq => hitem f hf st hst q hq⟩)
  · exact entity_json_eq caps id label desc aliases facts hres hok2
  · exact entity_triplet_eq caps id label desc aliases facts hres hok2

/-- A concrete label store (non-empty on every id), with the
transparent time locale. -/
def c1Caps : NormCaps :=
  { resolve := fun q => String.append "lbl-" q, timeCaps := revealCaps,
    lang := "en" }

/-- Concrete canonical facts: one item property exercising
preferred-rank filtering, one string property, one property whose only
statement is deprecated (dropped entirely by both normalizers). -/
def exFacts : List CFact :=
  [⟨"P1", [⟨0, "preferred", .item "Q5"⟩, ⟨1, "normal", .item "Q6"⟩,
    ⟨2, "deprecated", .item "Q7"⟩]⟩,
   ⟨"P2", [⟨3, "normal", .strv "hello"⟩, ⟨4, "normal", .strv "world"⟩]⟩,
   ⟨"P3", [⟨5, "deprecated", .strv "gone"⟩]⟩]

theorem c1_resolve_ne (q : String) : c1Caps.resolve q ≠ "" := fun h =>
  Nat.succ_ne_zero (q.length + 3) (congrArg String.length h)

theorem normalizer_refinement_witness :
    json_normalize c1Caps "en" "Q1"
        (encodeJson c1Caps.lang "X" "D" ["a", "b", "a"] exFacts) true false
        false []
      = .ok (builtEntity c1Caps "Q1" "X" "D" ["a", "b", "a"] exFacts) ∧
    ttl_normalize c1Caps "en" "Q1"
        (encodeTtl c1Caps.lang "Q1" "X" "D" ["a", "b", "a"] exFacts) true
        false false true []
      = .ok (builtEntity c1Caps "Q1" "X" "D" ["a", "b", "a"] exFacts) ∧
    oldEntityToJson (builtEntity c1Caps "Q1" "X" "D" ["a", "b", "a"]
        exFacts) =
      newEntityToJson (builtEntity c1Caps "Q1" "X" "D" ["a", "b", "a"]
        exFacts) ∧
    oldEntityToTriplet (builtEntity c1Caps "Q1" "X" "D" ["a", "b", "a"]
        exFacts) =
      newEntityToTriplet (builtEntity c1Caps "Q1" "X" "D" ["a", "b", "a"]
        exFacts) :=
  normalizer_refinement c1Caps "en" "Q1" "X" "D" ["a", "b", "a"] exFacts
    (by decide) (by decide) (by decide) (by decide)
    (fun f hf st hst q hq => c1_resolve_ne q)

/-- **C1 (counterexample to the original claim).**  A pair of
equivalent encodings (same label `"X"`, same alias `"a"`, no claims)
normalizes to the same entity through both pipelines, but the prose
renderer attached to the JSON pipeline (the old module's `__str__`)
writes `"X, also known as a."` while the TTL pipeline's renderer (the
new module's `to_text`) writes `"X, also known as: a."` — the
rendered outputs are not identical across all three renderers. -/
theorem prose_renderer_divergence_cex :
    json_normalize c1Caps "en" "Q1" (encodeJson "en" "X" "" ["a"] []) true
        false false []
      = .ok (builtEntity c1Caps "Q1" "X" "" ["a"] []) ∧
    ttl_normalize c1Caps "en" "Q1" (encodeTtl "en" "Q1" "X" "" ["a"] [])
        true false false true []
      = .ok (builtEntity c1Caps "Q1" "X" "" ["a"] []) ∧
    oldEntityStr (builtEntity c1Caps "Q1" "X" "" ["a"] []) =
      "X, also known as a." ∧
    newEntityToText enLangVars (builtEntity c1Caps "Q1" "X" "" ["a"] []) =
      "X, also known as: a." ∧
    oldEntityStr (builtEntity c1Caps "Q1" "X" "" ["a"] []) ≠
      newEntityToText enLangVars (builtEntity c1Caps "Q1" "X" "" ["a"] [])
    := ⟨rfl, rfl, rfl, rfl, by decide⟩

end WDT
